import Mathlib

/-!
# TDMS time-stepping engine: a shallow embedding of `iterator.cpp`

The definitions below transcribe the parts of `execute_simulation`
(`src/tdms/src/iterator.cpp`) and of its helper functions that the verified
properties are about.  Arrays are total functions of integer indices
(`A[k][j][i]` is `A k j i`), `double` is an arbitrary linearly ordered field `R`
(exact arithmetic), and a mutable array is threaded through as a value.
-/

namespace TDMS

/-! ## Data model -/

/-- The six split components of a field (`xy`, `xz`, `yx`, `yz`, `zx`, `zy`). -/
inductive Comp where
  | xy | xz | yx | yz | zx | zy
  deriving DecidableEq, Repr

/-- A split field (`ElectricSplitField`, `MagneticSplitField`, `CurrentDensitySplitField`):
component `c` at cell `[k][j][i]`. -/
abbrev SplitField (R : Type) := Comp → Int → Int → Int → R

/-- The assignment `F.c[k][j][i] = v`. -/
def SplitField.set {R : Type} (F : SplitField R) (c : Comp) (k j i : Int) (v : R) :
    SplitField R :=
  fun c' k' j' i' => if c' = c ∧ k' = k ∧ j' = j ∧ i' = i then v else F c' k' j' i'

/-- Three coefficient vectors, one per axis (`XYZVectors`). -/
structure XYZVectors (R : Type) where
  x : Int → R
  y : Int → R
  z : Int → R

/-- Update coefficients `a`, `b`, `c` per axis (`CCollection`, `CMaterial`, and with only
`a`, `b` used, `DCollection`, `DMaterial`). -/
structure CCollection (R : Type) where
  a : XYZVectors R
  b : XYZVectors R
  c : XYZVectors R

/-- Dispersive multilayer data (`DispersiveMultiLayer`). -/
structure DispersiveMultiLayer (R : Type) where
  alpha : Int → R
  beta : Int → R
  gamma : Int → R
  kappa : XYZVectors R
  sigma : XYZVectors R

/-- The read-only data of a run that the update kernels consult. -/
structure SimParams (R : Type) where
  I_tot : Int
  J_tot : Int
  K_tot : Int
  Dxl : Int
  Dxu : Int
  Dzl : Int
  is_structure : Bool
  is_multilayer : Bool
  is_disp_ml : Bool
  interp_mat_props : Bool
  is_disp : Bool
  is_cond : Bool
  /-- The entry `structure[i][1]`. -/
  structure_1 : Int → Int
  materials : Int → Int → Int → Nat
  C : CCollection R
  Cmaterial : CCollection R
  D : CCollection R
  Dmaterial : CCollection R
  rho_cond : XYZVectors R
  ml : DispersiveMultiLayer R
  alpha : Int → R
  beta : Int → R
  gamma : Int → R
  dx : R
  dy : R
  dz : R
  dt : R
  EPSILON0 : R

/-- The mutable field state of the time loop. -/
structure Grid (R : Type) where
  E_s : SplitField R
  H_s : SplitField R
  J_s : SplitField R
  J_c : SplitField R
  E_nm1 : SplitField R
  J_nm1 : SplitField R

/-- Coefficients and material parameters a kernel has chosen for one cell. -/
structure CellCoeffs (R : Type) where
  Ca : R
  Cb : R
  Cc : R
  rho : R
  alpha_l : R
  beta_l : R
  gamma_l : R
  kappa_l : R
  sigma_l : R

/-- A coefficient triple `(Ca, Cb, Cc)`. -/
@[ext]
structure Triple (R : Type) where
  a : R
  b : R
  c : R

section Kernels

variable {R : Type} [LinearOrderedField R]

/-- The scalar `K = K_tot - params.pml.Dxl - params.pml.Dxu` (iterator.cpp line 823). -/
def SimParams.K (p : SimParams R) : Int := p.K_tot - p.Dxl - p.Dxu

/-- The index `k_loc` (iterator.cpp lines 1383-1393, repeated in every kernel). -/
def k_loc (p : SimParams R) (k i : Int) : Int :=
  if p.is_structure then
    if k > p.Dzl ∧ k < p.Dzl + p.K then
      if k - p.structure_1 i < p.K + p.Dzl ∧ k - p.structure_1 i > p.Dzl then
        k - p.structure_1 i
      else if k - p.structure_1 i ≥ p.K + p.Dzl then p.Dzl + p.K - 1
      else p.Dzl + 1
    else k
  else k

/-- The index `array_ind` of the kernels that use the `y` tables (lines 1394-1396). -/
def array_ind_y (p : SimParams R) (k j i : Int) : Int :=
  if !p.is_multilayer then j else (p.J_tot + 1) * k_loc p k i + j

/-- The index `array_ind` of the kernels that use the `x` tables (lines 1950-1952). -/
def array_ind_x (p : SimParams R) (k i : Int) : Int :=
  if !p.is_multilayer then i else (p.I_tot + 1) * k_loc p k i + i

/-- The choice of `Ca`, `Cb`, `Cc`, `rho` in the 3D/TE kernels (lines 1399-1435): `ax` is the
axis of the tables, `ind` the index into the background tables, `m0` the material of the cell
and `m1` that of the neighbour the kernel looks at. -/
def selectCoeffs (p : SimParams R) (ax : XYZVectors R → Int → R) (ind : Int) (m0 m1 : Nat) :
    Triple R × R :=
  if m0 ≠ 0 ∨ m1 ≠ 0 then
    let t : Triple R :=
      if m0 = 0 then
        ⟨ax p.C.a ind, ax p.C.b ind, if p.is_disp_ml then ax p.C.c ind else 0⟩
      else
        ⟨ax p.Cmaterial.a ((m0 : Int) - 1), ax p.Cmaterial.b ((m0 : Int) - 1),
          ax p.Cmaterial.c ((m0 : Int) - 1)⟩
    let t : Triple R :=
      if p.interp_mat_props then
        let t : Triple R :=
          if m1 = 0 then
            ⟨t.a + ax p.C.a ind, t.b + ax p.C.b ind,
              if p.is_disp_ml then t.c + ax p.C.c ind else t.c⟩
          else
            ⟨t.a + ax p.Cmaterial.a ((m1 : Int) - 1), t.b + ax p.Cmaterial.b ((m1 : Int) - 1),
              t.c + ax p.Cmaterial.c ((m1 : Int) - 1)⟩
        ⟨t.a / 2, t.b / 2, t.c / 2⟩
      else t
    (t, 0)
  else
    (⟨ax p.C.a ind, ax p.C.b ind, if p.is_disp_ml then ax p.C.c ind else 0⟩,
      if p.is_cond then ax p.rho_cond ind else 0)

/-- The dispersion parameters `(alpha_l, beta_l, gamma_l)` of the 3D/TE kernels
(lines 1437-1473, without `kappa_l`, `sigma_l`). -/
def selectDisp (p : SimParams R) (kl : Int) (m0 m1 : Nat) : R × R × R :=
  if p.is_disp || p.is_disp_ml then
    if m0 ≠ 0 ∨ m1 ≠ 0 then
      let a0 := if m0 ≠ 0 then p.alpha ((m0 : Int) - 1) else p.ml.alpha kl
      let b0 := if m0 ≠ 0 then p.beta ((m0 : Int) - 1) else p.ml.beta kl
      let g0 := if m0 ≠ 0 then p.gamma ((m0 : Int) - 1) else p.ml.gamma kl
      let a1 := if m1 ≠ 0 then a0 + p.alpha ((m1 : Int) - 1) else a0 + p.ml.alpha kl
      let b1 := if m1 ≠ 0 then b0 + p.beta ((m1 : Int) - 1) else b0 + p.ml.beta kl
      let g1 := if m1 ≠ 0 then g0 + p.gamma ((m1 : Int) - 1) else g0 + p.ml.gamma kl
      (a1 / 2, b1 / 2, g1 / 2)
    else (p.ml.alpha kl, p.ml.beta kl, p.ml.gamma kl)
  else (0, 0, 0)

/-- All per-cell parameters of a 3D/TE kernel: lines 1399-1473 for `E_s.xy` and the same
block in the other five kernels. -/
def cellCoeffs3D (p : SimParams R) (ax : XYZVectors R → Int → R) (ind kl : Int) (m0 m1 : Nat) :
    CellCoeffs R :=
  let tr := selectCoeffs p ax ind m0 m1
  let d := selectDisp p kl m0 m1
  { Ca := tr.1.a, Cb := tr.1.b, Cc := tr.1.c, rho := tr.2,
    alpha_l := d.1, beta_l := d.2.1, gamma_l := d.2.2,
    kappa_l := if p.is_disp || p.is_disp_ml then ax p.ml.kappa ind else 1,
    sigma_l := if p.is_disp || p.is_disp_ml then ax p.ml.sigma ind else 0 }

/-- Whether the dispersion branch is taken: `(is_disp || params.is_disp_ml) && gamma_l`. -/
def dispActive (p : SimParams R) (q : CellCoeffs R) : Bool :=
  (p.is_disp || p.is_disp_ml) && decide (q.gamma_l ≠ 0)

/-- Whether the conductivity branch is taken: `is_cond && rho`. -/
def condActive (p : SimParams R) (q : CellCoeffs R) : Bool :=
  p.is_cond && decide (q.rho ≠ 0)

/-- The value `Enp1` of a finite-difference E kernel (lines 1476-1482): `delta` is the cell
size of the kernel and `dH` the difference of the H field in its first line. -/
def Enp1_FD (p : SimParams R) (q : CellCoeffs R) (delta dH : R) (c : Comp) (k j i : Int)
    (g : Grid R) : R :=
  let Enp1 := q.Ca * g.E_s c k j i + q.Cb * dH
  let Enp1 :=
    if dispActive p q then
      Enp1 + (q.Cc * g.E_nm1 c k j i -
        1 / 2 * q.Cb * delta * ((1 + q.alpha_l) * g.J_s c k j i + q.beta_l * g.J_nm1 c k j i))
    else Enp1
  if condActive p q then Enp1 + q.Cb * delta * g.J_c c k j i else Enp1

/-- The auxiliary updates that follow the computation of `Enp1` (lines 1483-1495). -/
def updateAux (p : SimParams R) (q : CellCoeffs R) (Enp1 : R) (c : Comp) (k j i : Int)
    (g : Grid R) : Grid R :=
  let g1 : Grid R :=
    if dispActive p q then
      let Jnp1 := q.alpha_l * g.J_s c k j i + q.beta_l * g.J_nm1 c k j i +
        q.kappa_l * q.gamma_l / (2 * p.dt) * (Enp1 - g.E_nm1 c k j i)
      let Jnp1 := Jnp1 + q.sigma_l / p.EPSILON0 * q.gamma_l * g.E_s c k j i
      { g with
        E_nm1 := g.E_nm1.set c k j i (g.E_s c k j i)
        J_nm1 := g.J_nm1.set c k j i (g.J_s c k j i)
        J_s := g.J_s.set c k j i Jnp1 }
    else g
  if condActive p q then
    { g1 with J_c := g1.J_c.set c k j i (g1.J_c c k j i - q.rho * (Enp1 + g1.E_s c k j i)) }
  else g1

/-- The body of a finite-difference E kernel for one cell (lines 1476-1497). -/
def updateCell_FD (p : SimParams R) (q : CellCoeffs R) (delta dH : R) (c : Comp) (k j i : Int)
    (g : Grid R) : Grid R :=
  let Enp1 := Enp1_FD p q delta dH c k j i g
  let g1 := updateAux p q Enp1 c k j i g
  { g1 with E_s := g1.E_s.set c k j i Enp1 }

/-! ## The finite-difference E kernels, one cell at a time -/

/-- The E update kernels of the finite-difference solver: the six of the 3D/TE branch and
the two of the `else` (TM) branch. -/
inductive EKernel where
  | xy | xz | yx | yz | zx | zy | zxTM | zyTM
  deriving DecidableEq, Repr

/-- The split component a kernel writes. -/
def EKernel.comp : EKernel → Comp
  | .xy => .xy
  | .xz => .xz
  | .yx => .yx
  | .yz => .yz
  | .zx => .zx
  | .zy => .zy
  | .zxTM => .zx
  | .zyTM => .zy

/-- The material index the kernel reads besides that of the cell itself: `materials[k][j][i+1]`
for `E_s.xy`, `E_s.xz` (lines 1399, 1674), `materials[k][min(J_tot,j+1)][i]` for `E_s.yx`,
`E_s.yz` (lines 1955, 2207), `materials[k+1][j][i]` for `E_s.zx`, `E_s.zy` (lines 2463, 2809). -/
def EKernel.neighbour (p : SimParams R) : EKernel → Int → Int → Int → Nat
  | .xy, k, j, i => p.materials k j (i + 1)
  | .xz, k, j, i => p.materials k j (i + 1)
  | .yx, k, j, i => p.materials k (min p.J_tot (j + 1)) i
  | .yz, k, j, i => p.materials k (min p.J_tot (j + 1)) i
  | .zx, k, j, i => p.materials (k + 1) j i
  | .zy, k, j, i => p.materials (k + 1) j i
  | .zxTM, k, j, i => p.materials (k + 1) j i
  | .zyTM, k, j, i => p.materials (k + 1) j i

/-- The axis of the coefficient tables a kernel reads (`C.a.y` for `E_s.xy`, ...). -/
def EKernel.axis : EKernel → XYZVectors R → Int → R
  | .xy => XYZVectors.y
  | .xz => XYZVectors.z
  | .yx => XYZVectors.x
  | .yz => XYZVectors.z
  | .zx => XYZVectors.x
  | .zy => XYZVectors.y
  | .zxTM => XYZVectors.x
  | .zyTM => XYZVectors.y

/-- The index into the background tables: `array_ind` for the `x` and `y` tables, `k_loc` for
the `z` tables. -/
def EKernel.index (p : SimParams R) : EKernel → Int → Int → Int → Int
  | .xy, k, j, i => array_ind_y p k j i
  | .xz, k, _, i => k_loc p k i
  | .yx, k, _, i => array_ind_x p k i
  | .yz, k, _, i => k_loc p k i
  | .zx, k, _, i => array_ind_x p k i
  | .zy, k, j, i => array_ind_y p k j i
  | .zxTM, k, _, i => array_ind_x p k i
  | .zyTM, k, j, i => array_ind_y p k j i

/-- The cell size that multiplies the currents (`params.delta.dy` for `E_s.xy`, ...). -/
def EKernel.delta (p : SimParams R) : EKernel → R
  | .xy => p.dy
  | .xz => p.dz
  | .yx => p.dx
  | .yz => p.dz
  | .zx => p.dx
  | .zy => p.dy
  | .zxTM => p.dx
  | .zyTM => p.dy

/-- The difference of H in the first line of `Enp1` (lines 1476, 1752, 2031, 2284, 2542,
2886, and 2762, 3106 in the TM branch). -/
def EKernel.dH (g : Grid R) : EKernel → Int → Int → Int → R
  | .xy, k, j, i => g.H_s .zy k j i + g.H_s .zx k j i - g.H_s .zy k (j - 1) i - g.H_s .zx k (j - 1) i
  | .xz, k, j, i => g.H_s .yx (k - 1) j i + g.H_s .yz (k - 1) j i - g.H_s .yx k j i - g.H_s .yz k j i
  | .yx, k, j, i => g.H_s .zx k j (i - 1) + g.H_s .zy k j (i - 1) - g.H_s .zx k j i - g.H_s .zy k j i
  | .yz, k, j, i => g.H_s .xy k j i + g.H_s .xz k j i - g.H_s .xy (k - 1) j i - g.H_s .xz (k - 1) j i
  | .zx, k, j, i => g.H_s .yx k j i + g.H_s .yz k j i - g.H_s .yx k j (i - 1) - g.H_s .yz k j (i - 1)
  | .zy, k, j, i => g.H_s .xy k (j - 1) i + g.H_s .xz k (j - 1) i - g.H_s .xy k j i - g.H_s .xz k j i
  | .zxTM, k, j, i =>
      g.H_s .yx k j i + g.H_s .yz k j i - g.H_s .yx k j (i - 1) - g.H_s .yz k j (i - 1)
  | .zyTM, k, j, i =>
      g.H_s .xy k (j - 1) i + g.H_s .xz k (j - 1) i - g.H_s .xy k j i - g.H_s .xz k j i

/-- The coefficients of the TM-branch `E_s.zx` kernel (lines 2722-2760). -/
def cellCoeffs_zxTM (p : SimParams R) (k j i : Int) : CellCoeffs R :=
  let kl := k_loc p k i
  let ind := array_ind_x p k i
  let m0 := p.materials k j i
  let dOn := p.is_disp || p.is_disp_ml
  { Ca := if m0 = 0 then p.C.a.x ind else p.Cmaterial.a.x ((m0 : Int) - 1)
    Cb := if m0 = 0 then p.C.b.x ind else p.Cmaterial.b.x ((m0 : Int) - 1)
    Cc := if m0 = 0 then (if p.is_disp_ml then p.C.c.x ind else 0)
          else p.Cmaterial.c.x ((m0 : Int) - 1)
    rho := if m0 = 0 then (if p.is_cond then p.rho_cond.x i else 0) else 0
    alpha_l := if dOn then (if m0 ≠ 0 then p.alpha ((m0 : Int) - 1) else p.ml.alpha kl) else 0
    beta_l := if dOn then (if m0 ≠ 0 then p.beta ((m0 : Int) - 1) else p.ml.beta kl) else 0
    gamma_l := if dOn then (if m0 ≠ 0 then p.gamma ((m0 : Int) - 1) else p.ml.gamma kl) else 0
    kappa_l := if dOn then p.ml.kappa.x ind else 1
    sigma_l := if dOn then p.ml.sigma.x ind else 0 }

/-- The coefficients of the TM-branch `E_s.zy` kernel (lines 3067-3103). -/
def cellCoeffs_zyTM (p : SimParams R) (k j i : Int) : CellCoeffs R :=
  let kl := k_loc p k i
  let ind := array_ind_y p k j i
  let m0 := p.materials k j i
  let dOn := p.is_disp || p.is_disp_ml
  { Ca := if m0 = 0 then p.C.a.y ind else p.Cmaterial.a.y ((m0 : Int) - 1)
    Cb := if m0 = 0 then p.C.b.y ind else p.Cmaterial.b.y ((m0 : Int) - 1)
    Cc := if m0 = 0 then (if p.is_disp_ml then p.C.c.y ind else 0)
          else p.Cmaterial.c.y ((m0 : Int) - 1)
    rho := if m0 = 0 then (if p.is_cond then p.rho_cond.y ind else 0) else 0
    alpha_l := if dOn then (if m0 = 0 then 0 else p.ml.alpha kl) else 0
    beta_l := if dOn then (if m0 = 0 then 0 else p.ml.beta kl) else 0
    gamma_l := if dOn then (if m0 = 0 then 0 else p.ml.gamma kl) else 0
    kappa_l := if dOn then p.ml.kappa.y ind else 1
    sigma_l := if dOn then p.ml.sigma.y ind else 0 }

/-- The per-cell parameters each kernel computes before its update lines. -/
def EKernel.cellCoeffs (p : SimParams R) (v : EKernel) (k j i : Int) : CellCoeffs R :=
  match v with
  | .zxTM => cellCoeffs_zxTM p k j i
  | .zyTM => cellCoeffs_zyTM p k j i
  | _ => cellCoeffs3D p v.axis (v.index p k j i) (k_loc p k i) (p.materials k j i)
           (v.neighbour p k j i)

/-- One iteration of the loop body of a finite-difference E kernel, at cell `[k][j][i]`. -/
def FDTD_E (p : SimParams R) (v : EKernel) (k j i : Int) (g : Grid R) : Grid R :=
  updateCell_FD p (v.cellCoeffs p k j i) (v.delta p) (v.dH g k j i) v.comp k j i g

/-! ## The pseudo-spectral E kernels -/

/-- The sign with which the derivative of the H line enters a kernel: the pseudo-spectral
update lines read `ca*E + cb*eh_vec/N` for `E_s.xy`, `E_s.yz`, `E_s.zx` (lines 1637, 2429,
2692) and `ca*E - cb*eh_vec/N` for `E_s.xz`, `E_s.yx`, `E_s.zy` (lines 1922, 2179, 3038). -/
def EKernel.sign : EKernel → R
  | .xy => 1
  | .xz => -1
  | .yx => -1
  | .yz => 1
  | .zx => 1
  | .zy => -1
  | .zxTM => 1
  | .zyTM => -1

/-- One cell of a pseudo-spectral E kernel (lines 1600-1639 for `E_s.xy`, 1869-1923 for
`E_s.xz`, and the same in the other four).  `Enp1_in` is the value the thread-private variable
`Enp1` has when the loop body is entered (only the `E_s.xy` kernel resets it, line 1600),
`deriv` is the derivative sample `eh_vec[n][.][0] / N` that `first_derivative` returns for
the cell.  The result is the new state and the value `Enp1` is left with.  The coefficient
block is the one of the finite-difference kernel; the TM branch has no solver switch, so for
`zxTM`, `zyTM` the finite-difference body runs. -/
def PSTD_E (p : SimParams R) (v : EKernel) (k j i : Int) (Enp1_in deriv : R) (g : Grid R) :
    Grid R × R :=
  if v = .zxTM ∨ v = .zyTM then (FDTD_E p v k j i g, Enp1_FD p (v.cellCoeffs p k j i)
    (v.delta p) (v.dH g k j i) v.comp k j i g)
  else
    let q := v.cellCoeffs p k j i
    let c := v.comp
    let Enp1 := if v = .xy then 0 else Enp1_in
    let Enp1 :=
      if dispActive p q then
        Enp1 + (q.Cc * g.E_nm1 c k j i - 1 / 2 * q.Cb * v.delta p *
          ((1 + q.alpha_l) * g.J_s c k j i + q.beta_l * g.J_nm1 c k j i))
      else Enp1
    let Enp1 := if condActive p q then Enp1 + q.Cb * v.delta p * g.J_c c k j i else Enp1
    let g1 := updateAux p q Enp1 c k j i g
    if v = .xy ∧ ¬ p.J_tot > 1 then (g1, Enp1)
    else ({ g1 with E_s := g1.E_s.set c k j i (q.Ca * g.E_s c k j i + v.sign * q.Cb * deriv) },
      Enp1)

/-! ## The finite-difference H kernels -/

/-- The H update kernels of the finite-difference solver: six in the 3D/TE branch, and in
the TM branch the two that are updated (`H_s.xz`, `H_s.yz` are set to zero there). -/
inductive HKernel where
  | xz | xy | yx | yz | zy | zx | xyTM | yxTM
  deriving DecidableEq, Repr

/-- The split component an H kernel writes. -/
def HKernel.comp : HKernel → Comp
  | .xz => .xz
  | .xy => .xy
  | .yx => .yx
  | .yz => .yz
  | .zy => .zy
  | .zx => .zx
  | .xyTM => .xy
  | .yxTM => .yx

/-- The difference of E in the update line of an H kernel (lines 3562, 3641, 3738, 3818,
3991, 4072, and 3919, 3948 in the TM branch). -/
def HKernel.dE (g : Grid R) : HKernel → Int → Int → Int → R
  | .xz, k, j, i => g.E_s .yx (k + 1) j i + g.E_s .yz (k + 1) j i - g.E_s .yx k j i - g.E_s .yz k j i
  | .xy, k, j, i => g.E_s .zy k j i + g.E_s .zx k j i - g.E_s .zy k (j + 1) i - g.E_s .zx k (j + 1) i
  | .yx, k, j, i => g.E_s .zx k j (i + 1) + g.E_s .zy k j (i + 1) - g.E_s .zx k j i - g.E_s .zy k j i
  | .yz, k, j, i => g.E_s .xy k j i + g.E_s .xz k j i - g.E_s .xy (k + 1) j i - g.E_s .xz (k + 1) j i
  | .zy, k, j, i => g.E_s .xy k (j + 1) i + g.E_s .xz k (j + 1) i - g.E_s .xy k j i - g.E_s .xz k j i
  | .zx, k, j, i => g.E_s .yx k j i + g.E_s .yz k j i - g.E_s .yx k j (i + 1) - g.E_s .yz k j (i + 1)
  | .xyTM, k, j, i =>
      g.E_s .zy k j i + g.E_s .zx k j i - g.E_s .zy k (j + 1) i - g.E_s .zx k (j + 1) i
  | .yxTM, k, j, i =>
      g.E_s .zx k j (i + 1) + g.E_s .zy k j (i + 1) - g.E_s .zx k j i - g.E_s .zy k j i

/-- The axis of the `D` tables an H kernel reads. -/
def HKernel.axis : HKernel → XYZVectors R → Int → R
  | .xz => XYZVectors.z
  | .xy => XYZVectors.y
  | .yx => XYZVectors.x
  | .yz => XYZVectors.z
  | .zy => XYZVectors.y
  | .zx => XYZVectors.x
  | .xyTM => XYZVectors.y
  | .yxTM => XYZVectors.x

/-- The index into the background `D` tables: `k_loc` for `z`, `array_ind` for `x`, `y`. -/
def HKernel.index (p : SimParams R) : HKernel → Int → Int → Int → Int
  | .xz, k, _, i => k_loc p k i
  | .xy, k, j, i => array_ind_y p k j i
  | .yx, k, _, i => array_ind_x p k i
  | .yz, k, _, i => k_loc p k i
  | .zy, k, j, i => array_ind_y p k j i
  | .zx, k, _, i => array_ind_x p k i
  | .xyTM, k, j, i => array_ind_y p k j i
  | .yxTM, k, _, i => array_ind_x p k i

/-- One iteration of the loop body of a finite-difference H kernel (lines 3560-3568 for
`H_s.xz`, and the same in the others). -/
def FDTD_H (p : SimParams R) (v : HKernel) (k j i : Int) (g : Grid R) : Grid R :=
  let c := v.comp
  let m := p.materials k j i
  let Hnew :=
    if m = 0 then
      v.axis p.D.a (v.index p k j i) * g.H_s c k j i + v.axis p.D.b (v.index p k j i) * v.dE g k j i
    else
      v.axis p.Dmaterial.a ((m : Int) - 1) * g.H_s c k j i
        + v.axis p.Dmaterial.b ((m : Int) - 1) * v.dE g k j i
  { g with H_s := g.H_s.set c k j i Hnew }

/-! ## Descriptions used to state the properties -/

/-- The physical x component of a split field, `xy + xz`, at a cell. -/
def physX (F : SplitField R) (k j i : Int) : R := F .xy k j i + F .xz k j i

/-- The physical y component of a split field, `yx + yz`, at a cell. -/
def physY (F : SplitField R) (k j i : Int) : R := F .yx k j i + F .yz k j i

/-- The physical z component of a split field, `zx + zy`, at a cell. -/
def physZ (F : SplitField R) (k j i : Int) : R := F .zx k j i + F .zy k j i

/-- The line of the physical H field an E kernel differentiates, as a function of the
index `n` along the differentiation axis (the second letter of the component). -/
def EKernel.line (g : Grid R) : EKernel → Int → Int → Int → Int → R
  | .xy, k, _, i => fun n => physZ g.H_s k n i
  | .xz, _, j, i => fun n => physY g.H_s n j i
  | .yx, k, j, _ => fun n => physZ g.H_s k j n
  | .yz, _, j, i => fun n => physX g.H_s n j i
  | .zx, k, j, _ => fun n => physY g.H_s k j n
  | .zy, k, _, i => fun n => physX g.H_s k n i
  | .zxTM, k, j, _ => fun n => physY g.H_s k j n
  | .zyTM, k, _, i => fun n => physX g.H_s k n i

/-- The position of cell `[k][j][i]` along the differentiation axis of an E kernel. -/
def EKernel.pos : EKernel → Int → Int → Int → Int
  | .xy, _, j, _ => j
  | .xz, k, _, _ => k
  | .yx, _, _, i => i
  | .yz, k, _, _ => k
  | .zx, _, _, i => i
  | .zy, _, j, _ => j
  | .zxTM, _, _, i => i
  | .zyTM, _, j, _ => j

/-- The line of the physical E field an H kernel differentiates. -/
def HKernel.line (g : Grid R) : HKernel → Int → Int → Int → Int → R
  | .xz, _, j, i => fun n => physY g.E_s n j i
  | .xy, k, _, i => fun n => physZ g.E_s k n i
  | .yx, k, j, _ => fun n => physZ g.E_s k j n
  | .yz, _, j, i => fun n => physX g.E_s n j i
  | .zy, k, _, i => fun n => physX g.E_s k n i
  | .zx, k, j, _ => fun n => physY g.E_s k j n
  | .xyTM, k, _, i => fun n => physZ g.E_s k n i
  | .yxTM, k, j, _ => fun n => physZ g.E_s k j n

/-- The position of cell `[k][j][i]` along the differentiation axis of an H kernel. -/
def HKernel.pos : HKernel → Int → Int → Int → Int
  | .xz, k, _, _ => k
  | .xy, _, j, _ => j
  | .yx, _, _, i => i
  | .yz, k, _, _ => k
  | .zy, _, j, _ => j
  | .zx, _, _, i => i
  | .xyTM, _, j, _ => j
  | .yxTM, _, _, i => i

/-- The sign with which the difference of the E line enters an H kernel. -/
def HKernel.sign : HKernel → R
  | .xz => 1
  | .xy => -1
  | .yx => 1
  | .yz => -1
  | .zy => 1
  | .zx => -1
  | .xyTM => -1
  | .yxTM => 1

/-- The triple `base(m)` of the coefficient selection rules 1 and 2: the background entry at
`ind` for `m = 0` (its `Cc` counted as 0 unless the multilayer is dispersive), the
per-material entry at `m - 1` otherwise. -/
def spec_base (p : SimParams R) (ax : XYZVectors R → Int → R) (ind : Int) (m : Nat) : Triple R :=
  if m = 0 then ⟨ax p.C.a ind, ax p.C.b ind, if p.is_disp_ml then ax p.C.c ind else 0⟩
  else ⟨ax p.Cmaterial.a ((m : Int) - 1), ax p.Cmaterial.b ((m : Int) - 1),
    ax p.Cmaterial.c ((m : Int) - 1)⟩

/-- The triple of the three selection rules: `base(m0)`, and the arithmetic mean of
`base(m0)` and `base(m1)` when the interpolation flag is set and `m0 ≠ m1`. -/
def spec_triple (p : SimParams R) (ax : XYZVectors R → Int → R) (ind : Int) (m0 m1 : Nat) :
    Triple R :=
  if p.interp_mat_props = true ∧ m0 ≠ m1 then
    ⟨((spec_base p ax ind m0).a + (spec_base p ax ind m1).a) / 2,
     ((spec_base p ax ind m0).b + (spec_base p ax ind m1).b) / 2,
     ((spec_base p ax ind m0).c + (spec_base p ax ind m1).c) / 2⟩
  else spec_base p ax ind m0

end Kernels

/-! ## Concrete data used to evaluate the definitions -/

/-- A table with the same entry everywhere. -/
def constXYZ (v : ℚ) : XYZVectors ℚ := ⟨fun _ => v, fun _ => v, fun _ => v⟩

/-- A small dispersive, conductive configuration over the rationals: material 1 fills the
cells with `i = 1`, the rest is background. -/
def exParams : SimParams ℚ where
  I_tot := 4
  J_tot := 4
  K_tot := 4
  Dxl := 0
  Dxu := 0
  Dzl := 0
  is_structure := false
  is_multilayer := false
  is_disp_ml := true
  interp_mat_props := true
  is_disp := true
  is_cond := true
  structure_1 := fun _ => 0
  materials := fun _ _ i => if i = 1 then 1 else 0
  C := ⟨constXYZ 1, constXYZ 2, constXYZ 3⟩
  Cmaterial := ⟨constXYZ 5, constXYZ 6, constXYZ 7⟩
  D := ⟨constXYZ 1, constXYZ 1, constXYZ 0⟩
  Dmaterial := ⟨constXYZ 1, constXYZ 1, constXYZ 0⟩
  rho_cond := constXYZ 2
  ml := ⟨fun _ => 1, fun _ => 2, fun _ => 4, constXYZ 1, constXYZ 3⟩
  alpha := fun _ => 3
  beta := fun _ => 4
  gamma := fun _ => 6
  dx := 1
  dy := 1
  dz := 1
  dt := 1
  EPSILON0 := 1

/-- The configuration `exParams` with material 1 filling the plane `k = 1` instead. -/
def exParamsTM : SimParams ℚ :=
  { exParams with materials := fun k _ _ => if k = 1 then 1 else 0 }

/-- A field state over the rationals in which every array has a different, non-constant
content. -/
def exGrid : Grid ℚ where
  E_s := fun _ k j i => 1 + k * k + 2 * j + 3 * i
  H_s := fun _ k j i => k * k + j * j + i * i
  J_s := fun _ _ _ _ => 2
  J_c := fun _ _ _ _ => 3
  E_nm1 := fun _ _ _ _ => 5
  J_nm1 := fun _ _ _ _ => 7

/-! ## Normalisation of the surface phasors and the source-phasor normalisers -/

section Normalise

variable {R : Type} [LinearOrderedField R]

/-- The assignment `A[i][vindex] = v` in a two-index array. -/
def set2 (A : Nat → Nat → R) (i vindex : Nat) (v : R) : Nat → Nat → R :=
  fun i' v' => if i' = i ∧ v' = vindex then v else A i' v'

/-- The body of the loops of `normaliseSurface` (lines 4759-4763 and 4772-4776): entry
`[i][vindex]` of the pair `(surface_EHr, surface_EHi)` is replaced. -/
def normaliseEntry (norm_r norm_i denom : R) (vindex i : Nat)
    (EH : (Nat → Nat → R) × (Nat → Nat → R)) : (Nat → Nat → R) × (Nat → Nat → R) :=
  let temp_r := EH.1 i vindex
  let temp_i := EH.2 i vindex
  (set2 EH.1 i vindex ((norm_r * temp_r + norm_i * temp_i) / denom),
   set2 EH.2 i vindex ((norm_r * temp_i - norm_i * temp_r) / denom))

/-- One of the two loop nests of `normaliseSurface`: `vindex` runs over
`0 .. n_surface_vertices - 1` and `i` over `lo, lo + 1, lo + 2`. -/
def normaliseRows (norm_r norm_i : R) (lo n_surface_vertices : Nat)
    (EH : (Nat → Nat → R) × (Nat → Nat → R)) : (Nat → Nat → R) × (Nat → Nat → R) :=
  let denom := norm_r * norm_r + norm_i * norm_i
  (List.range n_surface_vertices).foldl
    (fun EH vindex =>
      [lo, lo + 1, lo + 2].foldl (fun EH i => normaliseEntry norm_r norm_i denom vindex i EH) EH)
    EH

/-- The function `normaliseSurface` (iterator.cpp lines 4749-4778); a complex number is the
pair of its real and imaginary part. -/
def normaliseSurface (surface_EHr surface_EHi : Nat → Nat → R) (n_surface_vertices : Nat)
    (Enorm Hnorm : R × R) : (Nat → Nat → R) × (Nat → Nat → R) :=
  normaliseRows Hnorm.1 Hnorm.2 3 n_surface_vertices
    (normaliseRows Enorm.1 Enorm.2 0 n_surface_vertices (surface_EHr, surface_EHi))

/-- The C library function `fmod` in exact arithmetic: `x - y * trunc(x / y)`, the quotient
truncated towards zero. -/
def fmod [FloorRing R] (x y : R) : R :=
  x - y * ((if 0 ≤ x / y then ⌊x / y⌋ else ⌈x / y⌉ : Int) : R)

end Normalise

/-- The constant `DCPI`. -/
noncomputable def DCPI : ℝ := Real.pi

/-- The function `extractPhasorENorm` (iterator.cpp lines 4803-4805): the new value of
`*Enorm`. -/
noncomputable def extractPhasorENorm (Enorm : ℂ) (ft : ℝ) (n : Int) (omega dt : ℝ) (Nt : Int) :
    ℂ :=
  Enorm + (ft : ℂ)
    * Complex.exp (((fmod (omega * (((n + 1 : Int)) : ℝ) * dt) (2 * DCPI) : ℝ) : ℂ) * Complex.I)
    * 1 / ((Nt : ℝ) : ℂ)

/-- The function `extractPhasorHNorm` (iterator.cpp lines 4807-4809): the new value of
`*Hnorm`. -/
noncomputable def extractPhasorHNorm (Hnorm : ℂ) (ft : ℝ) (n : Int) (omega dt : ℝ) (Nt : Int) :
    ℂ :=
  Hnorm + (ft : ℂ)
    * Complex.exp (((fmod (omega * ((n : ℝ) + 0.5) * dt) (2 * DCPI) : ℝ) : ℂ) * Complex.I)
    * 1 / ((Nt : ℝ) : ℂ)

/-- A surface phasor array over the rationals, real parts. -/
def exEHr : Nat → Nat → ℚ := fun i v => 1 + i + 2 * v

/-- A surface phasor array over the rationals, imaginary parts. -/
def exEHi : Nat → Nat → ℚ := fun i v => 3 + i * v

/-- The array `exEHr` with real entries. -/
noncomputable def exEHrReal : Nat → Nat → ℝ := fun i v => ((exEHr i v : ℚ) : ℝ)

/-- The array `exEHi` with real entries. -/
noncomputable def exEHiReal : Nat → Nat → ℝ := fun i v => ((exEHi i v : ℚ) : ℝ)

/-- The normaliser `3 + 4i`. -/
noncomputable def exEnorm : ℂ := ⟨3, 4⟩

/-- The normaliser `2i`. -/
noncomputable def exHnorm : ℂ := ⟨0, 2⟩

/-! ## The main loop: phasor extraction, convergence check and normaliser

The loop `for (tind = params.start_tind; tind < params.Nt; tind++)` of `execute_simulation`
(iterator.cpp lines 1113-4468), restricted to the statements that touch `dft_counter`, the
volume phasors `E`, `H`, the copy `E_copy` and the normalisers `E_norm`, `H_norm`.  The
content of an accumulator is recorded as the list of the samples added to it since it was
last zeroed (the empty list is the zero array); the outcome `tol < TOL` of the floating-point
comparison of `E` with `E_copy` is a parameter `conv` of the run. -/

/-- One term added to a volume phasor accumulator: the loop iteration `tind` in which
`set_phasors` was called and the step index `n` it was called with. -/
structure Sample where
  tind : Nat
  n : Int
  deriving DecidableEq, Repr

/-- The parameters of a run that the loop control reads. -/
structure LoopParams where
  start_tind : Nat
  Nt : Nat
  Nsteps : Nat
  Np : Nat
  /-- The test `params.source_mode == SourceMode::steadystate` (otherwise pulsed). -/
  steadystate : Bool
  /-- The test `params.run_mode == RunMode::complete` (otherwise analyse). -/
  complete : Bool
  exphasorsvolume : Bool
  exphasorssurface : Bool
  exdetintegral : Bool
  /-- The value `campssample.n_vertices()`. -/
  n_vertices : Nat

/-- The loop-carried state.  `checks`, `volZeroed`, `normReset` and `converged` record, for
the statement of properties, the iterations in which the convergence comparison was
evaluated, in which `E.zero(); H.zero()` ran, in which `E_norm`, `H_norm` were reset, and
the iteration in which the loop was left through `break`. -/
structure LoopState where
  dft_counter : Nat
  E : List Sample
  H : List Sample
  E_copy : List Sample
  E_norm : List Nat
  H_norm : List Nat
  checks : List Nat
  volZeroed : List Nat
  normReset : List Nat
  converged : Option Nat

/-- The state before the first iteration: `dft_counter = 0` (line 930), `E_copy.zero()`
(line 819), `E_norm[ifx] = H_norm[ifx] = 0` (lines 581-582), zero phasor arrays. -/
def LoopState.init : LoopState :=
  { dft_counter := 0, E := [], H := [], E_copy := [], E_norm := [], H_norm := [],
    checks := [], volZeroed := [], normReset := [], converged := none }

/-- The condition `steadystate && complete && exphasorsvolume` of lines 1119-1120, 1141. -/
def LoopParams.ssv (P : LoopParams) : Bool :=
  P.steadystate && P.complete && P.exphasorsvolume

/-- The convergence check at the head of an iteration (lines 1119-1139); the second
component tells whether the loop is left through `break` (line 1125). -/
def checkStep (P : LoopParams) (conv : List Sample → List Sample → Bool) (tind : Nat)
    (s : LoopState) : LoopState × Bool :=
  if s.dft_counter = P.Nsteps ∧ P.ssv = true then
    if conv s.E s.E_copy then
      ({ s with dft_counter := 0, checks := s.checks ++ [tind], converged := some tind }, true)
    else
      ({ s with dft_counter := 0, checks := s.checks ++ [tind], E_copy := s.E, E := [], H := [],
                volZeroed := s.volZeroed ++ [tind] }, false)
  else (s, false)

/-- The accumulation of the volume phasors (lines 1141-1174). -/
def accumulateStep (P : LoopParams) (tind : Nat) (s : LoopState) : LoopState :=
  if P.ssv then
    let s1 : LoopState :=
      { s with E := s.E ++ [⟨tind, (s.dft_counter : Int) - 1⟩],
               H := s.H ++ [⟨tind, (s.dft_counter : Int)⟩] }
    if P.exphasorssurface then { s1 with dft_counter := s1.dft_counter + 1 } else s1
  else if (!P.steadystate) && P.complete && P.exphasorsvolume then
    if (tind - P.start_tind) % P.Np = 0 then
      { s with E := s.E ++ [⟨tind, (tind : Int) - 1⟩], H := s.H ++ [⟨tind, (tind : Int)⟩] }
    else s
  else s

/-- The reset and update of the source-phasor normalisers (lines 4345-4426). -/
def normStep (P : LoopParams) (tind : Nat) (s : LoopState) : LoopState :=
  if P.exphasorssurface || P.exphasorsvolume || P.exdetintegral
      || decide (P.n_vertices > 0) then
    if P.steadystate then
      let s1 : LoopState :=
        if tind % P.Nsteps = 0 then
          { s with E_norm := [], H_norm := [], normReset := s.normReset ++ [tind] }
        else s
      { s1 with E_norm := s1.E_norm ++ [tind], H_norm := s1.H_norm ++ [tind] }
    else if (tind - P.start_tind) % P.Np = 0 then
      { s with E_norm := s.E_norm ++ [tind], H_norm := s.H_norm ++ [tind] }
    else s
  else s

/-- The statement `E.set_values_from(E_copy)` of the last iteration (lines 4440-4444). -/
def limitStep (P : LoopParams) (tind : Nat) (s : LoopState) : LoopState :=
  if P.steadystate && decide (tind = P.Nt - 1) && P.complete && P.exphasorsvolume then
    { s with E := s.E_copy }
  else s

/-- One iteration of the main loop; the second component tells whether the loop was left
through `break`. -/
def loopBody (P : LoopParams) (conv : List Sample → List Sample → Bool) (tind : Nat)
    (s : LoopState) : LoopState × Bool :=
  if (checkStep P conv tind s).2 then (checkStep P conv tind s)
  else (limitStep P tind (normStep P tind (accumulateStep P tind (checkStep P conv tind s).1)),
    false)

/-- The iterations `tind`, `tind + 1`, ..., of which `n` remain, until `break`. -/
def iterate (P : LoopParams) (conv : List Sample → List Sample → Bool) :
    Nat → Nat → LoopState → LoopState
  | 0, _, s => s
  | n + 1, tind, s =>
    if (loopBody P conv tind s).2 then (loopBody P conv tind s).1
    else iterate P conv n (tind + 1) (loopBody P conv tind s).1

/-- The whole loop: `tind` runs from `start_tind` while `tind < Nt`.  The `E` of the result
is the array handed to `E.normalise_volume()` (line 4480) and returned. -/
def mainLoop (P : LoopParams) (conv : List Sample → List Sample → Bool) : LoopState :=
  iterate P conv (P.Nt - P.start_tind) P.start_tind LoopState.init

/-- The samples of the `Nsteps` iterations `t0`, ..., `t0 + Nsteps - 1`, with the step
indices `-1`, ..., `Nsteps - 2` that `E.set_phasors` is called with over one cycle. -/
def cycleSamples (t0 Nsteps : Nat) : List Sample :=
  (List.range Nsteps).map (fun r => ⟨t0 + r, (r : Int) - 1⟩)

/-- A steady-state run in complete mode with volume and surface extraction:
`Nsteps = 2`, six iterations from `tind = 0`. -/
def exRun : LoopParams :=
  { start_tind := 0, Nt := 6, Nsteps := 2, Np := 1, steadystate := true, complete := true,
    exphasorsvolume := true, exphasorssurface := true, exdetintegral := false, n_vertices := 0 }

/-- A comparison that never passes. -/
def convNever : List Sample → List Sample → Bool := fun _ _ => false

/-- A comparison that passes as soon as a previous cycle has been recorded in `E_copy`. -/
def convSecond : List Sample → List Sample → Bool := fun _ Ec => !Ec.isEmpty

/-- The run `exRun` without surface extraction. -/
def exRunNoSurface : LoopParams := { exRun with exphasorssurface := false }

/-- The run `exRun` cut to a single cycle, `Nt = Nsteps = 2`. -/
def exRunOneCycle : LoopParams := { exRun with Nt := 2 }

/-- The run `exRun` started at `start_tind = 1`, with three cycles again (`Nt = 7`). -/
def exRunLate : LoopParams := { exRun with start_tind := 1, Nt := 7 }

/-- What holds of the loop state at the head of iteration `tind`: the loop has not been
left, and in a steady-state complete run with volume and surface extraction `E` holds the
`dft_counter` samples of the iterations since the cycle began and `E_copy` is zero or holds
the cycle before; in every other run `dft_counter` is still 0. -/
def LoopInv (P : LoopParams) (tind : Nat) (s : LoopState) : Prop :=
  s.converged = none ∧
  if P.ssv = true ∧ P.exphasorssurface = true then
    P.start_tind + s.dft_counter ≤ tind ∧
    s.E = cycleSamples (tind - s.dft_counter) s.dft_counter ∧
    (s.E_copy = [] ∨
      (P.start_tind + s.dft_counter + P.Nsteps ≤ tind ∧
        s.E_copy = cycleSamples (tind - s.dft_counter - P.Nsteps) P.Nsteps))
  else s.dft_counter = 0

/-- What holds of the final state of a run that was left through `break` in iteration `t`. -/
def ConvergedPost (P : LoopParams) (conv : List Sample → List Sample → Bool) (f : LoopState) :
    Prop :=
  ∀ t, f.converged = some t →
    f.E = cycleSamples (t - P.Nsteps) P.Nsteps ∧
    conv f.E f.E_copy = true ∧
    P.start_tind + P.Nsteps ≤ t ∧
    (f.E_copy = [] ∨
      (P.start_tind + 2 * P.Nsteps ≤ t ∧ f.E_copy = cycleSamples (t - 2 * P.Nsteps) P.Nsteps))

/-! ## Source envelope, ramp and the setting of the time step -/

section Ramp

variable {R : Type} [LinearOrderedField R]

/-- The function `linearRamp` (iterator.cpp lines 4942-4947). -/
def linearRamp (t period rampwidth : R) : R :=
  if t > period * rampwidth then 1 else t / (period * rampwidth)

/-- The constant `ramp_width` (iterator.cpp line 33). -/
def ramp_width : R := 4

/-- The time `time_E = ((double) (tind + 1)) * params.dt` (line 1115). -/
def time_E (tind : Int) (dt : R) : R := ((tind + 1 : Int) : R) * dt

/-- The time `time_H = time_E - params.dt / 2.` (line 1116). -/
def time_H (tind : Int) (dt : R) : R := time_E tind dt - dt / 2

end Ramp

/-- The rounding of `params.Nt` (iterator.cpp lines 933-938); the division of two `int`
truncates. -/
def round_Nt (steadystate complete : Bool) (Nt Nsteps : Int) : Int :=
  if steadystate && complete then
    if Nt.tdiv Nsteps * Nsteps ≠ Nt then Nt.tdiv Nsteps * Nsteps else Nt
  else Nt

/-- The scalar stored in `H.ft` (line 3420, with `t = time_H`) and in `E.ft` (line 4266,
with `t = time_E`) in steady-state mode: `real(commonAmplitude * commonPhase)`. -/
noncomputable def ft_steadystate (omega_an t : ℝ) : ℝ :=
  (((linearRamp t (1 / (omega_an / (2 * DCPI))) ramp_width : ℝ) : ℂ) *
    Complex.exp (-Complex.I * ((fmod (omega_an * t) (2 * DCPI) : ℝ) : ℂ))).re

/-- The scalar stored in `E.ft` in pulsed mode (lines 4339-4340). -/
noncomputable def E_ft_pulsed (omega_an to_l hwhm time_E : ℝ) : ℝ :=
  ((-1 * Complex.I) *
      Complex.exp (-Complex.I * ((fmod (omega_an * (time_E - to_l)) (2 * DCPI) : ℝ) : ℂ))).re *
    Real.exp (-1 * DCPI * ((time_E - to_l) / hwhm) ^ 2)

/-- The scalar stored in `H.ft` in pulsed mode (lines 3524-3525); `LIGHT_V` is the constant
of that name (the speed of light). -/
noncomputable def H_ft_pulsed (omega_an to_l hwhm dz LIGHT_V time_H : ℝ) : ℝ :=
  ((-1 * Complex.I) *
      Complex.exp (-Complex.I * ((fmod (omega_an * (time_H - to_l)) (2 * DCPI) : ℝ) : ℂ))).re *
    Real.exp (-1 * DCPI * ((time_H - to_l + dz / LIGHT_V / 2) / hwhm) ^ 2)

/-- The steady-state envelope of the specification, `ramp(t) * exp(-i*omega*t)`, the ramp
being `linearRamp` over 4 periods `2*pi/omega`. -/
noncomputable def spec_envelope_steadystate (omega t : ℝ) : ℂ :=
  ((linearRamp t (2 * Real.pi / omega) 4 : ℝ) : ℂ) * Complex.exp (-Complex.I * omega * t)

/-- The pulsed envelope of the specification,
`(-i) * exp(-i*omega*(t - t0)) * exp(-pi*((t - t0)/hwhm)^2)`. -/
noncomputable def spec_envelope_pulsed (omega t0 hwhm t : ℝ) : ℂ :=
  (-Complex.I) * Complex.exp (-Complex.I * omega * (t - t0)) *
    ((Real.exp (-Real.pi * ((t - t0) / hwhm) ^ 2) : ℝ) : ℂ)

/-! ## Interpolation schemes -/

section Interpolation

variable {R : Type} [LinearOrderedField R]

/-- Modelled from the spec: the class `InterpolationScheme` of `interpolation_methods.cpp`,
which is not among the sources at hand (only its unit test is).  A scheme stores eight
coefficients and the counts `first_nonzero_coeff`, `last_nonzero_coeff`,
`number_of_datapoints_to_left`. -/
structure InterpolationScheme (R : Type) where
  scheme_coeffs : Nat → R
  first_nonzero_coeff : Nat
  last_nonzero_coeff : Nat
  number_of_datapoints_to_left : Nat

/-- Modelled from the spec: `InterpolationScheme::interpolate`, the dot product of the
coefficients with the samples `v[first_nonzero_coeff .. last_nonzero_coeff]` (the other
coefficients are zero). -/
def InterpolationScheme.interpolate (s : InterpolationScheme R) (v : Nat → R) : R :=
  ((List.range (s.last_nonzero_coeff + 1 - s.first_nonzero_coeff)).map
    (fun n => s.scheme_coeffs (s.first_nonzero_coeff + n) * v (s.first_nonzero_coeff + n))).sum

/-- Modelled from the spec: the cubic scheme `CBFst` for the leftmost cell, four non-zero
coefficients on the samples at 0, 1, 2, 3, interpolating to 0.5.  The spec requires the
scheme to reproduce every cubic polynomial, which fixes the coefficients
(`cubic_coefficients_forced`). -/
def CBFst : InterpolationScheme R :=
  { scheme_coeffs := fun n =>
      if n = 0 then 5 / 16 else if n = 1 then 15 / 16 else if n = 2 then -5 / 16
      else if n = 3 then 1 / 16 else 0
    first_nonzero_coeff := 0, last_nonzero_coeff := 3, number_of_datapoints_to_left := 0 }

/-- Modelled from the spec: the cubic scheme `CBMid` for interior cells, interpolating to
1.5 from the samples at 0, 1, 2, 3. -/
def CBMid : InterpolationScheme R :=
  { scheme_coeffs := fun n =>
      if n = 0 then -1 / 16 else if n = 1 then 9 / 16 else if n = 2 then 9 / 16
      else if n = 3 then -1 / 16 else 0
    first_nonzero_coeff := 0, last_nonzero_coeff := 3, number_of_datapoints_to_left := 1 }

/-- Modelled from the spec: the cubic scheme `CBLst` for the rightmost cell, interpolating
to 2.5 from the samples at 0, 1, 2, 3. -/
def CBLst : InterpolationScheme R :=
  { scheme_coeffs := fun n =>
      if n = 0 then 1 / 16 else if n = 1 then -5 / 16 else if n = 2 then 15 / 16
      else if n = 3 then 5 / 16 else 0
    first_nonzero_coeff := 0, last_nonzero_coeff := 3, number_of_datapoints_to_left := 2 }

/-- The polynomial `c0 + c1*x + c2*x^2 + c3*x^3`. -/
def cubicPoly (c0 c1 c2 c3 x : R) : R := c0 + c1 * x + c2 * x ^ 2 + c3 * x ^ 3

/-- The four-sample scheme with coefficients `a0, a1, a2, a3`. -/
def fourPointScheme (a0 a1 a2 a3 : R) (left : Nat) : InterpolationScheme R :=
  { scheme_coeffs := fun n =>
      if n = 0 then a0 else if n = 1 then a1 else if n = 2 then a2 else if n = 3 then a3 else 0
    first_nonzero_coeff := 0, last_nonzero_coeff := 3, number_of_datapoints_to_left := left }

end Interpolation

/-! ## Dispersion parameters of a cell and of its neighbour -/

section DispOwn

variable {R : Type} [LinearOrderedField R]

/-- The dispersion parameters `(alpha, beta, gamma)` of material index `m` at layer `kl`:
the per-material entry `m - 1` for `m ≠ 0`, the multilayer entry at `kl` for `m = 0`. -/
def spec_dispOwn (p : SimParams R) (kl : Int) (m : Nat) : R × R × R :=
  if m ≠ 0 then (p.alpha ((m : Int) - 1), p.beta ((m : Int) - 1), p.gamma ((m : Int) - 1))
  else (p.ml.alpha kl, p.ml.beta kl, p.ml.gamma kl)

end DispOwn

/-- The configuration `exParams` with the interpolation of material properties switched
off. -/
def exParamsNoInterp : SimParams ℚ := { exParams with interp_mat_props := false }

/-! ## Loops -/

/-- The loop `for (n = lo; n < hi; n++) body`: the state after its last iteration. -/
def forRange {σ : Type} (lo hi : Int) (body : Int → σ → σ) (s : σ) : σ :=
  (List.range (hi - lo).toNat).foldl (fun (s : σ) (n : Nat) => body (lo + (n : Int)) s) s

/-! ## The plane phasors of `extractPhasorsPlane` -/

/-- The eight output arrays of `extractPhasorsPlane`: `iwave_lEx_Rbs`, `iwave_lEx_Ibs`,
`iwave_lEy_Rbs`, `iwave_lEy_Ibs`, `iwave_lHx_Rbs`, `iwave_lHx_Ibs`, `iwave_lHy_Rbs`,
`iwave_lHy_Ibs`. -/
inductive PlaneArray where
  | lEx_R | lEx_I | lEy_R | lEy_I | lHx_R | lHx_I | lHy_R | lHy_I
  deriving DecidableEq, Repr

/-- The content of the eight arrays: array `a` at `[j][i]`. -/
abbrev PlanePhasors := PlaneArray → Int → Int → ℝ

/-- The statement `a[j][i] = a[j][i] + v`. -/
def PlanePhasors.add (P : PlanePhasors) (a : PlaneArray) (j i : Int) (v : ℝ) : PlanePhasors :=
  fun a' j' i' => if a' = a ∧ j' = j ∧ i' = i then P a' j' i' + v else P a' j' i'

/-- The value `subResult` of `extractPhasorsPlane` for the field sum `x`:
`x * exp(phaseTerm * IMAGINARY_UNIT) * 1. / ((double) Nt)` with
`phaseTerm = fmod(omega * ((double) n) * dt, 2 * DCPI)` (lines 4894, 4902). -/
noncomputable def planeSubResult (x omega : ℝ) (n : Int) (dt : ℝ) (Nt : Int) : ℂ :=
  (x : ℂ) * Complex.exp (((fmod (omega * (n : ℝ) * dt) (2 * DCPI) : ℝ) : ℂ) * Complex.I) * 1
    / ((Nt : ℝ) : ℂ)

/-- The body of the first loop nest of `extractPhasorsPlane` (lines 4897-4912). -/
noncomputable def planeBodyEyHx (E H : SplitField ℝ) (K1 n : Int) (omega dt : ℝ) (Nt : Int)
    (j i : Int) (P : PlanePhasors) : PlanePhasors :=
  let subResult := planeSubResult (E .yz K1 j i + E .yx K1 j i) omega n dt Nt
  let P := P.add .lEy_R j i subResult.re
  let P := P.add .lEy_I j i subResult.im
  let subResult := planeSubResult (H .xz (K1 - 1) j i + H .xy K1 j i) omega n dt Nt
  let P := P.add .lHx_R j i subResult.re
  P.add .lHx_I j i subResult.im

/-- The body of the second loop nest of `extractPhasorsPlane` (lines 4915-4929). -/
noncomputable def planeBodyExHy (E H : SplitField ℝ) (K1 n : Int) (omega dt : ℝ) (Nt : Int)
    (j i : Int) (P : PlanePhasors) : PlanePhasors :=
  let subResult := planeSubResult (E .xz K1 j i + E .xy K1 j i) omega n dt Nt
  let P := P.add .lEx_R j i subResult.re
  let P := P.add .lEx_I j i subResult.im
  let subResult := planeSubResult (H .yz (K1 - 1) j i + H .yx K1 j i) omega n dt Nt
  let P := P.add .lHy_R j i subResult.re
  P.add .lHy_I j i subResult.im

/-- The function `extractPhasorsPlane` (iterator.cpp lines 4885-4930): the new content of
the eight arrays. -/
noncomputable def extractPhasorsPlane (P : PlanePhasors) (E H : SplitField ℝ)
    (I_tot J_tot K1 n : Int) (omega dt : ℝ) (Nt : Int) : PlanePhasors :=
  let P := forRange 0 J_tot (fun j =>
    forRange 0 (I_tot + 1) (fun i => planeBodyEyHx E H K1 n omega dt Nt j i)) P
  forRange 0 (J_tot + 1) (fun j =>
    forRange 0 I_tot (fun i => planeBodyExHy E H K1 n omega dt Nt j i)) P

/-- A magnetic split field that grows with `k`: every component is `k` at `[k][j][i]`. -/
noncomputable def exHplane : SplitField ℝ := fun _ k _ _ => (k : ℝ)

/-- An electric split field with every component equal to 1. -/
noncomputable def exEplane : SplitField ℝ := fun _ _ _ _ => 1

/-- The arrays the first loop nest of `extractPhasorsPlane` writes. -/
def inEyHx : PlaneArray → Bool
  | .lEy_R => true
  | .lEy_I => true
  | .lHx_R => true
  | .lHx_I => true
  | _ => false

/-- The arrays the second loop nest of `extractPhasorsPlane` writes. -/
def inExHy : PlaneArray → Bool
  | .lEx_R => true
  | .lEx_I => true
  | .lHy_R => true
  | .lHy_I => true
  | _ => false

/-- The term the first loop nest adds to array `a` at `[j][i]`. -/
noncomputable def planeTermEyHx (E H : SplitField ℝ) (K1 n : Int) (omega dt : ℝ) (Nt : Int) :
    PlaneArray → Int → Int → ℝ
  | .lEy_R, j, i => (planeSubResult (E .yz K1 j i + E .yx K1 j i) omega n dt Nt).re
  | .lEy_I, j, i => (planeSubResult (E .yz K1 j i + E .yx K1 j i) omega n dt Nt).im
  | .lHx_R, j, i => (planeSubResult (H .xz (K1 - 1) j i + H .xy K1 j i) omega n dt Nt).re
  | .lHx_I, j, i => (planeSubResult (H .xz (K1 - 1) j i + H .xy K1 j i) omega n dt Nt).im
  | _, _, _ => 0

/-- The term the second loop nest adds to array `a` at `[j][i]`. -/
noncomputable def planeTermExHy (E H : SplitField ℝ) (K1 n : Int) (omega dt : ℝ) (Nt : Int) :
    PlaneArray → Int → Int → ℝ
  | .lEx_R, j, i => (planeSubResult (E .xz K1 j i + E .xy K1 j i) omega n dt Nt).re
  | .lEx_I, j, i => (planeSubResult (E .xz K1 j i + E .xy K1 j i) omega n dt Nt).im
  | .lHy_R, j, i => (planeSubResult (H .yz (K1 - 1) j i + H .yx K1 j i) omega n dt Nt).re
  | .lHy_I, j, i => (planeSubResult (H .yz (K1 - 1) j i + H .yx K1 j i) omega n dt Nt).im
  | _, _, _ => 0

/-! ## One time step of the finite-difference solver

The update passes over the whole grid and the source injection of `execute_simulation`
(iterator.cpp lines 1375-4340).  The complex envelope values are parameters of a step: in
steady-state mode `commonAmplitude * commonPhase`, in pulsed mode the factor
`(-i) * exp(-i * fmod(omega_an * (t - to_l), 2 * DCPI))` and the Gaussian factor, each as
the source computes it from `time_H` (E-side injection) or `time_E` (H-side injection). -/

/-- The values of `params.dimension`. -/
inductive Dimension where
  | THREE | TRANSVERSE_ELECTRIC | TRANSVERSE_MAGNETIC
  deriving DecidableEq, Repr

/-- The values of `params.source_mode`. -/
inductive SourceMode where
  | steadystate | pulsed
  deriving DecidableEq, Repr

/-- One plane of the interface box (`InterfaceComponent`): its index and its apply flag. -/
structure InterfaceComponent where
  index : Int
  apply : Bool
  deriving DecidableEq, Repr

/-- A source tensor (`Isource`, `Jsource`, `Ksource`): `real[a][b][slot]`, `imag[a][b][slot]`. -/
structure SourceTensor (R : Type) where
  real : Int → Int → Int → R
  imag : Int → Int → Int → R

/-- The data of a run that the source injection and the loop bounds consult. -/
structure SourceParams (R : Type) where
  dimension : Dimension
  source_mode : SourceMode
  I0 : InterfaceComponent
  I1 : InterfaceComponent
  J0 : InterfaceComponent
  J1 : InterfaceComponent
  K0 : InterfaceComponent
  K1 : InterfaceComponent
  Isource : SourceTensor R
  Jsource : SourceTensor R
  Ksource : SourceTensor R
  exi_present : Bool
  eyi_present : Bool
  /-- The incident field `Ei.x[tind][j][i]`. -/
  Ei_x : Int → Int → Int → R
  /-- The incident field `Ei.y[tind][j][i]`. -/
  Ei_y : Int → Int → Int → R

/-- The envelope values of one injection pass. -/
structure Envelope (R : Type) where
  /-- Real part of `commonAmplitude * commonPhase` (steady state). -/
  steady_re : R
  /-- Imaginary part of `commonAmplitude * commonPhase` (steady state). -/
  steady_im : R
  /-- Real part of `(-1.0 * IMAGINARY_UNIT) * exp(-IMAGINARY_UNIT * fmod(...))` (pulsed). -/
  pulsed_re : R
  /-- Imaginary part of `(-1.0 * IMAGINARY_UNIT) * exp(-IMAGINARY_UNIT * fmod(...))`. -/
  pulsed_im : R
  /-- The Gaussian factor `exp(-1.0 * DCPI * pow(.../hwhm, 2))` (pulsed). -/
  gauss : R

section Step

variable {R : Type} [LinearOrderedField R]

/-- Three nested loops `for k in [klo, khi)`, `for j in [jlo, jhi)`, `for i in [ilo, ihi)`. -/
def loop3 {σ : Type} (klo khi jlo jhi ilo ihi : Int) (body : Int → Int → Int → σ → σ) (s : σ) :
    σ :=
  forRange klo khi (fun k => forRange jlo jhi (fun j => forRange ilo ihi (fun i => body k j i)))
    s

/-- The flag `ksource_nz[icomp]` (iterator.cpp lines 945-956). -/
def ksource_nz (p : SimParams R) (sp : SourceParams R) (icomp : Int) : Bool :=
  if p.J_tot = 0 then
    forRange 0 (p.I_tot + 1)
      (fun i nz => nz || decide (|sp.Ksource.imag 0 (i - sp.I0.index) icomp| > 1 / 10 ^ 15)
        || decide (|sp.Ksource.real 0 (i - sp.I0.index) icomp| > 1 / 10 ^ 15))
      false
  else false

/-- The loop bound `J_tot_bound` (lines 1062-1068). -/
def J_tot_bound (p : SimParams R) (sp : SourceParams R) : Int :=
  if p.J_tot = 0 then
    if ksource_nz p sp 2 || ksource_nz p sp 1 || sp.eyi_present then 1 else 0
  else p.J_tot

/-- The loop bound `J_tot_p1_bound` (lines 1063-1073). -/
def J_tot_p1_bound (p : SimParams R) (sp : SourceParams R) : Int :=
  if p.J_tot = 0 then
    if ksource_nz p sp 3 || ksource_nz p sp 0 || sp.exi_present then 1 else 0
  else p.J_tot + 1

/-- The test `params.dimension == THREE || params.dimension == TRANSVERSE_ELECTRIC`. -/
def SourceParams.threeOrTE (sp : SourceParams R) : Bool :=
  decide (sp.dimension = .THREE) || decide (sp.dimension = .TRANSVERSE_ELECTRIC)

/-- The E update of one time step with the finite-difference solver (lines 1375-3128): the
loops of the six kernels, or in the TM branch of the two. -/
def E_update_FD (p : SimParams R) (sp : SourceParams R) (g : Grid R) : Grid R :=
  let g :=
    if sp.threeOrTE then
      let g := loop3 0 (p.K_tot + 1) 1 p.J_tot 0 p.I_tot (FDTD_E p .xy) g
      let g := loop3 1 p.K_tot 0 (J_tot_p1_bound p sp) 0 p.I_tot (FDTD_E p .xz) g
      let g := loop3 0 (p.K_tot + 1) 0 (J_tot_bound p sp) 1 p.I_tot (FDTD_E p .yx) g
      loop3 1 p.K_tot 0 (J_tot_bound p sp) 0 (p.I_tot + 1) (FDTD_E p .yz) g
    else g
  let g :=
    if sp.threeOrTE then loop3 0 p.K_tot 0 (J_tot_p1_bound p sp) 1 p.I_tot (FDTD_E p .zx) g
    else loop3 0 (p.K_tot + 1) 0 (p.J_tot + 1) 1 p.I_tot (FDTD_E p .zxTM) g
  if sp.threeOrTE then loop3 0 p.K_tot 1 p.J_tot 0 (p.I_tot + 1) (FDTD_E p .zy) g
  else loop3 0 (p.K_tot + 1) 1 p.J_tot 0 (p.I_tot + 1) (FDTD_E p .zyTM) g

/-- The statement `H_s.c[k][j][i] = 0.` of the TM branch (lines 3895-3897, 3961-3963). -/
def zeroH (c : Comp) (k j i : Int) (g : Grid R) : Grid R :=
  { g with H_s := g.H_s.set c k j i 0 }

/-- The H update of one time step with the finite-difference solver (lines 3540-4130). -/
def H_update_FD (p : SimParams R) (sp : SourceParams R) (g : Grid R) : Grid R :=
  let g :=
    if sp.threeOrTE then
      let g := loop3 0 p.K_tot 0 (J_tot_bound p sp) 0 (p.I_tot + 1) (FDTD_H p .xz) g
      let g := loop3 0 p.K_tot 0 p.J_tot 0 (p.I_tot + 1) (FDTD_H p .xy) g
      let g := loop3 0 p.K_tot 0 (J_tot_p1_bound p sp) 0 p.I_tot (FDTD_H p .yx) g
      loop3 0 p.K_tot 0 (J_tot_p1_bound p sp) 0 p.I_tot (FDTD_H p .yz) g
    else
      let g := loop3 0 (p.K_tot + 1) 0 p.J_tot 0 (p.I_tot + 1) (zeroH .xz) g
      let g := loop3 0 (p.K_tot + 1) 0 p.J_tot 0 (p.I_tot + 1) (FDTD_H p .xyTM) g
      let g := loop3 0 (p.K_tot + 1) 0 (p.J_tot + 1) 0 p.I_tot (FDTD_H p .yxTM) g
      loop3 0 (p.K_tot + 1) 0 (p.J_tot + 1) 0 p.I_tot (zeroH .yz) g
  if sp.threeOrTE then
    let g := loop3 0 (p.K_tot + 1) 0 p.J_tot 0 p.I_tot (FDTD_H p .zy) g
    loop3 0 (p.K_tot + 1) 0 (J_tot_bound p sp) 0 p.I_tot (FDTD_H p .zx) g
  else g

end Step
section Injection

variable {R : Type} [LinearOrderedField R]

/-- The value `real(w * (S.real[a][b][s] + IMAGINARY_UNIT * S.imag[a][b][s]))` for a complex
factor `w` given by its real and imaginary part. -/
def SourceTensor.reMul (S : SourceTensor R) (w_re w_im : R) (a b s : Int) : R :=
  w_re * S.real a b s - w_im * S.imag a b s

/-- The assignment forms `x = x + y` / `x += y` (`plus`) and `x = x - y` / `x -= y`. -/
def addSub (plus : Bool) (x y : R) : R := if plus then x + y else x - y

/-- One E-side correction (for instance lines 3146-3163): the statement
`E_s.c[k][j][i] = E_s.c[k][j][i] ± cb * v`, then under `is_cond` the statement
`J_c.c[k][j][i] ±= rho * cb * v`, then under `params.is_disp_ml` the statement
`J_s.c[k][j][i] ±= kg * cb * v`; `v` is the real part of the source term and `kg` the factor
`ml.kappa * ml.gamma / (2. * params.dt)`. -/
def injectE (p : SimParams R) (c : Comp) (k j i : Int) (plusE plusJc plusJs : Bool)
    (cb rho kg v : R) (g : Grid R) : Grid R :=
  let g : Grid R := { g with E_s := g.E_s.set c k j i (addSub plusE (g.E_s c k j i) (cb * v)) }
  let g : Grid R :=
    if p.is_cond then
      { g with J_c := g.J_c.set c k j i (addSub plusJc (g.J_c c k j i) (rho * cb * v)) }
    else g
  if p.is_disp_ml then
    { g with J_s := g.J_s.set c k j i (addSub plusJs (g.J_s c k j i) (kg * cb * v)) }
  else g

/-- One H-side correction: `H_s.c[k][j][i] = H_s.c[k][j][i] ± db * v`. -/
def injectH (c : Comp) (k j i : Int) (plus : Bool) (db v : R) (g : Grid R) : Grid R :=
  { g with H_s := g.H_s.set c k j i (addSub plus (g.H_s c k j i) (db * v)) }

/-- The guard `k < (K1.index) || params.dimension == Dimension::TRANSVERSE_MAGNETIC`. -/
def SourceParams.belowK1 (sp : SourceParams R) (k : Int) : Bool :=
  decide (k < sp.K1.index) || decide (sp.dimension = .TRANSVERSE_MAGNETIC)

/-- The body of the first steady-state E-side loop, faces I0 and I1 (lines 3139-3232).  The
state is the grid and the variable `array_ind`. -/
def injE_I (p : SimParams R) (sp : SourceParams R) (e : Envelope R) (k j : Int)
    (st : Grid R × Int) : Grid R × Int :=
  let src := fun s => sp.Isource.reMul e.steady_re e.steady_im (k - sp.K0.index)
    (j - sp.J0.index) s
  let kg := fun (array_ind : Int) => p.ml.kappa.x array_ind * p.ml.gamma k / (2 * p.dt)
  let st : Grid R × Int :=
    if sp.I0.apply then
      let array_ind :=
        if !p.is_multilayer then sp.I0.index else (p.I_tot + 1) * k + sp.I0.index
      let g := st.1
      let g :=
        if sp.belowK1 k then
          injectE p .zx k j sp.I0.index false true true (p.C.b.x array_ind)
            (p.rho_cond.x array_ind) (kg array_ind) (src 2) g
        else g
      let g :=
        if j < sp.J1.index then
          injectE p .yx k j sp.I0.index true false false (p.C.b.x array_ind)
            (p.rho_cond.x array_ind) (kg array_ind) (src 3) g
        else g
      (g, array_ind)
    else st
  if sp.I1.apply then
    let array_ind := if !p.is_multilayer then sp.I1.index else (p.I_tot + 1) * k + sp.I1.index
    let g := st.1
    let g :=
      if sp.belowK1 k then
        injectE p .zx k j sp.I1.index true false false (p.C.b.x array_ind)
          (p.rho_cond.x array_ind) (kg array_ind) (src 6) g
      else g
    let g :=
      if j < sp.J1.index then
        injectE p .yx k j sp.I1.index false true true (p.C.b.x array_ind)
          (p.rho_cond.x array_ind) (kg array_ind) (src 7) g
      else g
    (g, array_ind)
  else st

/-- The body of the second steady-state E-side loop, faces J0 and J1 (lines 3236-3330).  On
J0 `array_ind` is assigned only inside the first guard (lines 3240-3242); the `E_s.xy`
correction reads whatever value it has. -/
def injE_J (p : SimParams R) (sp : SourceParams R) (e : Envelope R) (k i : Int)
    (st : Grid R × Int) : Grid R × Int :=
  let src := fun s => sp.Jsource.reMul e.steady_re e.steady_im (k - sp.K0.index)
    (i - sp.I0.index) s
  let kg := fun (array_ind : Int) => p.ml.kappa.y array_ind * p.ml.gamma k / (2 * p.dt)
  let st : Grid R × Int :=
    if sp.J0.apply then
      let st : Grid R × Int :=
        if sp.belowK1 k then
          let array_ind :=
            if !p.is_multilayer then sp.J0.index else (p.J_tot + 1) * k + sp.J0.index
          (injectE p .zy k sp.J0.index i true false false (p.C.b.y array_ind)
            (p.rho_cond.y array_ind) (kg array_ind) (src 2) st.1, array_ind)
        else st
      if i < sp.I1.index then
        (injectE p .xy k sp.J0.index i false true true (p.C.b.y st.2)
          (p.rho_cond.y st.2) (kg st.2) (src 3) st.1, st.2)
      else st
    else st
  if sp.J1.apply then
    let array_ind := if !p.is_multilayer then sp.J1.index else (p.J_tot + 1) * k + sp.J1.index
    let g := st.1
    let g :=
      if sp.belowK1 k then
        injectE p .zy k sp.J1.index i false true false (p.C.b.y array_ind)
          (p.rho_cond.y array_ind) (kg array_ind) (src 6) g
      else g
    let g :=
      if i < sp.I1.index then
        injectE p .xy k sp.J1.index i true false true (p.C.b.y array_ind)
          (p.rho_cond.y array_ind) (kg array_ind) (src 7) g
      else g
    (g, array_ind)
  else st

/-- The body of the third steady-state E-side loop, faces K0 and K1 (lines 3334-3418).
`kstale` is the value the variable `k` was left with by the loop before: the source reads
`ml.gamma[k]` here. -/
def injE_K (p : SimParams R) (sp : SourceParams R) (e : Envelope R) (kstale : Int) (j i : Int)
    (g : Grid R) : Grid R :=
  let src := fun s => sp.Ksource.reMul e.steady_re e.steady_im (j - sp.J0.index)
    (i - sp.I0.index) s
  let kg := fun (ind : Int) => p.ml.kappa.z ind * p.ml.gamma kstale / (2 * p.dt)
  let g :=
    if sp.K0.apply then
      let g :=
        if j < sp.J1.index then
          injectE p .yz sp.K0.index j i false true false (p.C.b.z sp.K0.index)
            (p.rho_cond.z sp.K0.index) (kg sp.K0.index) (src 2) g
        else g
      if i < sp.I1.index then
        injectE p .xz sp.K0.index j i true false true (p.C.b.z sp.K0.index)
          (p.rho_cond.z sp.K0.index) (kg sp.K0.index) (src 3) g
      else g
    else g
  if sp.K1.apply then
    let g :=
      if j < sp.J1.index then
        injectE p .yz sp.K1.index j i true false true (p.C.b.z sp.K1.index)
          (p.rho_cond.z sp.K1.index) (kg sp.K1.index) (src 6) g
      else g
    if i < sp.I1.index then
      injectE p .xz sp.K1.index j i false true false (p.C.b.z sp.K1.index)
        (p.rho_cond.z sp.K1.index) (kg sp.K1.index) (src 7) g
    else g
  else g

/-- The value of the loop variable after `for (k = lo; k <= hi; k++)`. -/
def afterLoop (lo hi : Int) : Int := if lo ≤ hi then hi + 1 else lo

/-- The steady-state E-side injection (lines 3134-3419): the grid and `array_ind` after the
three loops. -/
def inject_E_steady (p : SimParams R) (sp : SourceParams R) (e : Envelope R)
    (st : Grid R × Int) : Grid R × Int :=
  let st := forRange sp.K0.index (sp.K1.index + 1) (fun k =>
    forRange sp.J0.index (sp.J1.index + 1) (fun j => injE_I p sp e k j)) st
  let st := forRange sp.K0.index (sp.K1.index + 1) (fun k =>
    forRange sp.I0.index (sp.I1.index + 1) (fun i => injE_J p sp e k i)) st
  (forRange sp.J0.index (sp.J1.index + 1) (fun j =>
    forRange sp.I0.index (sp.I1.index + 1) (fun i =>
      injE_K p sp e (afterLoop sp.K0.index sp.K1.index) j i)) st.1, st.2)

/-- The pulsed E-side correction of `E_s.yz` at `[K0.index][j][i]` (lines 3426-3453 and
3462-3492); `a` is the first index into `Ksource`. -/
def injE_pulsed_yz (p : SimParams R) (sp : SourceParams R) (e : Envelope R) (a j i : Int)
    (g : Grid R) : Grid R :=
  injectE p .yz sp.K0.index j i false true false (p.C.b.z sp.K0.index)
    (p.rho_cond.z sp.K0.index)
    (p.ml.kappa.z sp.K0.index * p.ml.gamma sp.K0.index / (2 * p.dt))
    (sp.Ksource.reMul e.pulsed_re e.pulsed_im a (i - sp.I0.index) 2 * e.gauss) g

/-- The pulsed E-side correction of `E_s.xz` at `[K0.index][j][i]` (lines 3495-3521). -/
def injE_pulsed_xz (p : SimParams R) (sp : SourceParams R) (e : Envelope R) (j i : Int)
    (g : Grid R) : Grid R :=
  injectE p .xz sp.K0.index j i true false true (p.C.b.z sp.K0.index)
    (p.rho_cond.z sp.K0.index)
    (p.ml.kappa.z sp.K0.index * p.ml.gamma sp.K0.index / (2 * p.dt))
    (sp.Ksource.reMul e.pulsed_re e.pulsed_im (j - sp.J0.index) (i - sp.I0.index) 3 * e.gauss) g

/-- The pulsed E-side injection (lines 3421-3522). -/
def inject_E_pulsed (p : SimParams R) (sp : SourceParams R) (e : Envelope R) (g : Grid R) :
    Grid R :=
  let g :=
    if p.J_tot = 0 then
      forRange 0 (p.I_tot + 1) (fun i => injE_pulsed_yz p sp e 0 0 i) g
    else
      forRange 0 p.J_tot (fun j =>
        forRange 0 (p.I_tot + 1) (fun i => injE_pulsed_yz p sp e (j - sp.J0.index) j i)) g
  forRange 0 (p.J_tot + 1) (fun j => forRange 0 p.I_tot (fun i => injE_pulsed_xz p sp e j i)) g

/-- The E-side injection of one time step (lines 3133-3527). -/
def inject_E (p : SimParams R) (sp : SourceParams R) (e : Envelope R) (st : Grid R × Int) :
    Grid R × Int :=
  match sp.source_mode with
  | .steadystate => inject_E_steady p sp e st
  | .pulsed => (inject_E_pulsed p sp e st.1, st.2)

end Injection
section InjectionH

variable {R : Type} [LinearOrderedField R]

/-- The body of the first steady-state H-side loop, faces I0 and I1 (lines 4140-4181). -/
def injH_I (p : SimParams R) (sp : SourceParams R) (e : Envelope R) (k j : Int)
    (st : Grid R × Int) : Grid R × Int :=
  let src := fun s => sp.Isource.reMul e.steady_re e.steady_im (k - sp.K0.index)
    (j - sp.J0.index) s
  let st : Grid R × Int :=
    if sp.I0.apply then
      let array_ind :=
        if !p.is_multilayer then sp.I0.index - 1 else (p.I_tot + 1) * k + sp.I0.index - 1
      let g := st.1
      let g :=
        if j < sp.J1.index then
          injectH .zx k j (sp.I0.index - 1) true (p.D.b.x array_ind) (src 0) g
        else g
      let g :=
        if sp.belowK1 k then
          injectH .yx k j (sp.I0.index - 1) false (p.D.b.x array_ind) (src 1) g
        else g
      (g, array_ind)
    else st
  if sp.I1.apply then
    let array_ind := if !p.is_multilayer then sp.I1.index else (p.I_tot + 1) * k + sp.I1.index
    let g := st.1
    let g :=
      if j < sp.J1.index then injectH .zx k j sp.I1.index false (p.D.b.x array_ind) (src 4) g
      else g
    let g :=
      if sp.belowK1 k then injectH .yx k j sp.I1.index true (p.D.b.x array_ind) (src 5) g
      else g
    (g, array_ind)
  else st

/-- The body of the second steady-state H-side loop, faces J0 and J1 (lines 4186-4228). -/
def injH_J (p : SimParams R) (sp : SourceParams R) (e : Envelope R) (k i : Int)
    (st : Grid R × Int) : Grid R × Int :=
  let src := fun s => sp.Jsource.reMul e.steady_re e.steady_im (k - sp.K0.index)
    (i - sp.I0.index) s
  let st : Grid R × Int :=
    if sp.J0.apply then
      let array_ind :=
        if !p.is_multilayer then sp.J0.index else (p.J_tot + 1) * k + sp.J0.index
      let g := st.1
      let g :=
        if i < sp.I1.index then
          injectH .zy k (sp.J0.index - 1) i false (p.D.b.y array_ind) (src 0) g
        else g
      let g :=
        if sp.belowK1 k then
          injectH .xy k (sp.J0.index - 1) i true (p.D.b.y array_ind) (src 1) g
        else g
      (g, array_ind)
    else st
  if sp.J1.apply then
    let array_ind := if !p.is_multilayer then sp.J1.index else (p.J_tot + 1) * k + sp.J1.index
    let g := st.1
    let g :=
      if i < sp.I1.index then injectH .zy k sp.J1.index i true (p.D.b.y array_ind) (src 4) g
      else g
    let g :=
      if sp.belowK1 k then injectH .xy k sp.J1.index i false (p.D.b.y array_ind) (src 5) g
      else g
    (g, array_ind)
  else st

/-- The body of the third steady-state H-side loop, faces K0 and K1 (lines 4233-4264). -/
def injH_K (p : SimParams R) (sp : SourceParams R) (e : Envelope R) (j i : Int) (g : Grid R) :
    Grid R :=
  let src := fun s => sp.Ksource.reMul e.steady_re e.steady_im (j - sp.J0.index)
    (i - sp.I0.index) s
  let g :=
    if sp.K0.apply then
      let g :=
        if i < sp.I1.index then
          injectH .yz (sp.K0.index - 1) j i true (p.D.b.z (sp.K0.index - 1)) (src 0) g
        else g
      if j < sp.J1.index then
        injectH .xz (sp.K0.index - 1) j i false (p.D.b.z (sp.K0.index - 1)) (src 1) g
      else g
    else g
  if sp.K1.apply then
    let g :=
      if i < sp.I1.index then
        injectH .yz sp.K1.index j i false (p.D.b.z sp.K1.index) (src 4) g
      else g
    if j < sp.J1.index then injectH .xz sp.K1.index j i true (p.D.b.z sp.K1.index) (src 5) g
    else g
  else g

/-- The steady-state H-side injection (lines 4135-4266). -/
def inject_H_steady (p : SimParams R) (sp : SourceParams R) (e : Envelope R)
    (st : Grid R × Int) : Grid R × Int :=
  let st := forRange sp.K0.index (sp.K1.index + 1) (fun k =>
    forRange sp.J0.index (sp.J1.index + 1) (fun j => injH_I p sp e k j)) st
  let st := forRange sp.K0.index (sp.K1.index + 1) (fun k =>
    forRange sp.I0.index (sp.I1.index + 1) (fun i => injH_J p sp e k i)) st
  (forRange sp.J0.index (sp.J1.index + 1) (fun j =>
    forRange sp.I0.index (sp.I1.index + 1) (fun i => injH_K p sp e j i)) st.1, st.2)

/-- The pulsed H-side correction of `H_s.xz` at `[K0.index - 1][j][i]` with the incident
field term (lines 4273-4284 and 4308-4319); `a` is the first index into `Ksource`. -/
def injH_pulsed_xz (p : SimParams R) (sp : SourceParams R) (e : Envelope R) (tind a j i : Int)
    (g : Grid R) : Grid R :=
  let g := injectH .xz (sp.K0.index - 1) j i false (p.D.b.z (sp.K0.index - 1))
    (sp.Ksource.reMul e.pulsed_re e.pulsed_im a (i - sp.I0.index) 1 * e.gauss) g
  if sp.eyi_present then
    injectH .xz (sp.K0.index - 1) j i false (p.D.b.z (sp.K0.index - 1)) (sp.Ei_y tind j i) g
  else g

/-- The pulsed H-side correction of `H_s.yz` at `[K0.index - 1][j][i]` with the incident
field term (lines 4288-4299 and 4324-4335). -/
def injH_pulsed_yz (p : SimParams R) (sp : SourceParams R) (e : Envelope R) (tind a j i : Int)
    (g : Grid R) : Grid R :=
  let g := injectH .yz (sp.K0.index - 1) j i true (p.D.b.z (sp.K0.index - 1))
    (sp.Ksource.reMul e.pulsed_re e.pulsed_im a (i - sp.I0.index) 0 * e.gauss) g
  if sp.exi_present then
    injectH .yz (sp.K0.index - 1) j i true (p.D.b.z (sp.K0.index - 1)) (sp.Ei_x tind j i) g
  else g

/-- The pulsed H-side injection (lines 4267-4338). -/
def inject_H_pulsed (p : SimParams R) (sp : SourceParams R) (e : Envelope R) (tind : Int)
    (g : Grid R) : Grid R :=
  if p.J_tot = 0 then
    let g := forRange 0 (p.I_tot + 1) (fun i => injH_pulsed_xz p sp e tind 0 0 i) g
    forRange 0 p.I_tot (fun i => injH_pulsed_yz p sp e tind 0 0 i) g
  else
    let g := forRange 0 p.J_tot (fun j =>
      forRange 0 (p.I_tot + 1) (fun i => injH_pulsed_xz p sp e tind (j - sp.J0.index) j i)) g
    forRange 0 (p.J_tot + 1) (fun j =>
      forRange 0 p.I_tot (fun i => injH_pulsed_yz p sp e tind (j - sp.J0.index) j i)) g

/-- The H-side injection of one time step (lines 4134-4340). -/
def inject_H (p : SimParams R) (sp : SourceParams R) (e : Envelope R) (tind : Int)
    (st : Grid R × Int) : Grid R × Int :=
  match sp.source_mode with
  | .steadystate => inject_H_steady p sp e st
  | .pulsed => (inject_H_pulsed p sp e tind st.1, st.2)

/-- One iteration of the main loop with the finite-difference solver, as far as the field
state goes: E update, E-side injection (envelope `eH`, computed from `time_H`), H update,
H-side injection (envelope `eE`, computed from `time_E`).  The variable `array_ind` is 0 at
the start of every iteration (line 1356) and the kernels work on private copies of it (lines
1367, 3535-3536), so each injection pass sees the value the previous one left. -/
def timeStep_FD (p : SimParams R) (sp : SourceParams R) (tind : Int) (eH eE : Envelope R)
    (g : Grid R) : Grid R :=
  let g := E_update_FD p sp g
  let st := inject_E p sp eH (g, 0)
  let g := H_update_FD p sp st.1
  (inject_H p sp eE tind (g, st.2)).1

/-- The field state after `n` iterations of the main loop starting with iteration `tind`;
`env t` gives the two envelopes of iteration `t`. -/
def runSteps_FD (p : SimParams R) (sp : SourceParams R) (env : Int → Envelope R × Envelope R) :
    Nat → Int → Grid R → Grid R
  | 0, _, g => g
  | n + 1, tind, g =>
    runSteps_FD p sp env n (tind + 1) (timeStep_FD p sp tind (env tind).1 (env tind).2 g)

/-- The grid with every array zero. -/
def zeroGrid : Grid R :=
  { E_s := fun _ _ _ _ => 0, H_s := fun _ _ _ _ => 0, J_s := fun _ _ _ _ => 0,
    J_c := fun _ _ _ _ => 0, E_nm1 := fun _ _ _ _ => 0, J_nm1 := fun _ _ _ _ => 0 }

/-- A split field vanishes on the components selected by `S`. -/
def ZeroOn (S : Comp → Prop) (F : SplitField R) : Prop :=
  ∀ c, S c → ∀ k j i, F c k j i = 0

/-- The arrays of the grid vanish on a family of components: the E field, the auxiliary
currents and the previous-step copies on the components `SE`, the H field on `SH`. -/
structure FamZero (SE SH : Comp → Prop) (g : Grid R) : Prop where
  E_s : ZeroOn SE g.E_s
  J_s : ZeroOn SE g.J_s
  J_c : ZeroOn SE g.J_c
  E_nm1 : ZeroOn SE g.E_nm1
  J_nm1 : ZeroOn SE g.J_nm1
  H_s : ZeroOn SH g.H_s

end InjectionH

section Quiet

variable {R : Type} [LinearOrderedField R]

/-- Slot `s` of a source tensor is zero at every point of its plane. -/
def SourceTensor.slotZero (S : SourceTensor R) (s : Int) : Prop :=
  ∀ a b, S.real a b s = 0 ∧ S.imag a b s = 0

/-- No correction that the injection applies to a component of the family `SE`, `SH` has a
non-zero source term.  In steady-state mode the correction of a face runs under the apply
flag of the face: faces I0/I1 add the slots 2/6 of `Isource` to `E_s.zx`, 3/7 to `E_s.yx`,
0/4 to `H_s.zx`, 1/5 to `H_s.yx`; faces J0/J1 the slots 2/6 of `Jsource` to `E_s.zy`, 3/7 to
`E_s.xy`, 0/4 to `H_s.zy`, 1/5 to `H_s.xy`; faces K0/K1 the slots 2/6 of `Ksource` to
`E_s.yz`, 3/7 to `E_s.xz`, 0/4 to `H_s.yz`, 1/5 to `H_s.xz`.  In pulsed mode slot 2 of
`Ksource` goes to `E_s.yz`, 3 to `E_s.xz`, 1 and `Ei.y` to `H_s.xz`, 0 and `Ei.x` to
`H_s.yz`, whatever the flags. -/
structure QuietSources (SE SH : Comp → Prop) (sp : SourceParams R) : Prop where
  I_zx : sp.source_mode = .steadystate → SE .zx →
    (sp.I0.apply = true → sp.Isource.slotZero 2) ∧ (sp.I1.apply = true → sp.Isource.slotZero 6)
  I_yx : sp.source_mode = .steadystate → SE .yx →
    (sp.I0.apply = true → sp.Isource.slotZero 3) ∧ (sp.I1.apply = true → sp.Isource.slotZero 7)
  J_zy : sp.source_mode = .steadystate → SE .zy →
    (sp.J0.apply = true → sp.Jsource.slotZero 2) ∧ (sp.J1.apply = true → sp.Jsource.slotZero 6)
  J_xy : sp.source_mode = .steadystate → SE .xy →
    (sp.J0.apply = true → sp.Jsource.slotZero 3) ∧ (sp.J1.apply = true → sp.Jsource.slotZero 7)
  K_yz : sp.source_mode = .steadystate → SE .yz →
    (sp.K0.apply = true → sp.Ksource.slotZero 2) ∧ (sp.K1.apply = true → sp.Ksource.slotZero 6)
  K_xz : sp.source_mode = .steadystate → SE .xz →
    (sp.K0.apply = true → sp.Ksource.slotZero 3) ∧ (sp.K1.apply = true → sp.Ksource.slotZero 7)
  I_Hzx : sp.source_mode = .steadystate → SH .zx →
    (sp.I0.apply = true → sp.Isource.slotZero 0) ∧ (sp.I1.apply = true → sp.Isource.slotZero 4)
  I_Hyx : sp.source_mode = .steadystate → SH .yx →
    (sp.I0.apply = true → sp.Isource.slotZero 1) ∧ (sp.I1.apply = true → sp.Isource.slotZero 5)
  J_Hzy : sp.source_mode = .steadystate → SH .zy →
    (sp.J0.apply = true → sp.Jsource.slotZero 0) ∧ (sp.J1.apply = true → sp.Jsource.slotZero 4)
  J_Hxy : sp.source_mode = .steadystate → SH .xy →
    (sp.J0.apply = true → sp.Jsource.slotZero 1) ∧ (sp.J1.apply = true → sp.Jsource.slotZero 5)
  K_Hyz : sp.source_mode = .steadystate → SH .yz →
    (sp.K0.apply = true → sp.Ksource.slotZero 0) ∧ (sp.K1.apply = true → sp.Ksource.slotZero 4)
  K_Hxz : sp.source_mode = .steadystate → SH .xz →
    (sp.K0.apply = true → sp.Ksource.slotZero 1) ∧ (sp.K1.apply = true → sp.Ksource.slotZero 5)
  P_yz : sp.source_mode = .pulsed → SE .yz → sp.Ksource.slotZero 2
  P_xz : sp.source_mode = .pulsed → SE .xz → sp.Ksource.slotZero 3
  P_Hxz : sp.source_mode = .pulsed → SH .xz →
    sp.Ksource.slotZero 1 ∧ (sp.eyi_present = true → ∀ t j i, sp.Ei_y t j i = 0)
  P_Hyz : sp.source_mode = .pulsed → SH .yz →
    sp.Ksource.slotZero 0 ∧ (sp.exi_present = true → ∀ t j i, sp.Ei_x t j i = 0)

end Quiet

/-! ## Concrete data for the time step -/

/-- A source tensor over the rationals with the same entry `v` in slot `s` and zero in every
other slot. -/
def exTensor (s : Int) (v : ℚ) : SourceTensor ℚ :=
  { real := fun _ _ s' => if s' = s then v else 0, imag := fun _ _ _ => 0 }

/-- A two-dimensional configuration over the rationals: `J_tot = 0`, `I_tot = 2`,
`K_tot = 2`, background only, every background coefficient equal to 1, no dispersion and no
conductivity. -/
def exParams2D : SimParams ℚ :=
  { exParams with
    I_tot := 2, J_tot := 0, K_tot := 2, is_disp_ml := false, is_disp := false, is_cond := false,
    interp_mat_props := false, materials := fun _ _ _ => 0,
    C := ⟨constXYZ 1, constXYZ 1, constXYZ 0⟩ }

/-- A pulsed source with every apply flag off: slot 2 of `Ksource` (the TE slot `Hx`) is 1,
every other source entry is 0, the interface box is `[0, 1] x [0, 0] x [1, 1]`. -/
def exSourcePulsed : SourceParams ℚ :=
  { dimension := .THREE, source_mode := .pulsed,
    I0 := ⟨0, false⟩, I1 := ⟨1, false⟩, J0 := ⟨0, false⟩, J1 := ⟨0, false⟩,
    K0 := ⟨1, false⟩, K1 := ⟨1, false⟩,
    Isource := exTensor 0 0, Jsource := exTensor 0 0, Ksource := exTensor 2 1,
    exi_present := false, eyi_present := false,
    Ei_x := fun _ _ _ => 0, Ei_y := fun _ _ _ => 0 }

/-- The source `exSourcePulsed` in steady-state mode. -/
def exSourceSteady : SourceParams ℚ := { exSourcePulsed with source_mode := .steadystate }

/-- Envelope values over the rationals: every complex factor is 1, the Gaussian is 1. -/
def exEnvelope : Envelope ℚ :=
  { steady_re := 1, steady_im := 0, pulsed_re := 1, pulsed_im := 0, gauss := 1 }

section Families

variable {R : Type} [LinearOrderedField R]

/-- Every array of the grid is zero at every cell: the E and H split fields, the auxiliary
currents `J_s`, `J_c`, and the previous-step copies `E_nm1`, `J_nm1`. -/
def Grid.IsZero (g : Grid R) : Prop :=
  ∀ c k j i, g.E_s c k j i = 0 ∧ g.H_s c k j i = 0 ∧ g.J_s c k j i = 0 ∧ g.J_c c k j i = 0 ∧
    g.E_nm1 c k j i = 0 ∧ g.J_nm1 c k j i = 0

/-- The split components of the E field (and of the currents) that make up `E_x` and `E_z`,
the electric components of the 2D TM case. -/
def isTM_E (c : Comp) : Prop := c = .xy ∨ c = .xz ∨ c = .zx ∨ c = .zy

/-- The split components of the H field that make up `H_y`, the magnetic component of the 2D
TM case. -/
def isTM_H (c : Comp) : Prop := c = .yx ∨ c = .yz

/-- The split components of the E field that make up `E_y`, the electric component of the 2D
TE case. -/
def isTE_E (c : Comp) : Prop := c = .yx ∨ c = .yz

/-- The split components of the H field that make up `H_x` and `H_z`, the magnetic
components of the 2D TE case. -/
def isTE_H (c : Comp) : Prop := c = .xy ∨ c = .xz ∨ c = .zx ∨ c = .zy

/-- Every source slot that holds a field of the TM case (`E_x`, `E_z`, `H_y`) is zero.  By
the description of the inputs (iterator.h lines 203-219) the eight slots hold
`Ey, Ez, Hy, Hz, Ey, Ez, Hy, Hz` in `Isource`, `Ex, Ez, Hx, Hz, Ex, Ez, Hx, Hz` in `Jsource`
and `Ex, Ey, Hx, Hy, Ex, Ey, Hx, Hy` in `Ksource`. -/
def SourceParams.TMslotsZero (sp : SourceParams R) : Prop :=
  (sp.Isource.slotZero 1 ∧ sp.Isource.slotZero 2 ∧ sp.Isource.slotZero 5
    ∧ sp.Isource.slotZero 6) ∧
  (sp.Jsource.slotZero 0 ∧ sp.Jsource.slotZero 1 ∧ sp.Jsource.slotZero 4
    ∧ sp.Jsource.slotZero 5) ∧
  (sp.Ksource.slotZero 0 ∧ sp.Ksource.slotZero 3 ∧ sp.Ksource.slotZero 4
    ∧ sp.Ksource.slotZero 7)

/-- Every source slot that holds a field of the TE case (`E_y`, `H_x`, `H_z`) is zero. -/
def SourceParams.TEslotsZero (sp : SourceParams R) : Prop :=
  (sp.Isource.slotZero 0 ∧ sp.Isource.slotZero 3 ∧ sp.Isource.slotZero 4
    ∧ sp.Isource.slotZero 7) ∧
  (sp.Jsource.slotZero 2 ∧ sp.Jsource.slotZero 3 ∧ sp.Jsource.slotZero 6
    ∧ sp.Jsource.slotZero 7) ∧
  (sp.Ksource.slotZero 1 ∧ sp.Ksource.slotZero 2 ∧ sp.Ksource.slotZero 5
    ∧ sp.Ksource.slotZero 6)

end Families
/-- A configuration with real coefficients: a `2 x 2 x 2` grid of background cells, every
coefficient equal to 1, no dispersion, no conductivity. -/
noncomputable def exParamsReal : SimParams ℝ where
  I_tot := 2
  J_tot := 2
  K_tot := 2
  Dxl := 0
  Dxu := 0
  Dzl := 0
  is_structure := false
  is_multilayer := false
  is_disp_ml := false
  interp_mat_props := false
  is_disp := false
  is_cond := false
  structure_1 := fun _ => 0
  materials := fun _ _ _ => 0
  C := ⟨⟨fun _ => 1, fun _ => 1, fun _ => 1⟩, ⟨fun _ => 1, fun _ => 1, fun _ => 1⟩,
    ⟨fun _ => 0, fun _ => 0, fun _ => 0⟩⟩
  Cmaterial := ⟨⟨fun _ => 1, fun _ => 1, fun _ => 1⟩, ⟨fun _ => 1, fun _ => 1, fun _ => 1⟩,
    ⟨fun _ => 0, fun _ => 0, fun _ => 0⟩⟩
  D := ⟨⟨fun _ => 1, fun _ => 1, fun _ => 1⟩, ⟨fun _ => 1, fun _ => 1, fun _ => 1⟩,
    ⟨fun _ => 0, fun _ => 0, fun _ => 0⟩⟩
  Dmaterial := ⟨⟨fun _ => 1, fun _ => 1, fun _ => 1⟩, ⟨fun _ => 1, fun _ => 1, fun _ => 1⟩,
    ⟨fun _ => 0, fun _ => 0, fun _ => 0⟩⟩
  rho_cond := ⟨fun _ => 0, fun _ => 0, fun _ => 0⟩
  ml := ⟨fun _ => 0, fun _ => 0, fun _ => 0, ⟨fun _ => 1, fun _ => 1, fun _ => 1⟩,
    ⟨fun _ => 0, fun _ => 0, fun _ => 0⟩⟩
  alpha := fun _ => 0
  beta := fun _ => 0
  gamma := fun _ => 0
  dx := 1
  dy := 1
  dz := 1
  dt := 1
  EPSILON0 := 1

/-- A steady-state source with real entries, all of them zero, and every face applied. -/
noncomputable def exSourceZero : SourceParams ℝ :=
  { dimension := .THREE, source_mode := .steadystate,
    I0 := ⟨0, true⟩, I1 := ⟨1, true⟩, J0 := ⟨0, true⟩, J1 := ⟨1, true⟩,
    K0 := ⟨0, true⟩, K1 := ⟨1, true⟩,
    Isource := ⟨fun _ _ _ => 0, fun _ _ _ => 0⟩, Jsource := ⟨fun _ _ _ => 0, fun _ _ _ => 0⟩,
    Ksource := ⟨fun _ _ _ => 0, fun _ _ _ => 0⟩,
    exi_present := false, eyi_present := false,
    Ei_x := fun _ _ _ => 0, Ei_y := fun _ _ _ => 0 }

/-- Envelope values that are 1 in every step. -/
noncomputable def exEnvReal : Int → Envelope ℝ × Envelope ℝ :=
  fun _ => (⟨1, 0, 1, 0, 1⟩, ⟨1, 0, 1, 0, 1⟩)

/-- A steady-state source for the two-dimensional configuration in which only face J1 is
applied and only slot 6 of `Jsource` (the TE slot `Hx` of face J1) is non-zero; the interface
box is `[0, 1] x [0, 0] x [0, 1]`. -/
def exSourceJ1 : SourceParams ℚ :=
  { dimension := .THREE, source_mode := .steadystate,
    I0 := ⟨0, false⟩, I1 := ⟨1, false⟩, J0 := ⟨0, false⟩, J1 := ⟨0, true⟩,
    K0 := ⟨0, false⟩, K1 := ⟨1, false⟩,
    Isource := exTensor 0 0, Jsource := exTensor 6 1, Ksource := exTensor 0 0,
    exi_present := false, eyi_present := false,
    Ei_x := fun _ _ _ => 0, Ei_y := fun _ _ _ => 0 }

/-- The envelope `exEnvelope` in every step. -/
def exEnvSeq : Int → Envelope ℚ × Envelope ℚ := fun _ => (exEnvelope, exEnvelope)

/-! ## The argument parser (argument_parser.cpp) -/

/-- The class `ArgumentNamespace`: the arguments after the program name, those of them that
are not flags, and the number of the latter. -/
structure ArgumentNamespace where
  arguments : List String
  non_flag_arguments : List String
  num_non_flag : Int
  deriving DecidableEq, Repr

/-- The method `is_a_flag_argument` (argument_parser.cpp lines 64-66): `arg[0] == '-'`.  For
an empty string `arg[0]` is the terminating null character. -/
def is_a_flag_argument (arg : String) : Bool :=
  arg.data.headD (Char.ofNat 0) == '-'

/-- The body of the loop of the constructor (lines 56-59). -/
def ArgumentNamespace.push (ns : ArgumentNamespace) (arg : String) : ArgumentNamespace :=
  if !is_a_flag_argument arg then
    { ns with non_flag_arguments := ns.non_flag_arguments ++ [arg],
              num_non_flag := ns.num_non_flag + 1 }
  else ns

/-- The constructor `ArgumentNamespace::ArgumentNamespace(n_args, arg_ptrs)` (lines 50-62),
named after its argument since the class has the name already; `argv` is the whole
argument vector `arg_ptrs[0 .. n_args - 1]`, the program name first.  Before the loop
`non_flag_arguments` is empty and `num_non_flag` is 0 (the members are declared in
argument_parser.h). -/
def ArgumentNamespace.of_arg_ptrs (argv : List String) : ArgumentNamespace :=
  (argv.drop 1).foldl ArgumentNamespace.push
    { arguments := argv.drop 1, non_flag_arguments := [], num_non_flag := 0 }

/-- The method `have_flag` (lines 68-75). -/
def ArgumentNamespace.have_flag (ns : ArgumentNamespace) (flag : String) : Bool :=
  ns.arguments.any (fun arg => arg == flag)

/-- The method `has_grid_filename` (lines 106-108). -/
def ArgumentNamespace.has_grid_filename (ns : ArgumentNamespace) : Bool :=
  ns.num_non_flag == 3

/-- The method `have_correct_number_of_filenames` (lines 122-124). -/
def ArgumentNamespace.have_correct_number_of_filenames (ns : ArgumentNamespace) : Bool :=
  ns.num_non_flag == 2 || ns.num_non_flag == 3

/-- The unchecked access `non_flag_arguments[n]`; outside the vector the behaviour is not
defined, which is kept apart from the exceptions the methods throw. -/
def ArgumentNamespace.non_flag_at (ns : ArgumentNamespace) (n : Nat) : Except String String :=
  match ns.non_flag_arguments.get? n with
  | some s => .ok s
  | none => .error "access outside non_flag_arguments"

/-- The method `output_filename` (lines 77-86); a thrown `runtime_error` is the error case. -/
def ArgumentNamespace.output_filename (ns : ArgumentNamespace) : Except String String :=
  if ns.has_grid_filename then ns.non_flag_at 2
  else if ns.num_non_flag == 2 then ns.non_flag_at 1
  else .error "Failed to determine the output file from arguments"

/-- The method `grid_filename` (lines 88-95). -/
def ArgumentNamespace.grid_filename (ns : ArgumentNamespace) : Except String String :=
  if ns.num_non_flag == 3 then ns.non_flag_at 1
  else .error "Failed to determine the grid file from arguments"

/-- The method `input_filename` (lines 97-104). -/
def ArgumentNamespace.input_filename (ns : ArgumentNamespace) : Except String String :=
  if ns.num_non_flag > 0 then ns.non_flag_at 0
  else .error "Failed to determine the input file from arguments"

/-- How a call of `parse_args` ends: the process exits with a code (after the help message
was printed or not), the namespace is returned, or an exception leaves the function. -/
inductive ParseOutcome where
  | exited (code : Int) (help_printed : Bool)
  | returned (args : ArgumentNamespace)
  | raised (what : String)
  deriving DecidableEq, Repr

/-- The calls of the accessors in the two `fprintf` statements of `parse_args` (lines
24-36): the error case is an exception thrown by one of them. -/
def ArgumentNamespace.print_filenames (args : ArgumentNamespace) : Except String Unit :=
  if !args.has_grid_filename then
    match args.input_filename, args.output_filename with
    | .ok _, .ok _ => .ok ()
    | .error e, _ => .error e
    | _, .error e => .error e
  else
    match args.input_filename, args.grid_filename, args.output_filename with
    | .ok _, .ok _, .ok _ => .ok ()
    | .error e, _, _ => .error e
    | _, .error e, _ => .error e
    | _, _, .error e => .error e

/-- The function `ArgumentParser::parse_args` (lines 9-39). -/
def parse_args (argv : List String) : ParseOutcome :=
  let args := ArgumentNamespace.of_arg_ptrs argv
  if args.have_flag "-h" then .exited 0 true
  else if !args.have_correct_number_of_filenames then .exited (-1) true
  else
    match args.print_filenames with
    | .ok _ => .returned args
    | .error e => .raised e

/-- The list `R` of the specification: the arguments after the program name whose first
character is not `-`, in order (an empty argument has no first character and is kept). -/
def spec_non_flag (args : List String) : List String :=
  args.filter (fun a => decide (a.data.head? ≠ some '-'))

/-- An argument vector with two flags around two file names. -/
def exArgv2 : List String := ["tdms", "-m", "in.mat", "-fd", "out.mat"]

/-- An argument vector with three file names and a flag at the end. -/
def exArgv3 : List String := ["tdms", "in.mat", "grid.mat", "out.mat", "-m"]

/-- An argument vector with one file name. -/
def exArgv1 : List String := ["tdms", "-m", "in.mat"]

/-! ## The tables of variable names (main.cpp, input_output_names.h) -/

/-- The macro `NMATRICES`: the number of input matrices. -/
def NMATRICES : Nat := 49

/-- The macro `NOUTMATRICES_WRITE`. -/
def NOUTMATRICES_WRITE : Nat := 23

/-- The macro `NOUTMATRICES_WRITE_ALL`. -/
def NOUTMATRICES_WRITE_ALL : Nat := 25

/-- The local `matrixnames_infile` of `main` (main.cpp lines 29-39). -/
def main.matrixnames_infile : List String :=
  ["Cmaterial", "Dmaterial", "C", "D", "freespace", "disp_params", "delta", "interface",
   "Isource", "Jsource", "Ksource", "grid_labels", "omega_an", "to_l", "hwhm", "Dxl", "Dxu",
   "Dyl", "Dyu", "Dzl", "Dzu", "Nt", "dt", "tind", "sourcemode", "runmode", "exphasorsvolume",
   "exphasorssurface", "intphasorssurface", "phasorsurface", "phasorinc", "dimension",
   "conductive_aux", "dispersive_aux", "structure", "f_ex_vec", "exdetintegral", "f_vec",
   "Pupil", "D_tilde", "k_det_obs_global", "air_interface", "intmatprops", "intmethod",
   "tdfield", "tdfdir", "fieldsample", "campssample"]

/-- The local `matrixnames_gridfile` of `main` (main.cpp line 41). -/
def main.matrixnames_gridfile : List String :=
  ["fdtdgrid"]

/-- The local `outputmatrices_all` of `main` (main.cpp lines 51-56). -/
def main.outputmatrices_all : List String :=
  ["Ex_out", "Ey_out", "Ez_out", "Hx_out", "Hy_out", "Hz_out", "x_out", "y_out", "z_out",
   "Ex_i", "Ey_i", "Ez_i", "Hx_i", "Hy_i", "Hz_i", "x_i", "y_i", "z_i", "vertices",
   "camplitudes", "facets", "maxresfield", "Id", "fieldsample", "campssample"]

/-- The local `outputmatrices` of `main` (main.cpp lines 57-62). -/
def main.outputmatrices : List String :=
  ["Ex_out", "Ey_out", "Ez_out", "Hx_out", "Hy_out", "Hz_out", "x_out", "y_out", "z_out",
   "Ex_i", "Ey_i", "Ez_i", "Hx_i", "Hy_i", "Hz_i", "x_i", "y_i", "z_i", "camplitudes",
   "maxresfield", "Id", "fieldsample", "campssample"]

/-- The local `matricestosave_all` of `main` (main.cpp line 63). -/
def main.matricestosave_all : List Int :=
  [0, 1, 2, 3, 4, 5, 10, 11, 12, 13, 14, 15, 16, 17, 18, 19, 20, 21, 22, 23, 24, 25, 26, 27, 28]

/-- The local `matricestosave` of `main` (main.cpp line 64). -/
def main.matricestosave : List Int :=
  [0, 1, 2, 3, 4, 5, 10, 11, 12, 13, 14, 15, 16, 17, 18, 19, 20, 21, 23, 25, 26, 27, 28]

/-- The constant `tdms_matrix_names::matrixnames_infile` (input_output_names.h lines 22-69). -/
def tdms_matrix_names.matrixnames_infile : List String :=
  ["Cmaterial", "Dmaterial", "C", "D", "freespace", "disp_params", "delta", "interface",
   "Isource", "Jsource", "Ksource", "grid_labels", "omega_an", "to_l", "hwhm", "Dxl", "Dxu",
   "Dyl", "Dyu", "Dzl", "Dzu", "Nt", "dt", "tind", "sourcemode", "runmode", "exphasorsvolume",
   "exphasorssurface", "intphasorssurface", "phasorsurface", "phasorinc", "dimension",
   "conductive_aux", "dispersive_aux", "structure", "f_ex_vec", "exdetintegral", "f_vec",
   "Pupil", "D_tilde", "k_det_obs_global", "air_interface", "intmatprops", "intmethod",
   "tdfield", "tdfdir", "fieldsample", "campssample"]

/-- The constant `tdms_matrix_names::matrixnames_input_with_grid` (input_output_names.h
lines 71-119). -/
def tdms_matrix_names.matrixnames_input_with_grid : List String :=
  ["fdtdgrid", "Cmaterial", "Dmaterial", "C", "D", "freespace", "disp_params", "delta",
   "interface", "Isource", "Jsource", "Ksource", "grid_labels", "omega_an", "to_l", "hwhm",
   "Dxl", "Dxu", "Dyl", "Dyu", "Dzl", "Dzu", "Nt", "dt", "tind", "sourcemode", "runmode",
   "exphasorsvolume", "exphasorssurface", "intphasorssurface", "phasorsurface", "phasorinc",
   "dimension", "conductive_aux", "dispersive_aux", "structure", "f_ex_vec", "exdetintegral",
   "f_vec", "Pupil", "D_tilde", "k_det_obs_global", "air_interface", "intmatprops",
   "intmethod", "tdfield", "tdfdir", "fieldsample", "campssample"]

/-- The constant `tdms_matrix_names::matrixnames_gridfile` (input_output_names.h line 121). -/
def tdms_matrix_names.matrixnames_gridfile : List String :=
  ["fdtdgrid"]

/-- The constant `tdms_matrix_names::outputmatrices_all` (input_output_names.h lines
123-128). -/
def tdms_matrix_names.outputmatrices_all : List String :=
  ["Ex_out", "Ey_out", "Ez_out", "Hx_out", "Hy_out", "Hz_out", "x_out", "y_out", "z_out",
   "Ex_i", "Ey_i", "Ez_i", "Hx_i", "Hy_i", "Hz_i", "x_i", "y_i", "z_i", "vertices",
   "camplitudes", "facets", "maxresfield", "Id", "fieldsample", "campssample"]

/-- The constant `tdms_matrix_names::outputmatrices` (input_output_names.h lines 130-134). -/
def tdms_matrix_names.outputmatrices : List String :=
  ["Ex_out", "Ey_out", "Ez_out", "Hx_out", "Hy_out", "Hz_out", "x_out", "y_out", "z_out",
   "Ex_i", "Ey_i", "Ez_i", "Hx_i", "Hy_i", "Hz_i", "x_i", "y_i", "z_i", "camplitudes",
   "maxresfield", "Id", "fieldsample", "campssample"]

/-- The constant `tdms_matrix_names::matricestosave_all` (input_output_names.h lines
136-142). -/
def tdms_matrix_names.matricestosave_all : List Int :=
  [0, 1, 2, 3, 4, 5, 10, 11, 12, 13, 14, 15, 16, 17, 18, 19, 20, 21, 22, 23, 24, 25, 26, 27, 28]

/-- The constant `tdms_matrix_names::matricestosave` (input_output_names.h lines
144-150). -/
def tdms_matrix_names.matricestosave : List Int :=
  [0, 1, 2, 3, 4, 5, 10, 11, 12, 13, 14, 15, 16, 17, 18, 19, 20, 21, 23, 25, 26, 27, 28]

/-- The local `matrixnames_input_and_grid` of `main` (main.cpp lines 44-49): a copy of
`matrixnames_infile` with the elements of `matrixnames_gridfile` inserted at its end. -/
def main.matrixnames_input_and_grid : List String :=
  main.matrixnames_infile ++ main.matrixnames_gridfile

/-- The function `saveoutput` (openandorder.cpp lines 20-39), as far as the content of the
file goes: for `i = 0, ..., nmatrices - 1` the variable `matrixnames[i]` is written with the
array `plhs[matricestosave[i]]`; the result lists the pairs of name and index into `plhs`. -/
def saveoutput (matricestosave : List Int) (matrixnames : List String) (nmatrices : Nat) :
    List (String × Int) :=
  (List.range nmatrices).map (fun i => (matrixnames.getD i "", matricestosave.getD i 0))

/-- The call of `saveoutput` in `main` (main.cpp lines 98-104); `m` is the value of
`args.have_flag("-m")`. -/
def main.saved (m : Bool) : List (String × Int) :=
  if !m then saveoutput main.matricestosave_all main.outputmatrices_all NOUTMATRICES_WRITE_ALL
  else saveoutput main.matricestosave main.outputmatrices NOUTMATRICES_WRITE

/-- The same call with the tables of input_output_names.h. -/
def tdms_matrix_names.saved (m : Bool) : List (String × Int) :=
  if !m then
    saveoutput tdms_matrix_names.matricestosave_all tdms_matrix_names.outputmatrices_all
      NOUTMATRICES_WRITE_ALL
  else
    saveoutput tdms_matrix_names.matricestosave tdms_matrix_names.outputmatrices
      NOUTMATRICES_WRITE

/-! ## The reading of the inputs in `execute_simulation` (iterator.cpp lines 291-520) -/

/-- What the reading of the inputs depends on, as far as the accesses to `prhs` go: the
value of the tests that guard an access or a step of `input_counter`. -/
structure InputShape where
  /-- The test `params.exphasorssurface && params.run_mode == RunMode::complete` (line 420). -/
  phasorsurface_used : Bool
  /-- The test `!mxIsEmpty(prhs[input_counter])` of line 448. -/
  exdetintegral_given : Bool
  /-- The test `params.exdetintegral` of line 457. -/
  exdetintegral : Bool
  /-- The test `!mxIsEmpty(prhs[input_counter])` of line 462. -/
  k_det_obs_given : Bool
  /-- The test `!mxIsEmpty(prhs[input_counter])` of line 474. -/
  air_interface_given : Bool
  /-- The test `!mxIsEmpty(prhs[input_counter])` of line 484. -/
  intmethod_given : Bool
  /-- The test `mxIsChar(prhs[input_counter])` of line 499. -/
  tdfdir_is_char : Bool
  deriving DecidableEq, Repr

/-- The variable `input_counter` and the record of which quantity was read from which
position of `prhs`. -/
structure InputReader where
  input_counter : Int
  reads : List (String × Int)
  deriving DecidableEq, Repr

/-- The quantity `what` is read from `prhs[input_counter]`. -/
def InputReader.read (what : String) (s : InputReader) : InputReader :=
  { s with reads := s.reads ++ [(what, s.input_counter)] }

/-- The statement `input_counter++`, or `input_counter += n`. -/
def InputReader.advance (n : Int) (s : InputReader) : InputReader :=
  { s with input_counter := s.input_counter + n }

/-- The quantity `what` is read from `prhs[input_counter++]`. -/
def InputReader.read_next (what : String) (s : InputReader) : InputReader :=
  (s.read what).advance 1

/-- The reading of the inputs up to `tdfield` (iterator.cpp lines 291-493): the state before
the comment `Get tdfdir`.  Each quantity has the name of the variable, message or comment
of the source (`phasorinc`, the argument of `set_spacing_stride`, that of main.cpp). -/
def inputs_before_tdfdir (sh : InputShape) : InputReader :=
  let s : InputReader := { input_counter := 0, reads := [] }
  let s := (s.read "fdtdgrid").advance 1
  let s := (s.read "Cmaterials").advance 1
  let s := (s.read "Dmaterials").advance 1
  let s := (s.read "C").advance 1
  let s := (s.read "D").advance 1
  let s := (s.read "freespace").advance 1
  let s := (s.read "disp_params").advance 1
  let s := (s.read "delta").advance 1
  let s := (s.read "interface").advance 1
  let s := s.read_next "Isource"
  let s := s.read_next "Jsource"
  let s := s.read_next "Ksource"
  let s := (s.read "grid_labels").advance 1
  let s := s.read_next "omega_an"
  let s := s.read_next "to_l"
  let s := s.read_next "hwhm"
  let s := s.read_next "Dxl"
  let s := s.read_next "Dxu"
  let s := s.read_next "Dyl"
  let s := s.read_next "Dyu"
  let s := s.read_next "Dzl"
  let s := s.read_next "Dzu"
  let s := s.read_next "Nt"
  let s := s.read_next "dt"
  let s := s.read_next "tind"
  let s := s.read_next "sourcemode"
  let s := s.read_next "runmode"
  let s := s.read_next "exphasorsvolume"
  let s := s.read_next "exphasorssurface"
  let s := s.read_next "intphasorssurface"
  let s := if sh.phasorsurface_used then s.read "phasorsurface" else s
  let s := s.advance 1
  let s := s.read_next "phasorinc"
  let s := s.read_next "dimension"
  let s := (s.read "conductive_aux").advance 1
  let s := s.read_next "dispersive_aux"
  let s := s.read_next "structure"
  let s := s.read_next "f_ex_vec"
  let s := if sh.exdetintegral_given then s.read "exdetintegral" else s
  let s := s.advance 1
  let s :=
    if sh.exdetintegral then
      let s := s.read_next "f_vec"
      let s := s.read_next "pupil"
      let s := s.read_next "D_tilde"
      let s := if sh.k_det_obs_given then s.read "k_det_obs" else s
      s.advance 1
    else s.advance 4
  let s := if sh.air_interface_given then s.read "air_interface" else s
  let s := s.advance 1
  let s := s.read_next "intmatprops"
  let s := if sh.intmethod_given then s.read "intmethod" else s
  let s := s.advance 1
  s.read_next "tdfield"

/-- The handling of `tdfdir` (lines 495-517): the step of `input_counter` stands inside the
block of `if (mxIsChar(prhs[input_counter]))`. -/
def input_tdfdir (sh : InputShape) (s : InputReader) : InputReader :=
  if sh.tdfdir_is_char then (s.read "tdfdir").advance 1 else s

/-- The reading of the inputs (lines 291-520), to the end. -/
def read_inputs (sh : InputShape) : InputReader :=
  let s := input_tdfdir sh (inputs_before_tdfdir sh)
  let s := s.read_next "fieldsample"
  s.read_next "campssample"

/-- Inputs in which every optional entry is given and `tdfdir` is a character array. -/
def exShapeChar : InputShape :=
  { phasorsurface_used := true, exdetintegral_given := true, exdetintegral := true,
    k_det_obs_given := true, air_interface_given := true, intmethod_given := true,
    tdfdir_is_char := true }

/-- The same inputs with a `tdfdir` that is not a character array (an empty matrix). -/
def exShapeNoDir : InputShape := { exShapeChar with tdfdir_is_char := false }

/-! ## The export of time-domain snapshots (td_field_exporter_2d.cpp, iterator.cpp) -/

/-- The values of `SolverMethod`. -/
inductive SolverMethod where
  | PseudoSpectral | FiniteDifference
  deriving DecidableEq, Repr

/-- The variable `skip_tdf` (iterator.cpp lines 296-297). -/
def skip_tdf (solver_method : SolverMethod) : Int :=
  if solver_method = .FiniteDifference then 6 else 1

/-- The loops that count `Nk_tdf` and `Ni_tdf` (iterator.cpp lines 503-507), for instance
`for (k = 0; k < K_tot; k++) if ((k % skip_tdf) == 0) Nk_tdf++;` with `Nk_tdf` starting at
0 (line 294). -/
def count_tdf (skip n : Int) : Int :=
  forRange 0 n (fun k c => if k % skip = 0 then c + 1 else c) 0

/-- The sizes `nI`, `nK` kept by a `TDFieldExporter2D`. -/
structure TDFieldExporter2D where
  nI : Int
  nK : Int
  deriving DecidableEq, Repr

/-- The method `TDFieldExporter2D::allocate` (td_field_exporter_2d.cpp lines 7-14), as far as
the sizes go. -/
def TDFieldExporter2D.allocate (_nI _nK : Int) : TDFieldExporter2D :=
  { nI := _nI, nK := _nK }

/-- The method `TDFieldExporter2D::export_field` (lines 19-43), as far as its exception
goes: `F_I_tot`, `F_K_tot` are `F.I_tot`, `F.K_tot`; the error case is the `runtime_error` of
line 23 (whose message goes on with the four sizes), the other case the filling and writing
of the array. -/
def TDFieldExporter2D.export_field (ex : TDFieldExporter2D) (F_I_tot F_K_tot : Int) :
    Except String Unit :=
  if ex.nI < F_I_tot || ex.nK < F_K_tot then .error "Not enough memory to write this field!"
  else .ok ()

/-- The exporter that `execute_simulation` allocates when `tdfdir` names a directory
(iterator.cpp lines 499-513). -/
def ex_td_field_exporter (solver_method : SolverMethod) (I_tot K_tot : Int) :
    TDFieldExporter2D :=
  TDFieldExporter2D.allocate (count_tdf (skip_tdf solver_method) I_tot)
    (count_tdf (skip_tdf solver_method) K_tot)

/-- The call `ex_td_field_exporter.export_field(E_s, skip_tdf, tind)` of the main loop
(iterator.cpp line 4451); `E_s.I_tot` and `E_s.K_tot` are `I_tot` and `K_tot` (line 323). -/
def export_snapshot (solver_method : SolverMethod) (I_tot K_tot : Int) : Except String Unit :=
  (ex_td_field_exporter solver_method I_tot K_tot).export_field I_tot K_tot

/-! ## Interpolation of the E field to the centre of a Yee cell (interpolate_Efield.cpp)

The class `interpScheme` is declared in interpolation_methods.h; what a function below gets
from it stands among its arguments: `scheme`, the value of `scheme_to_use.get_scheme()` as
it enters the index arithmetic, `is_BL`, the value of
`scheme_to_use.is_better_than(CUBIC_INTERP_MIDDLE)`, and `interpolate`, the method
`scheme_to_use.interpolate` as a function of the content of the array handed to it.  The
local array `interp_data` is not initialised: `init` is what it holds at first. -/

section InterpolateE

variable {R : Type} [Add R]

/-- The local array `double interp_data[8]`, as a function of the index, with the record of
the indices that were assigned to, in order. -/
structure InterpData (R : Type) where
  data : Int → R
  writes : List Int

/-- The assignment `interp_data[n] = v`. -/
def InterpData.write (d : InterpData R) (n : Int) (v : R) : InterpData R :=
  { data := Function.update d.data n v, writes := d.writes ++ [n] }

/-- The loop `for (int ind = 0; ind < n; ind++) interp_data[slot] = sample(ind);`, the form
of the six loops of interpolate_Efield.cpp (`slot` is the expression between the brackets
of `interp_data`). -/
def fill_interp_data (n : Int) (slot : Int) (sample : Int → R) (d : InterpData R) :
    InterpData R :=
  forRange 0 n (fun ind d => d.write slot (sample ind)) d

/-- The function `interpolateTimeDomainEx` (interpolate_Efield.cpp lines 12-39): the array
`interp_data` at the call of `interpolate`, and the value stored in `*Ex`.  Both loops
assign to `interp_data[i]`. -/
def interpolateTimeDomainEx (Exy Exz : Int → Int → Int → R) (i j k : Int) (scheme : Int)
    (is_BL : Bool) (interpolate : (Int → R) → R) (init : Int → R) : InterpData R × R :=
  let interp_data : InterpData R := { data := init, writes := [] }
  let interp_data :=
    if is_BL then
      fill_interp_data 8 i
        (fun ind => Exy k j (i - (scheme + 1) + ind) + Exz k j (i - (scheme + 1) + ind))
        interp_data
    else
      fill_interp_data 4 i
        (fun ind => Exy k j (i - (scheme - 6) + ind) + Exz k j (i - (scheme - 6) + ind))
        interp_data
  (interp_data, interpolate interp_data.data)

/-- The function `interpolateTimeDomainEy` (lines 49-80).  Both loops assign to
`interp_data[i]`. -/
def interpolateTimeDomainEy (Eyx Eyz : Int → Int → Int → R) (i j k : Int) (scheme : Int)
    (is_BL : Bool) (interpolate : (Int → R) → R) (init : Int → R) : InterpData R × R :=
  let interp_data : InterpData R := { data := init, writes := [] }
  let interp_data :=
    if is_BL then
      fill_interp_data 8 i
        (fun ind => Eyx k (j - (scheme + 1) + ind) i + Eyz k (j - (scheme + 1) + ind) i)
        interp_data
    else
      fill_interp_data 4 i
        (fun ind => Eyx k (j - (scheme - 6) + ind) i + Eyz k (j - (scheme - 6) + ind) i)
        interp_data
  (interp_data, interpolate interp_data.data)

/-- The function `interpolateTimeDomainEz` (lines 90-117).  Both loops assign to
`interp_data[i]`. -/
def interpolateTimeDomainEz (Ezx Ezy : Int → Int → Int → R) (i j k : Int) (scheme : Int)
    (is_BL : Bool) (interpolate : (Int → R) → R) (init : Int → R) : InterpData R × R :=
  let interp_data : InterpData R := { data := init, writes := [] }
  let interp_data :=
    if is_BL then
      fill_interp_data 8 i
        (fun ind => Ezx (k - (scheme + 1) + ind) j i + Ezy (k - (scheme + 1) + ind) j i)
        interp_data
    else
      fill_interp_data 4 i
        (fun ind => Ezx (k - (scheme - 6) + ind) j i + Ezy (k - (scheme - 6) + ind) j i)
        interp_data
  (interp_data, interpolate interp_data.data)

/-- The content of the buffer that the comments of the source describe: slot `ind` holds
the sum of the two split components at cell `first + ind` of the line, for `ind` from 0 to
`n - 1`. -/
def spec_stencil (line1 line2 : Int → R) (first : Int) (ind : Int) : R :=
  line1 (first + ind) + line2 (first + ind)

end InterpolateE

/-- A split component that holds the cell index `i` at `[k][j][i]`. -/
def exLineX : Int → Int → Int → ℚ := fun _ _ i => i

/-- A stand-in for `interpolate`: the sum of the eight slots of the array. -/
def exInterpolate : (Int → ℚ) → ℚ := fun d => d 0 + d 1 + d 2 + d 3 + d 4 + d 5 + d 6 + d 7

/-- A configuration with a grating structure in which the x PML is absent and the z PML is
two cells thick at both ends (`Dzu = 2` is not read by the kernels): `K_tot = 10`, structure
offset `-2` at `i = 0` and `2` at every other `i`. -/
def exParamsGrating : SimParams ℚ :=
  { exParams with
    K_tot := 10, Dxl := 0, Dxu := 0, Dzl := 2, is_structure := true,
    structure_1 := fun i => if i = 0 then -2 else 2 }

/-- Between the grids `g` and `g2` the array `J` (`Grid.J_s` or `Grid.J_c`) has changed at
the cell `[k][j][i]` of component `c` by `factor` times the change of `E_s` at that cell. -/
def CurrentFollows {R : Type} [LinearOrderedField R] (J : Grid R → SplitField R)
    (g g2 : Grid R) (c : Comp) (k j i : Int) (factor : R) : Prop :=
  J g2 c k j i - J g c k j i = factor * (g2.E_s c k j i - g.E_s c k j i)

/-- A steady-state source in which only face I0 is applied and only slot 2 of `Isource` is
non-zero; the interface box is `[1, 2] x [1, 2] x [1, 2]`. -/
def exSourceI0 : SourceParams ℚ :=
  { dimension := .THREE, source_mode := .steadystate,
    I0 := ⟨1, true⟩, I1 := ⟨2, false⟩, J0 := ⟨1, false⟩, J1 := ⟨2, false⟩,
    K0 := ⟨1, false⟩, K1 := ⟨2, false⟩,
    Isource := exTensor 2 1, Jsource := exTensor 0 0, Ksource := exTensor 0 0,
    exi_present := false, eyi_present := false,
    Ei_x := fun _ _ _ => 0, Ei_y := fun _ _ _ => 0 }

/-! # Part II: theorems -/

section KernelProofs

variable {R : Type} [LinearOrderedField R]

omit [LinearOrderedField R] in
theorem SplitField.set_same (F : SplitField R) (c : Comp) (k j i : Int) (v : R) :
    F.set c k j i v c k j i = v := by
  simp [SplitField.set]

theorem FDTD_E_cell_update_aux (p : SimParams R) (v : EKernel) (k j i : Int) (g : Grid R) :
    let q := v.cellCoeffs p k j i
    let c := v.comp
    let g' := FDTD_E p v k j i g
    let E_old := g.E_s c k j i
    let E_new := q.Ca * E_old + q.Cb * v.dH g k j i
      + (if dispActive p q then
          q.Cc * g.E_nm1 c k j i
            - q.Cb * v.delta p / 2 * ((1 + q.alpha_l) * g.J_s c k j i + q.beta_l * g.J_nm1 c k j i)
         else 0)
      + (if condActive p q then q.Cb * v.delta p * g.J_c c k j i else 0)
    g'.E_s c k j i = E_new ∧
    (dispActive p q = true →
      g'.J_s c k j i = q.alpha_l * g.J_s c k j i + q.beta_l * g.J_nm1 c k j i
          + q.kappa_l * q.gamma_l / (2 * p.dt) * (E_new - g.E_nm1 c k j i)
          + q.sigma_l * q.gamma_l / p.EPSILON0 * E_old
        ∧ g'.E_nm1 c k j i = E_old ∧ g'.J_nm1 c k j i = g.J_s c k j i) ∧
    (condActive p q = true → g'.J_c c k j i = g.J_c c k j i - q.rho * (E_new + E_old)) ∧
    (dispActive p q = false →
      g'.J_s = g.J_s ∧ g'.E_nm1 = g.E_nm1 ∧ g'.J_nm1 = g.J_nm1) ∧
    (condActive p q = false → g'.J_c = g.J_c) ∧
    (dispActive p q = false → condActive p q = false →
      E_new = q.Ca * E_old + q.Cb * v.dH g k j i) ∧
    g'.H_s = g.H_s := by
  intro q c g' E_old E_new
  have hE : Enp1_FD p q (v.delta p) (v.dH g k j i) c k j i g = E_new := by
    cases hd : dispActive p q <;> cases hc : condActive p q <;>
      simp only [Enp1_FD, E_new, E_old, hd, hc, if_true, if_false, Bool.false_eq_true] <;> ring
  have hg' : g' = updateCell_FD p q (v.delta p) (v.dH g k j i) c k j i g := rfl
  simp only [updateCell_FD, hE] at hg'
  refine ⟨?_, ?_, ?_, ?_, ?_, ?_, ?_⟩
  · rw [hg']; exact SplitField.set_same _ _ _ _ _ _
  · intro hd
    rw [hg']
    cases hc : condActive p q <;>
      simp only [updateAux, hd, hc, if_true, if_false, Bool.false_eq_true, SplitField.set_same,
        E_old] <;>
      exact ⟨by ring, trivial, trivial⟩
  · intro hc
    rw [hg']
    cases hd : dispActive p q <;>
      simp only [updateAux, hd, hc, if_true, if_false, Bool.false_eq_true, SplitField.set_same,
        E_old]
  · intro hd
    rw [hg']
    cases hc : condActive p q <;>
      simp only [updateAux, hd, hc, if_true, if_false, Bool.false_eq_true, and_self]
  · intro hc
    rw [hg']
    cases hd : dispActive p q <;>
      simp only [updateAux, hd, hc, if_true, if_false, Bool.false_eq_true]
  · intro hd hc
    simp only [E_new, hd, hc, if_false, Bool.false_eq_true, add_zero]
  · rw [hg']
    cases hd : dispActive p q <;> cases hc : condActive p q <;>
      simp only [updateAux, hd, hc, if_true, if_false, Bool.false_eq_true]

/-- C1: in each of the eight finite-difference E kernels, with `q` the parameters the kernel
has chosen for the cell, `E_old` the split field before and `E_new` after the step,
`E_new = Ca*E_old + Cb*dH [+ Cc*E_nm1 - Cb*delta/2*((1+alpha)*J + beta*J_nm1)] [+ Cb*delta*J_c]`
(the bracketed terms present when the dispersion, respectively conductivity, branch is
active, with the old `J`, `J_nm1`, `E_nm1`, `J_c`); an active dispersion branch stores
`J_new = alpha*J + beta*J_nm1 + kappa*gamma/(2*dt)*(E_new - E_nm1) + sigma*gamma/eps0*E_old`
computed from the old `J`, `J_nm1`, `E_nm1`, and then `E_nm1 = E_old`, `J_nm1 = old J`;
an active conductivity branch stores `J_c = old J_c - rho*(E_new + E_old)`; and with neither
branch active `E_new = Ca*E_old + Cb*dH` and no auxiliary array changes. -/
theorem C1_FDTD_E_cell_update (p : SimParams R) (v : EKernel) (k j i : Int) (g g' : Grid R)
    (q : CellCoeffs R) (E_old E_new : R)
    (hq : q = v.cellCoeffs p k j i) (hg : g' = FDTD_E p v k j i g)
    (hold : E_old = g.E_s v.comp k j i) (hnew : E_new = g'.E_s v.comp k j i) :
    E_new = q.Ca * E_old + q.Cb * v.dH g k j i
      + (if dispActive p q then
          q.Cc * g.E_nm1 v.comp k j i
            - q.Cb * v.delta p / 2 *
              ((1 + q.alpha_l) * g.J_s v.comp k j i + q.beta_l * g.J_nm1 v.comp k j i)
         else 0)
      + (if condActive p q then q.Cb * v.delta p * g.J_c v.comp k j i else 0) ∧
    (dispActive p q = true →
      g'.J_s v.comp k j i = q.alpha_l * g.J_s v.comp k j i + q.beta_l * g.J_nm1 v.comp k j i
          + q.kappa_l * q.gamma_l / (2 * p.dt) * (E_new - g.E_nm1 v.comp k j i)
          + q.sigma_l * q.gamma_l / p.EPSILON0 * E_old
        ∧ g'.E_nm1 v.comp k j i = E_old ∧ g'.J_nm1 v.comp k j i = g.J_s v.comp k j i) ∧
    (condActive p q = true →
      g'.J_c v.comp k j i = g.J_c v.comp k j i - q.rho * (E_new + E_old)) ∧
    (dispActive p q = false →
      g'.J_s = g.J_s ∧ g'.E_nm1 = g.E_nm1 ∧ g'.J_nm1 = g.J_nm1) ∧
    (condActive p q = false → g'.J_c = g.J_c) ∧
    (dispActive p q = false → condActive p q = false →
      E_new = q.Ca * E_old + q.Cb * v.dH g k j i) ∧
    g'.H_s = g.H_s := by
  subst hq hg hold hnew
  obtain ⟨h1, h2, h3, h4, h5, h6, h7⟩ := FDTD_E_cell_update_aux p v k j i g
  refine ⟨h1, fun hd => ?_, fun hc => ?_, h4, h5, fun hd hc => ?_, h7⟩
  · rw [h1]; exact h2 hd
  · rw [h1]; exact h3 hc
  · rw [h1]; exact h6 hd hc

end KernelProofs

theorem exCoeffs_xy : EKernel.xy.cellCoeffs exParams 0 1 2 = ⟨1, 2, 3, 2, 1, 2, 4, 1, 3⟩ := by
  simp [EKernel.cellCoeffs, cellCoeffs3D, selectDisp, selectCoeffs, exParams, EKernel.neighbour,
    EKernel.axis, EKernel.index, array_ind_y, constXYZ]

/-- C1 evaluated at a background cell of `exParams` in which both the dispersion and the
conductivity branch are active (kernel `E_s.xy`, cell `[0][1][2]`). -/
theorem C1_FDTD_E_cell_update_witness :
    (FDTD_E exParams .xy 0 1 2 exGrid).E_s .xy 0 1 2 = 16 ∧
    (FDTD_E exParams .xy 0 1 2 exGrid).J_s .xy 0 1 2 = 146 ∧
    (FDTD_E exParams .xy 0 1 2 exGrid).J_c .xy 0 1 2 = -47 ∧
    (FDTD_E exParams .xy 0 1 2 exGrid).E_nm1 .xy 0 1 2 = 9 ∧
    (FDTD_E exParams .xy 0 1 2 exGrid).J_nm1 .xy 0 1 2 = 2 := by
  have hd : dispActive exParams (EKernel.xy.cellCoeffs exParams 0 1 2) = true := by decide
  have hc : condActive exParams (EKernel.xy.cellCoeffs exParams 0 1 2) = true := by decide
  obtain ⟨hE, hJ, hC, -⟩ := C1_FDTD_E_cell_update exParams .xy 0 1 2 exGrid _ _ _ _ rfl rfl rfl rfl
  obtain ⟨hJ, hEn, hJn⟩ := hJ hd
  have hC := hC hc
  rw [hE] at hJ hC
  simp only [hd, hc, if_true] at hE hJ hC
  simp only [exCoeffs_xy] at hE hJ hC
  refine ⟨hE.trans ?_, hJ.trans ?_, hC.trans ?_, hEn.trans ?_, hJn.trans ?_⟩ <;>
    norm_num [exParams, exGrid, EKernel.dH, EKernel.delta, EKernel.comp]


section CoeffProofs

variable {R : Type} [LinearOrderedField R]

theorem half_add_self (x : R) : (x + x) / 2 = x := by ring

theorem selectCoeffs_eq_spec (p : SimParams R) (ax : XYZVectors R → Int → R) (ind : Int)
    (m0 m1 : Nat) : (selectCoeffs p ax ind m0 m1).1 = spec_triple p ax ind m0 m1 := by
  unfold selectCoeffs spec_triple spec_base
  by_cases h0 : m0 = 0 <;> by_cases h1 : m1 = 0
  · subst h0; subst h1; simp
  · subst h0
    have h01 : (0 : Nat) ≠ m1 := fun h => h1 h.symm
    cases hi : p.interp_mat_props <;> simp [h1, h01]
  · subst h1
    cases hi : p.interp_mat_props <;> cases hd : p.is_disp_ml <;> simp [h0]
  · by_cases h : m0 = m1
    · subst h
      cases hi : p.interp_mat_props <;> simp [h0, half_add_self]
    · cases hi : p.interp_mat_props <;> simp [h0, h1, h]

end CoeffProofs

section CoeffProofs2

variable {R : Type} [LinearOrderedField R]

/-- C2 (as amended): in the six kernels of the 3D/TE branch the triple `(Ca, Cb, Cc)` used at
a cell is the one of the three selection rules, `base(m0)` or, when the interpolation flag is
set and `m0 ≠ m1`, the mean of `base(m0)` and `base(m1)`; in the two kernels of the TM branch
it is `base(m0)` whatever the flag and the neighbour are. -/
theorem C2_coefficient_selection (p : SimParams R) (v : EKernel) (k j i : Int) :
    (⟨(v.cellCoeffs p k j i).Ca, (v.cellCoeffs p k j i).Cb, (v.cellCoeffs p k j i).Cc⟩ :
        Triple R) =
      if v = .zxTM ∨ v = .zyTM then
        spec_base p v.axis (v.index p k j i) (p.materials k j i)
      else
        spec_triple p v.axis (v.index p k j i) (p.materials k j i) (v.neighbour p k j i) := by
  cases v
  case zxTM =>
    simp only [EKernel.cellCoeffs, cellCoeffs_zxTM, spec_base, EKernel.axis, EKernel.index,
      or_true, true_or, if_true]
    split_ifs <;> rfl
  case zyTM =>
    simp only [EKernel.cellCoeffs, cellCoeffs_zyTM, spec_base, EKernel.axis, EKernel.index,
      or_true, true_or, if_true]
    split_ifs <;> rfl
  all_goals
    simp only [reduceCtorEq, or_self, if_false]
    rw [← selectCoeffs_eq_spec]
    rfl

end CoeffProofs2

/-- C2 as stated fails in the TM branch: at cell `[0][0][1]` of `exParamsTM` the interpolation
flag is set, the cell is background (`m0 = 0`) and its z-neighbour is material 1, yet the
`E_s.zx` kernel of the TM branch uses the background triple `(1, 2, 3)` and not the mean
`(3, 4, 5)` of the two triples. -/
theorem C2_counterexample :
    exParamsTM.interp_mat_props = true ∧ exParamsTM.materials 0 0 1 = 0 ∧
    EKernel.zxTM.neighbour exParamsTM 0 0 1 = 1 ∧
    ((EKernel.zxTM.cellCoeffs exParamsTM 0 0 1).Ca = 1 ∧
      (EKernel.zxTM.cellCoeffs exParamsTM 0 0 1).Cb = 2 ∧
      (EKernel.zxTM.cellCoeffs exParamsTM 0 0 1).Cc = 3) ∧
    spec_triple exParamsTM EKernel.zxTM.axis (EKernel.zxTM.index exParamsTM 0 0 1) 0 1
      = ⟨3, 4, 5⟩ := by
  refine ⟨rfl, by decide, by decide, ⟨?_, ?_, ?_⟩, ?_⟩
  · simp [EKernel.cellCoeffs, cellCoeffs_zxTM, exParamsTM, exParams, constXYZ]
  · simp [EKernel.cellCoeffs, cellCoeffs_zxTM, exParamsTM, exParams, constXYZ]
  · simp [EKernel.cellCoeffs, cellCoeffs_zxTM, exParamsTM, exParams, constXYZ]
  · simp [spec_triple, spec_base, exParamsTM, exParams, constXYZ, EKernel.axis]
    norm_num


section DerivProofs

variable {R : Type} [LinearOrderedField R]

/-- C4 (as amended): in the finite-difference variant every E-update uses, up to the sign
of the kernel, the backward difference `line[n] - line[n-1]` of the physical H field along the
differentiation axis, and every H-update the forward difference `line[n+1] - line[n]` of the
physical E field (`n` the position of the cell along that axis); the sign is `+` for `E_s.xy`,
`E_s.yz`, `E_s.zx`, `H_s.xz`, `H_s.yx`, `H_s.zy` and `-` for the other six.  The H value
stored is `Da*H + Db*` that difference. -/
theorem C4_FD_derivative (p : SimParams R) (g : Grid R) (k j i : Int) :
    (∀ v : EKernel, v.dH g k j i =
      v.sign * (v.line g k j i (v.pos k j i) - v.line g k j i (v.pos k j i - 1))) ∧
    (∀ w : HKernel, w.dE g k j i =
      w.sign * (w.line g k j i (w.pos k j i + 1) - w.line g k j i (w.pos k j i))) ∧
    (∀ w : HKernel, (FDTD_H p w k j i g).H_s w.comp k j i =
      (if p.materials k j i = 0 then w.axis p.D.a (w.index p k j i)
        else w.axis p.Dmaterial.a ((p.materials k j i : Int) - 1)) * g.H_s w.comp k j i +
      (if p.materials k j i = 0 then w.axis p.D.b (w.index p k j i)
        else w.axis p.Dmaterial.b ((p.materials k j i : Int) - 1)) *
        (w.sign * (w.line g k j i (w.pos k j i + 1) - w.line g k j i (w.pos k j i)))) := by
  have hE : ∀ v : EKernel, v.dH g k j i =
      v.sign * (v.line g k j i (v.pos k j i) - v.line g k j i (v.pos k j i - 1)) := by
    intro v
    cases v <;>
      simp only [EKernel.dH, EKernel.sign, EKernel.line, EKernel.pos, physX, physY, physZ] <;>
      ring
  have hH : ∀ w : HKernel, w.dE g k j i =
      w.sign * (w.line g k j i (w.pos k j i + 1) - w.line g k j i (w.pos k j i)) := by
    intro w
    cases w <;>
      simp only [HKernel.dE, HKernel.sign, HKernel.line, HKernel.pos, physX, physY, physZ] <;>
      ring
  refine ⟨hE, hH, ?_⟩
  intro w
  by_cases hm : p.materials k j i = 0 <;>
    simp only [FDTD_H, hm, if_true, if_false, SplitField.set_same, hH w]

end DerivProofs

/-- C4 as stated fails: on `exGrid` the `E_s.xy` kernel at cell `[0][1][2]` uses the
difference 2 = `line[1] - line[0]` of the H line while `line[2] - line[1]` is 6, and the
`H_s.xz` kernel at cell `[1][0][0]` uses 6 = `line[2] - line[1]` of the E line while
`line[1] - line[0]` is 2. -/
theorem C4_counterexample :
    EKernel.xy.dH exGrid 0 1 2 = 2 ∧
    EKernel.xy.line exGrid 0 1 2 (EKernel.xy.pos 0 1 2 + 1)
      - EKernel.xy.line exGrid 0 1 2 (EKernel.xy.pos 0 1 2) = 6 ∧
    HKernel.xz.dE exGrid 1 0 0 = 6 ∧
    HKernel.xz.line exGrid 1 0 0 (HKernel.xz.pos 1 0 0)
      - HKernel.xz.line exGrid 1 0 0 (HKernel.xz.pos 1 0 0 - 1) = 2 := by
  refine ⟨?_, ?_, ?_, ?_⟩ <;>
    norm_num [EKernel.dH, EKernel.line, EKernel.pos, HKernel.dE, HKernel.line, HKernel.pos,
      physX, physY, physZ, exGrid]


/-- The finite-difference `E_s.xy` kernel at cell `[0][1][2]` of `exParams`, `exGrid`. -/
theorem exFD_xy_values :
    (FDTD_E exParams .xy 0 1 2 exGrid).E_s .xy 0 1 2 = 16 ∧
    (FDTD_E exParams .xy 0 1 2 exGrid).J_s .xy 0 1 2 = 146 ∧
    (FDTD_E exParams .xy 0 1 2 exGrid).J_nm1 .xy 0 1 2 = 2 ∧
    (FDTD_E exParams .xy 0 1 2 exGrid).E_nm1 .xy 0 1 2 = 9 ∧
    (FDTD_E exParams .xy 0 1 2 exGrid).J_c .xy 0 1 2 = -47 := by
  have hd : dispActive exParams ⟨1, 2, 3, 2, 1, 2, 4, 1, 3⟩ = true := by decide
  have hc : condActive exParams ⟨1, 2, 3, 2, 1, 2, 4, 1, 3⟩ = true := by decide
  simp only [FDTD_E, updateCell_FD, updateAux, Enp1_FD, exCoeffs_xy, hd, hc, if_true,
    SplitField.set_same, EKernel.comp]
  norm_num [exParams, exGrid, EKernel.dH, EKernel.delta]

/-- The pseudo-spectral `E_s.xy` kernel at the same cell, handed the derivative sample 2. -/
theorem exPSTD_xy_values :
    (PSTD_E exParams .xy 0 1 2 0 2 exGrid).1.E_s .xy 0 1 2 = 13 ∧
    (PSTD_E exParams .xy 0 1 2 0 2 exGrid).1.J_s .xy 0 1 2 = 120 ∧
    (PSTD_E exParams .xy 0 1 2 0 2 exGrid).1.J_nm1 .xy 0 1 2 = 2 ∧
    (PSTD_E exParams .xy 0 1 2 0 2 exGrid).1.E_nm1 .xy 0 1 2 = 9 ∧
    (PSTD_E exParams .xy 0 1 2 0 2 exGrid).1.J_c .xy 0 1 2 = -21 := by
  have hd : dispActive exParams ⟨1, 2, 3, 2, 1, 2, 4, 1, 3⟩ = true := by decide
  have hc : condActive exParams ⟨1, 2, 3, 2, 1, 2, 4, 1, 3⟩ = true := by decide
  have hJ : ¬ (True ∧ ¬ exParams.J_tot > 1) := by decide
  simp only [PSTD_E, updateAux, exCoeffs_xy, hd, hc, if_true, reduceCtorEq, or_self, if_false,
    hJ, SplitField.set_same, EKernel.comp]
  norm_num [exParams, exGrid, EKernel.delta, EKernel.sign]

section PSTDProofs

variable {R : Type} [LinearOrderedField R]

/-- Where neither the dispersion nor the conductivity branch is active, a pseudo-spectral
kernel handed the derivative sample the finite-difference kernel uses writes the same state. -/
theorem PSTD_eq_FDTD_of_inactive (p : SimParams R) (v : EKernel) (k j i : Int)
    (e deriv : R) (g : Grid R) (hxy : v = .xy → p.J_tot > 1)
    (hd : dispActive p (v.cellCoeffs p k j i) = false)
    (hc : condActive p (v.cellCoeffs p k j i) = false)
    (hder : v.dH g k j i = v.sign * deriv) :
    (PSTD_E p v k j i e deriv g).1 = FDTD_E p v k j i g := by
  by_cases hTM : v = .zxTM ∨ v = .zyTM
  · simp only [PSTD_E, hTM, if_true]
  · have hJ : ¬ (v = .xy ∧ ¬ p.J_tot > 1) := fun h => h.2 (hxy h.1)
    simp only [PSTD_E, hTM, if_false, hd, hc, Bool.false_eq_true, hJ, FDTD_E, updateCell_FD,
      Enp1_FD, updateAux, hder]
    congr 2
    ring_nf

/-- C3, the defect: in each of the six kernels that have a pseudo-spectral branch, when the
derivative sample `deriv` handed to it is the one the finite-difference branch uses, the
pseudo-spectral branch writes `E = Ca*E_old + Cb*dH` whether or not the dispersion or the
conductivity branch is active, so the value the finite-difference branch writes is that plus
the dispersion term `Cc*E_nm1 - Cb*delta/2*((1+alpha)*J + beta*J_nm1)` and the conductivity
term `Cb*delta*J_c` of the active branches. -/
theorem C3_PSTD_omits_corrections (p : SimParams R) (v : EKernel) (k j i : Int)
    (e deriv : R) (g : Grid R) (hv : v ≠ .zxTM ∧ v ≠ .zyTM) (hxy : v = .xy → p.J_tot > 1)
    (hder : v.dH g k j i = v.sign * deriv) :
    (PSTD_E p v k j i e deriv g).1.E_s v.comp k j i =
      (v.cellCoeffs p k j i).Ca * g.E_s v.comp k j i
        + (v.cellCoeffs p k j i).Cb * v.dH g k j i ∧
    (FDTD_E p v k j i g).E_s v.comp k j i =
      (PSTD_E p v k j i e deriv g).1.E_s v.comp k j i
        + (if dispActive p (v.cellCoeffs p k j i) then
            (v.cellCoeffs p k j i).Cc * g.E_nm1 v.comp k j i
              - (v.cellCoeffs p k j i).Cb * v.delta p / 2 *
                ((1 + (v.cellCoeffs p k j i).alpha_l) * g.J_s v.comp k j i
                  + (v.cellCoeffs p k j i).beta_l * g.J_nm1 v.comp k j i)
           else 0)
        + (if condActive p (v.cellCoeffs p k j i) then
            (v.cellCoeffs p k j i).Cb * v.delta p * g.J_c v.comp k j i
           else 0) := by
  have hTM : ¬ (v = .zxTM ∨ v = .zyTM) := fun h => h.elim hv.1 hv.2
  have hJ : ¬ (v = .xy ∧ ¬ p.J_tot > 1) := fun h => h.2 (hxy h.1)
  have hP : (PSTD_E p v k j i e deriv g).1.E_s v.comp k j i =
      (v.cellCoeffs p k j i).Ca * g.E_s v.comp k j i
        + (v.cellCoeffs p k j i).Cb * v.dH g k j i := by
    simp only [PSTD_E, hTM, if_false, hJ, SplitField.set_same, hder]
    ring
  refine ⟨hP, ?_⟩
  rw [hP]
  exact (FDTD_E_cell_update_aux p v k j i g).1

end PSTDProofs

/-- C3 at a failing input: at cell `[0][1][2]` of `exParams` both the dispersion and the
conductivity branch are active; the derivative sample of the H line there is 2 and it is what
the finite-difference kernel uses; handed the same sample, the pseudo-spectral `E_s.xy` kernel
writes `E = 13`, `J_s = 120`, `J_c = -21` where the finite-difference kernel writes `E = 16`,
`J_s = 146`, `J_c = -47`. -/
theorem C3_PSTD_omits_corrections_witness :
    dispActive exParams (EKernel.xy.cellCoeffs exParams 0 1 2) = true ∧
    condActive exParams (EKernel.xy.cellCoeffs exParams 0 1 2) = true ∧
    EKernel.xy.line exGrid 0 1 2 1 - EKernel.xy.line exGrid 0 1 2 0 = 2 ∧
    (PSTD_E exParams .xy 0 1 2 0 2 exGrid).1.E_s .xy 0 1 2 = 13 ∧
    (FDTD_E exParams .xy 0 1 2 exGrid).E_s .xy 0 1 2 = 16 ∧
    ((FDTD_E exParams .xy 0 1 2 exGrid).J_s .xy 0 1 2 = 146 ∧
      (PSTD_E exParams .xy 0 1 2 0 2 exGrid).1.J_s .xy 0 1 2 = 120) ∧
    ((FDTD_E exParams .xy 0 1 2 exGrid).J_c .xy 0 1 2 = -47 ∧
      (PSTD_E exParams .xy 0 1 2 0 2 exGrid).1.J_c .xy 0 1 2 = -21) := by
  obtain ⟨f1, f2, -, -, f5⟩ := exFD_xy_values
  obtain ⟨-, s2, -, -, s5⟩ := exPSTD_xy_values
  have hder : EKernel.xy.dH exGrid 0 1 2 = EKernel.xy.sign * 2 := by
    norm_num [EKernel.dH, EKernel.sign, exGrid]
  have hP := (C3_PSTD_omits_corrections exParams .xy 0 1 2 0 2 exGrid
    ⟨by decide, by decide⟩ (fun _ => by decide) hder).1
  refine ⟨by decide, by decide, ?_, hP.trans ?_, f1, ⟨f2, s2⟩, ⟨f5, s5⟩⟩
  · norm_num [EKernel.line, physZ, exGrid]
  · rw [exCoeffs_xy, hder]
    norm_num [exGrid, EKernel.comp, EKernel.sign]



/-! ## The main loop -/

theorem cycleSamples_succ (t0 d : Nat) :
    cycleSamples t0 (d + 1) = cycleSamples t0 d ++ [⟨t0 + d, (d : Int) - 1⟩] := by
  simp [cycleSamples, List.range_succ]

theorem normStep_fields (P : LoopParams) (tind : Nat) (s : LoopState) :
    (normStep P tind s).dft_counter = s.dft_counter ∧ (normStep P tind s).E = s.E ∧
    (normStep P tind s).E_copy = s.E_copy ∧ (normStep P tind s).converged = s.converged := by
  unfold normStep
  split_ifs <;> simp

theorem limitStep_of_ne (P : LoopParams) (tind : Nat) (s : LoopState) (h : tind ≠ P.Nt - 1) :
    limitStep P tind s = s := by
  simp [limitStep, h]

theorem limitStep_converged (P : LoopParams) (tind : Nat) (s : LoopState) :
    (limitStep P tind s).converged = s.converged := by
  unfold limitStep
  split_ifs <;> rfl

theorem accumulateStep_converged (P : LoopParams) (tind : Nat) (s : LoopState) :
    (accumulateStep P tind s).converged = s.converged := by
  unfold accumulateStep
  split_ifs <;> rfl

theorem checkStep_break (P : LoopParams) (conv : List Sample → List Sample → Bool) (tind : Nat)
    (s : LoopState) (h : (checkStep P conv tind s).2 = true) :
    s.dft_counter = P.Nsteps ∧ P.ssv = true ∧ conv s.E s.E_copy = true ∧
    (checkStep P conv tind s).1 =
      { s with dft_counter := 0, checks := s.checks ++ [tind], converged := some tind } := by
  unfold checkStep at h ⊢
  split_ifs at h ⊢ with h1 h2
  exact ⟨h1.1, h1.2, h2, rfl⟩

theorem checkStep_converged (P : LoopParams) (conv : List Sample → List Sample → Bool)
    (tind : Nat) (s : LoopState) (h : (checkStep P conv tind s).2 = false) :
    (checkStep P conv tind s).1.converged = s.converged := by
  unfold checkStep at h ⊢
  split_ifs at h ⊢ <;> rfl

theorem loopInv_step (P : LoopParams) (conv : List Sample → List Sample → Bool)
    (hN : 1 ≤ P.Nsteps) (tind : Nat) (s : LoopState) (hI : LoopInv P tind s)
    (hb : (checkStep P conv tind s).2 = false) :
    LoopInv P (tind + 1) (normStep P tind (accumulateStep P tind (checkStep P conv tind s).1)) := by
  obtain ⟨hc, hI⟩ := hI
  obtain ⟨nd, nE, nC, nv⟩ := normStep_fields P tind (accumulateStep P tind (checkStep P conv tind s).1)
  refine ⟨by rw [nv, accumulateStep_converged, checkStep_converged P conv tind s hb, hc], ?_⟩
  rw [nd, nE, nC]
  by_cases hs : P.ssv = true ∧ P.exphasorssurface = true
  · rw [if_pos hs] at hI ⊢
    obtain ⟨h1, h2, h3⟩ := hI
    by_cases hd : s.dft_counter = P.Nsteps
    · by_cases hcv : conv s.E s.E_copy = true
      · simp [checkStep, hd, hs.1, hcv] at hb
      · have hcs : (checkStep P conv tind s).1 =
            { s with dft_counter := 0, checks := s.checks ++ [tind], E_copy := s.E, E := [],
                     H := [], volZeroed := s.volZeroed ++ [tind] } := by
          simp [checkStep, hd, hs.1, hcv]
        rw [hcs]
        simp only [accumulateStep, hs.1, hs.2, if_true]
        refine ⟨by simp; omega, ?_, Or.inr ⟨by simp; omega, ?_⟩⟩
        · simp [cycleSamples, List.range_succ]
        · simp only [h2, hd]
          congr 1
    · have hcs : (checkStep P conv tind s).1 = s := by
        simp [checkStep, hd]
      rw [hcs]
      simp only [accumulateStep, hs.1, hs.2, if_true]
      refine ⟨by omega, ?_, ?_⟩
      · rw [h2, cycleSamples_succ]
        have e1 : tind + 1 - (s.dft_counter + 1) = tind - s.dft_counter := by omega
        have e2 : tind - s.dft_counter + s.dft_counter = tind := by omega
        rw [e1, e2]
      · rcases h3 with h3 | ⟨h3, h4⟩
        · exact Or.inl h3
        · refine Or.inr ⟨by omega, ?_⟩
          rw [h4]
          congr 1
          omega
  · rw [if_neg hs] at hI ⊢
    have hd : ¬ (s.dft_counter = P.Nsteps) := by omega
    have hcs : (checkStep P conv tind s).1 = s := by
      simp [checkStep, hd]
    rw [hcs]
    unfold accumulateStep
    split_ifs with a1 a2
    · exact absurd ⟨a1, a2⟩ hs
    all_goals exact hI

theorem iterate_post (P : LoopParams) (conv : List Sample → List Sample → Bool)
    (hN : 1 ≤ P.Nsteps) :
    ∀ (n tind : Nat) (s : LoopState), (n = 0 ∨ tind + n = P.Nt) → LoopInv P tind s →
      ConvergedPost P conv (iterate P conv n tind s) := by
  intro n
  induction n with
  | zero =>
    intro tind s _ hI t ht
    simp only [iterate] at ht
    rw [hI.1] at ht
    exact absurd ht (by simp)
  | succ n ih =>
    intro tind s hn hI
    have hNt : tind + (n + 1) = P.Nt := by
      rcases hn with h | h
      · omega
      · exact h
    unfold iterate
    by_cases hb : (checkStep P conv tind s).2 = true
    · have hlb : loopBody P conv tind s = checkStep P conv tind s := by
        simp [loopBody, hb]
      rw [hlb, if_pos hb]
      obtain ⟨hd, hssv, hcv, hst⟩ := checkStep_break P conv tind s hb
      rw [hst]
      intro t ht
      have htt : tind = t := by simpa using ht
      subst htt
      obtain ⟨-, hI⟩ := hI
      by_cases hs : P.ssv = true ∧ P.exphasorssurface = true
      · rw [if_pos hs] at hI
        obtain ⟨h1, h2, h3⟩ := hI
        rw [hd] at h1 h2 h3
        refine ⟨h2, hcv, h1, ?_⟩
        rcases h3 with h3 | ⟨h3, h4⟩
        · exact Or.inl h3
        · refine Or.inr ⟨by omega, ?_⟩
          show s.E_copy = _
          rw [h4]
          congr 1
          omega
      · rw [if_neg hs] at hI
        omega
    · have hb' : (checkStep P conv tind s).2 = false := by simpa using hb
      have hlb : loopBody P conv tind s =
          (limitStep P tind (normStep P tind (accumulateStep P tind (checkStep P conv tind s).1)),
            false) := by
        simp [loopBody, hb']
      rw [hlb]
      simp only [Bool.false_eq_true, if_false]
      rcases Nat.eq_zero_or_pos n with h0 | hpos
      · subst h0
        intro t ht
        simp only [iterate] at ht
        rw [limitStep_converged, (normStep_fields P tind _).2.2.2, accumulateStep_converged,
          checkStep_converged P conv tind s hb', hI.1] at ht
        exact absurd ht (by simp)
      · have hne : tind ≠ P.Nt - 1 := by omega
        rw [limitStep_of_ne P tind _ hne]
        exact ih (tind + 1) _ (Or.inr (by omega)) (loopInv_step P conv hN tind s hI hb')

/-- C6 (as amended): if the convergence test passes in iteration `t` of a run with
`Nsteps ≥ 1`, the loop is left at once and the `E` phasor volume that is then normalised and
returned is the accumulator of the cycle just completed, the `Nsteps` samples of the iterations
`t - Nsteps`, ..., `t - 1`, which is the array that passed the comparison with `E_copy`;
`E_copy`, zero or the snapshot of the cycle before, is left as it is and not copied back. -/
theorem C6_converged_returns_completed_cycle (P : LoopParams)
    (conv : List Sample → List Sample → Bool) (hN : 1 ≤ P.Nsteps) (t : Nat)
    (h : (mainLoop P conv).converged = some t) :
    (mainLoop P conv).E = cycleSamples (t - P.Nsteps) P.Nsteps ∧
    conv (mainLoop P conv).E (mainLoop P conv).E_copy = true ∧
    P.start_tind + P.Nsteps ≤ t ∧
    ((mainLoop P conv).E_copy = [] ∨
      (P.start_tind + 2 * P.Nsteps ≤ t ∧
        (mainLoop P conv).E_copy = cycleSamples (t - 2 * P.Nsteps) P.Nsteps)) := by
  have hinit : LoopInv P P.start_tind LoopState.init := by
    refine ⟨rfl, ?_⟩
    split_ifs
    · exact ⟨by simp [LoopState.init], by simp [LoopState.init, cycleSamples],
        Or.inl rfl⟩
    · rfl
  have := iterate_post P conv hN (P.Nt - P.start_tind) P.start_tind LoopState.init
    (by omega) hinit
  exact this t h

/-- C6 applied to the run `exRun` with the comparison `convSecond`: the loop is left in
iteration 4 and returns the samples of iterations 2 and 3. -/
theorem C6_converged_returns_completed_cycle_witness :
    (mainLoop exRun convSecond).converged = some 4 ∧
    (mainLoop exRun convSecond).E = [⟨2, -1⟩, ⟨3, 0⟩] :=
  ⟨by decide,
    (C6_converged_returns_completed_cycle exRun convSecond (by decide) 4 (by decide)).1.trans
      (by decide)⟩

/-- C6 as stated fails: in the run `exRun` with the comparison `convSecond` the test passes
in iteration 4; the array returned holds the samples of iterations 2, 3 (the cycle just
completed), while `E_copy`, the snapshot taken at the preceding cycle boundary, holds those of
iterations 0, 1 and is not what is returned. -/
theorem C6_counterexample :
    (mainLoop exRun convSecond).converged = some 4 ∧
    (mainLoop exRun convSecond).E_copy = [⟨0, -1⟩, ⟨1, 0⟩] ∧
    (mainLoop exRun convSecond).E = [⟨2, -1⟩, ⟨3, 0⟩] ∧
    (mainLoop exRun convSecond).E ≠ (mainLoop exRun convSecond).E_copy := by
  decide

theorem iterate_succ_induction (P : LoopParams) (conv : List Sample → List Sample → Bool)
    (I : Nat → LoopState → Prop) (Q : LoopState → Prop)
    (hbreak : ∀ tind s, I tind s → (checkStep P conv tind s).2 = true →
      Q (checkStep P conv tind s).1)
    (hstep : ∀ tind s, I tind s → (checkStep P conv tind s).2 = false →
      I (tind + 1) (normStep P tind (accumulateStep P tind (checkStep P conv tind s).1)))
    (hlast : ∀ tind s, I tind s → (checkStep P conv tind s).2 = false → tind = P.Nt - 1 →
      Q (limitStep P tind (normStep P tind (accumulateStep P tind (checkStep P conv tind s).1)))) :
    ∀ (n tind : Nat) (s : LoopState), tind + (n + 1) = P.Nt → I tind s →
      Q (iterate P conv (n + 1) tind s) := by
  intro n
  induction n with
  | zero =>
    intro tind s hn hI
    unfold iterate
    by_cases hb : (checkStep P conv tind s).2 = true
    · have hlb : loopBody P conv tind s = checkStep P conv tind s := by simp [loopBody, hb]
      rw [hlb, if_pos hb]
      exact hbreak tind s hI hb
    · have hb' : (checkStep P conv tind s).2 = false := by simpa using hb
      have hlb : loopBody P conv tind s =
          (limitStep P tind (normStep P tind (accumulateStep P tind (checkStep P conv tind s).1)),
            false) := by simp [loopBody, hb']
      rw [hlb]
      simp only [Bool.false_eq_true, if_false, iterate]
      exact hlast tind s hI hb' (by omega)
  | succ n ih =>
    intro tind s hn hI
    unfold iterate
    by_cases hb : (checkStep P conv tind s).2 = true
    · have hlb : loopBody P conv tind s = checkStep P conv tind s := by simp [loopBody, hb]
      rw [hlb, if_pos hb]
      exact hbreak tind s hI hb
    · have hb' : (checkStep P conv tind s).2 = false := by simpa using hb
      have hlb : loopBody P conv tind s =
          (limitStep P tind (normStep P tind (accumulateStep P tind (checkStep P conv tind s).1)),
            false) := by simp [loopBody, hb']
      rw [hlb]
      simp only [Bool.false_eq_true, if_false]
      rw [limitStep_of_ne P tind _ (by omega)]
      exact ih (tind + 1) _ (by omega) (hstep tind s hI hb')

theorem normStep_logs (P : LoopParams) (tind : Nat) (s : LoopState) :
    (normStep P tind s).checks = s.checks ∧ (normStep P tind s).volZeroed = s.volZeroed ∧
    (∀ t ∈ (normStep P tind s).normReset, t ∈ s.normReset ∨ (t = tind ∧ tind % P.Nsteps = 0)) := by
  unfold normStep
  split_ifs with h1 h2 h3 <;> simp_all

theorem limitStep_fields (P : LoopParams) (tind : Nat) (s : LoopState) :
    (limitStep P tind s).dft_counter = s.dft_counter ∧ (limitStep P tind s).checks = s.checks ∧
    (limitStep P tind s).volZeroed = s.volZeroed ∧
    (limitStep P tind s).normReset = s.normReset ∧
    (limitStep P tind s).E_copy = s.E_copy := by
  unfold limitStep
  split_ifs <;> simp

theorem accumulateStep_fields (P : LoopParams) (tind : Nat) (s : LoopState) :
    (accumulateStep P tind s).dft_counter =
      (if P.ssv = true ∧ P.exphasorssurface = true then s.dft_counter + 1 else s.dft_counter) ∧
    (accumulateStep P tind s).checks = s.checks ∧
    (accumulateStep P tind s).volZeroed = s.volZeroed ∧
    (accumulateStep P tind s).normReset = s.normReset ∧
    (accumulateStep P tind s).E_copy = s.E_copy := by
  unfold accumulateStep
  split_ifs <;> simp_all

theorem checkStep_fields (P : LoopParams) (conv : List Sample → List Sample → Bool)
    (tind : Nat) (s : LoopState) (h : (checkStep P conv tind s).2 = false) :
    (checkStep P conv tind s).1.dft_counter =
      (if s.dft_counter = P.Nsteps ∧ P.ssv = true then 0 else s.dft_counter) ∧
    (checkStep P conv tind s).1.normReset = s.normReset ∧
    (∀ t ∈ (checkStep P conv tind s).1.volZeroed,
      t ∈ s.volZeroed ∨ (t = tind ∧ s.dft_counter = P.Nsteps ∧ P.ssv = true)) ∧
    (∀ t ∈ (checkStep P conv tind s).1.checks,
      t ∈ s.checks ∨ (t = tind ∧ s.dft_counter = P.Nsteps ∧ P.ssv = true)) := by
  unfold checkStep at h ⊢
  split_ifs at h ⊢ with h1 h2 <;> simp_all

/-- C5, the defect: in every run without surface extraction (`Nsteps ≥ 1`) `dft_counter` is
still 0 when the loop ends, the convergence comparison has been evaluated in no iteration and
the loop was not left early, whatever the other flags, `start_tind`, `Nt` and the outcome the
comparison would have had. -/
theorem C5_no_check_without_surface (P : LoopParams) (conv : List Sample → List Sample → Bool)
    (hs : P.exphasorssurface = false) (hN : 1 ≤ P.Nsteps) :
    (mainLoop P conv).checks = [] ∧ (mainLoop P conv).converged = none ∧
    (mainLoop P conv).dft_counter = 0 := by
  have hI0 : LoopState.init.checks = [] ∧ LoopState.init.converged = none ∧
      LoopState.init.dft_counter = 0 := ⟨rfl, rfl, rfl⟩
  have hcs : ∀ tind s, s.dft_counter = 0 → checkStep P conv tind s = (s, false) := by
    intro tind s hd
    have : ¬ (s.dft_counter = P.Nsteps ∧ P.ssv = true) := by omega
    simp [checkStep, this]
  have hsurf : ¬ (P.ssv = true ∧ P.exphasorssurface = true) := by simp [hs]
  rcases Nat.eq_zero_or_pos (P.Nt - P.start_tind) with h0 | hpos
  · simp only [mainLoop, h0, iterate]
    exact hI0
  · obtain ⟨n, hn⟩ : ∃ n, P.Nt - P.start_tind = n + 1 := ⟨P.Nt - P.start_tind - 1, by omega⟩
    simp only [mainLoop, hn]
    refine iterate_succ_induction P conv
      (fun _ s => s.checks = [] ∧ s.converged = none ∧ s.dft_counter = 0)
      (fun s => s.checks = [] ∧ s.converged = none ∧ s.dft_counter = 0)
      ?_ ?_ ?_ n P.start_tind LoopState.init (by omega) hI0
    · intro tind s hI hb
      rw [hcs tind s hI.2.2] at hb
      simp at hb
    · intro tind s hI _
      rw [hcs tind s hI.2.2]
      obtain ⟨a1, a2, -⟩ := accumulateStep_fields P tind s
      obtain ⟨n1, -, -⟩ := normStep_logs P tind (accumulateStep P tind s)
      obtain ⟨m1, -, -, m4⟩ := normStep_fields P tind (accumulateStep P tind s)
      refine ⟨by rw [n1, a2, hI.1], by rw [m4, accumulateStep_converged, hI.2.1], ?_⟩
      rw [m1, a1, if_neg hsurf, hI.2.2]
    · intro tind s hI _ _
      rw [hcs tind s hI.2.2]
      obtain ⟨a1, a2, -⟩ := accumulateStep_fields P tind s
      obtain ⟨n1, -, -⟩ := normStep_logs P tind (accumulateStep P tind s)
      obtain ⟨m1, -, -, m4⟩ := normStep_fields P tind (accumulateStep P tind s)
      obtain ⟨l1, l2, -⟩ := limitStep_fields P tind (normStep P tind (accumulateStep P tind s))
      refine ⟨by rw [l2, n1, a2, hI.1],
        by rw [limitStep_converged, m4, accumulateStep_converged, hI.2.1], ?_⟩
      rw [l1, m1, a1, if_neg hsurf, hI.2.2]

/-- C5 at a failing input: the steady-state complete run `exRunNoSurface` (volume extraction
on, surface extraction off, `Nsteps = 2`, iterations 0..5) is never left early, iterations 2
and 4 are its cycle boundaries, and the convergence comparison is evaluated in none of its
iterations; with surface extraction on (`exRun`) it is evaluated in iterations 2 and 4. -/
theorem C5_no_check_without_surface_witness :
    exRunNoSurface.ssv = true ∧
    (mainLoop exRunNoSurface convNever).checks = [] ∧
    (mainLoop exRunNoSurface convNever).converged = none ∧
    (mainLoop exRun convNever).checks = [2, 4] :=
  ⟨by decide,
    (C5_no_check_without_surface exRunNoSurface convNever (by decide) (by decide)).1,
    (C5_no_check_without_surface exRunNoSurface convNever (by decide) (by decide)).2.1,
    by decide⟩

/-- C7, the defect: whenever a steady-state complete run with volume extraction runs to the
iteration limit, the array returned is `E_copy`, the snapshot taken at the last cycle
boundary (zero if there was none), not the accumulator of the cycle that ends with the last
iteration. -/
theorem C7_limit_returns_E_copy (P : LoopParams) (conv : List Sample → List Sample → Bool)
    (hssv : P.ssv = true) (hlt : P.start_tind < P.Nt)
    (hc : (mainLoop P conv).converged = none) :
    (mainLoop P conv).E = (mainLoop P conv).E_copy := by
  obtain ⟨n, hn⟩ : ∃ n, P.Nt - P.start_tind = n + 1 := ⟨P.Nt - P.start_tind - 1, by omega⟩
  have key := iterate_succ_induction P conv (fun _ _ => True)
    (fun s => s.converged = none → s.E = s.E_copy) ?_ ?_ ?_ n P.start_tind LoopState.init
    (by omega) trivial
  · simp only [mainLoop, hn] at hc ⊢
    exact key hc
  · intro tind s _ hb hcv
    rw [(checkStep_break P conv tind s hb).2.2.2] at hcv
    simp at hcv
  · intro _ _ _ _
    trivial
  · intro tind s _ _ ht _
    have h1 : P.steadystate = true ∧ P.complete = true ∧ P.exphasorsvolume = true := by
      simpa [LoopParams.ssv, and_assoc] using hssv
    simp [limitStep, ht, h1.1, h1.2.1, h1.2.2]

/-- C7 at a failing input: in the single-cycle run `exRunOneCycle` (`Nt = Nsteps = 2`) the
accumulator holds the two samples of the cycle when the last iteration has accumulated, and
line 4443 then overwrites it with `E_copy`, which is still zero: the array returned holds no
sample.  In the three-cycle run `exRun` the array returned holds the samples of iterations
2, 3, not those of the last cycle 4, 5. -/
theorem C7_limit_returns_E_copy_witness :
    (accumulateStep exRunOneCycle 1
      (checkStep exRunOneCycle convNever 1
        (iterate exRunOneCycle convNever 1 0 LoopState.init)).1).E = cycleSamples 0 2 ∧
    (mainLoop exRunOneCycle convNever).E = [] ∧
    (mainLoop exRun convNever).E = cycleSamples 2 2 ∧
    (mainLoop exRun convNever).E ≠ cycleSamples 4 2 :=
  ⟨by decide,
    (C7_limit_returns_E_copy exRunOneCycle convNever (by decide) (by decide) (by decide)).trans
      (by decide),
    (C7_limit_returns_E_copy exRun convNever (by decide) (by decide) (by decide)).trans
      (by decide),
    by decide⟩

theorem loop_logs (P : LoopParams) (conv : List Sample → List Sample → Bool)
    (hN : 1 ≤ P.Nsteps) :
    (∀ t ∈ (mainLoop P conv).volZeroed,
      P.start_tind < t ∧ (t - P.start_tind) % P.Nsteps = 0) ∧
    (∀ t ∈ (mainLoop P conv).normReset, t % P.Nsteps = 0) := by
  have hI0 : (∀ t ∈ LoopState.init.volZeroed,
      P.start_tind < t ∧ (t - P.start_tind) % P.Nsteps = 0) ∧
      (∀ t ∈ LoopState.init.normReset, t % P.Nsteps = 0) := by
    simp [LoopState.init]
  rcases Nat.eq_zero_or_pos (P.Nt - P.start_tind) with h0 | hpos
  · simp only [mainLoop, h0, iterate]
    exact hI0
  obtain ⟨n, hn⟩ : ∃ n, P.Nt - P.start_tind = n + 1 := ⟨P.Nt - P.start_tind - 1, by omega⟩
  simp only [mainLoop, hn]
  -- the facts about one iteration that is not left through `break`
  have step : ∀ tind s,
      ((∀ t ∈ s.volZeroed, P.start_tind < t ∧ (t - P.start_tind) % P.Nsteps = 0) ∧
        (∀ t ∈ s.normReset, t % P.Nsteps = 0)) ∧
      (if P.ssv = true ∧ P.exphasorssurface = true then
          P.start_tind + s.dft_counter ≤ tind ∧
            (tind - P.start_tind - s.dft_counter) % P.Nsteps = 0
        else s.dft_counter = 0) →
      (checkStep P conv tind s).2 = false →
      ((∀ t ∈ (normStep P tind (accumulateStep P tind (checkStep P conv tind s).1)).volZeroed,
          P.start_tind < t ∧ (t - P.start_tind) % P.Nsteps = 0) ∧
        (∀ t ∈ (normStep P tind (accumulateStep P tind (checkStep P conv tind s).1)).normReset,
          t % P.Nsteps = 0)) ∧
      (if P.ssv = true ∧ P.exphasorssurface = true then
          P.start_tind +
              (normStep P tind (accumulateStep P tind (checkStep P conv tind s).1)).dft_counter
            ≤ tind + 1 ∧
            (tind + 1 - P.start_tind -
              (normStep P tind (accumulateStep P tind (checkStep P conv tind s).1)).dft_counter)
              % P.Nsteps = 0
        else
          (normStep P tind (accumulateStep P tind (checkStep P conv tind s).1)).dft_counter
            = 0) := by
    intro tind s hI hb
    obtain ⟨⟨hv, hr⟩, hcnt⟩ := hI
    obtain ⟨c1, c2, c3, -⟩ := checkStep_fields P conv tind s hb
    obtain ⟨a1, -, a3, a4, -⟩ := accumulateStep_fields P tind (checkStep P conv tind s).1
    obtain ⟨-, n2, n3⟩ := normStep_logs P tind (accumulateStep P tind (checkStep P conv tind s).1)
    obtain ⟨m1, -, -, -⟩ :=
      normStep_fields P tind (accumulateStep P tind (checkStep P conv tind s).1)
    have hzero : ∀ t, t = tind ∧ s.dft_counter = P.Nsteps ∧ P.ssv = true →
        P.start_tind < t ∧ (t - P.start_tind) % P.Nsteps = 0 := by
      rintro t ⟨rfl, hd, hssv⟩
      by_cases hs : P.ssv = true ∧ P.exphasorssurface = true
      · rw [if_pos hs, hd] at hcnt
        refine ⟨by omega, ?_⟩
        have e : t - P.start_tind = (t - P.start_tind - P.Nsteps) + P.Nsteps := by omega
        rw [e, Nat.add_mod_right]
        exact hcnt.2
      · rw [if_neg hs] at hcnt
        omega
    refine ⟨⟨?_, ?_⟩, ?_⟩
    · intro t ht
      rw [n2, a3] at ht
      rcases c3 t ht with h | h
      · exact hv t h
      · exact hzero t h
    · intro t ht
      rcases n3 t ht with h | h
      · rw [a4, c2] at h
        exact hr t h
      · rw [h.1]; exact h.2
    · rw [m1, a1, c1]
      by_cases hs : P.ssv = true ∧ P.exphasorssurface = true
      · rw [if_pos hs] at hcnt ⊢
        rw [if_pos hs]
        by_cases hd : s.dft_counter = P.Nsteps
        · rw [if_pos ⟨hd, hs.1⟩]
          have hz := hzero tind ⟨rfl, hd, hs.1⟩
          refine ⟨by omega, ?_⟩
          have e : tind + 1 - P.start_tind - (0 + 1) = tind - P.start_tind := by omega
          rw [e]
          exact hz.2
        · have hd' : ¬ (s.dft_counter = P.Nsteps ∧ P.ssv = true) := fun h => hd h.1
          rw [if_neg hd']
          refine ⟨by omega, ?_⟩
          have e : tind + 1 - P.start_tind - (s.dft_counter + 1)
              = tind - P.start_tind - s.dft_counter := by omega
          rw [e]
          exact hcnt.2
      · rw [if_neg hs] at hcnt ⊢
        rw [if_neg hs]
        have hd' : ¬ (s.dft_counter = P.Nsteps ∧ P.ssv = true) := by omega
        rw [if_neg hd']
        exact hcnt
  refine iterate_succ_induction P conv
    (fun tind s =>
      ((∀ t ∈ s.volZeroed, P.start_tind < t ∧ (t - P.start_tind) % P.Nsteps = 0) ∧
        (∀ t ∈ s.normReset, t % P.Nsteps = 0)) ∧
      (if P.ssv = true ∧ P.exphasorssurface = true then
          P.start_tind + s.dft_counter ≤ tind ∧
            (tind - P.start_tind - s.dft_counter) % P.Nsteps = 0
        else s.dft_counter = 0))
    (fun s => (∀ t ∈ s.volZeroed, P.start_tind < t ∧ (t - P.start_tind) % P.Nsteps = 0) ∧
      (∀ t ∈ s.normReset, t % P.Nsteps = 0))
    ?_ ?_ ?_ n P.start_tind LoopState.init (by omega) ⟨hI0, ?_⟩
  · intro tind s hI hb
    rw [(checkStep_break P conv tind s hb).2.2.2]
    exact hI.1
  · intro tind s hI hb
    exact step tind s hI hb
  · intro tind s hI hb _
    obtain ⟨-, -, l3, l4, -⟩ := limitStep_fields P tind
      (normStep P tind (accumulateStep P tind (checkStep P conv tind s).1))
    rw [l3, l4]
    exact (step tind s hI hb).1
  · split_ifs
    · simp [LoopState.init]
    · rfl

/-- C8, the defect: in every run (`Nsteps ≥ 1`) the volume accumulators are zeroed only in
iterations `t > start_tind` with `t - start_tind` a multiple of `Nsteps`, while the
normalisers are reset only in iterations `t` that are themselves multiples of `Nsteps`; so when
`start_tind` is not a multiple of `Nsteps` no iteration in which the accumulators are zeroed is
one in which the normalisers are reset. -/
theorem C8_normaliser_window_differs (P : LoopParams)
    (conv : List Sample → List Sample → Bool) (hN : 1 ≤ P.Nsteps) :
    (∀ t ∈ (mainLoop P conv).volZeroed,
      P.start_tind < t ∧ (t - P.start_tind) % P.Nsteps = 0) ∧
    (∀ t ∈ (mainLoop P conv).normReset, t % P.Nsteps = 0) ∧
    (P.start_tind % P.Nsteps ≠ 0 →
      ∀ t ∈ (mainLoop P conv).volZeroed, t ∉ (mainLoop P conv).normReset) := by
  obtain ⟨hv, hr⟩ := loop_logs P conv hN
  refine ⟨hv, hr, ?_⟩
  intro hs t ht htr
  obtain ⟨h1, h2⟩ := hv t ht
  have h3 := hr t htr
  apply hs
  have e : t = (t - P.start_tind) + P.start_tind := by omega
  rw [e, Nat.add_mod, h2, zero_add, Nat.mod_mod] at h3
  exact h3

/-- C8 at a failing input: in the run `exRunLate` (`start_tind = 1`, `Nsteps = 2`, all
extraction on) the volume accumulators are zeroed in iterations 3 and 5 and the normalisers
are reset in iterations 2, 4 and 6; in the run `exRunNoSurface` the volume accumulators are
never zeroed and the normalisers are reset in iterations 0, 2 and 4. -/
theorem C8_normaliser_window_differs_witness :
    (mainLoop exRunLate convNever).volZeroed = [3, 5] ∧
    (mainLoop exRunLate convNever).normReset = [2, 4, 6] ∧
    3 ∉ (mainLoop exRunLate convNever).normReset ∧
    (mainLoop exRunNoSurface convNever).volZeroed = [] ∧
    (mainLoop exRunNoSurface convNever).normReset = [0, 2, 4] :=
  ⟨by decide, by decide,
    (C8_normaliser_window_differs exRunLate convNever (by decide)).2.2 (by decide) 3 (by decide),
    by decide, by decide⟩

/-! ## Normalisation -/

section NormaliseProofs

variable {R : Type} [LinearOrderedField R]

theorem normaliseInner_apply (nr ni d : R) (lo vx : Nat)
    (EH : (Nat → Nat → R) × (Nat → Nat → R)) (i v : Nat) :
    (([lo, lo + 1, lo + 2].foldl (fun EH i => normaliseEntry nr ni d vx i EH) EH).1 i v =
      if (lo ≤ i ∧ i < lo + 3) ∧ v = vx then (nr * EH.1 i v + ni * EH.2 i v) / d
      else EH.1 i v) ∧
    (([lo, lo + 1, lo + 2].foldl (fun EH i => normaliseEntry nr ni d vx i EH) EH).2 i v =
      if (lo ≤ i ∧ i < lo + 3) ∧ v = vx then (nr * EH.2 i v - ni * EH.1 i v) / d
      else EH.2 i v) := by
  simp only [List.foldl, normaliseEntry, set2]
  by_cases hv : v = vx
  · subst hv
    by_cases h0 : i = lo
    · subst h0; simp
    · by_cases h1 : i = lo + 1
      · subst h1; simp
      · by_cases h2 : i = lo + 2
        · subst h2; simp
        · have h3 : ¬ (lo ≤ i ∧ i < lo + 3) := by omega
          simp [h0, h1, h2, h3]
  · simp [hv]

theorem normaliseRows_apply (nr ni : R) (lo n : Nat)
    (EH : (Nat → Nat → R) × (Nat → Nat → R)) (i v : Nat) :
    ((normaliseRows nr ni lo n EH).1 i v =
      if (lo ≤ i ∧ i < lo + 3) ∧ v < n then (nr * EH.1 i v + ni * EH.2 i v) / (nr * nr + ni * ni)
      else EH.1 i v) ∧
    ((normaliseRows nr ni lo n EH).2 i v =
      if (lo ≤ i ∧ i < lo + 3) ∧ v < n then (nr * EH.2 i v - ni * EH.1 i v) / (nr * nr + ni * ni)
      else EH.2 i v) := by
  induction n with
  | zero => simp [normaliseRows]
  | succ n ih =>
    have hs : normaliseRows nr ni lo (n + 1) EH =
        [lo, lo + 1, lo + 2].foldl
          (fun EH i => normaliseEntry nr ni (nr * nr + ni * ni) n i EH)
          (normaliseRows nr ni lo n EH) := by
      simp only [normaliseRows, List.range_succ, List.foldl_append, List.foldl_cons,
        List.foldl_nil]
    rw [hs]
    obtain ⟨i1, i2⟩ := normaliseInner_apply nr ni (nr * nr + ni * ni) lo n
      (normaliseRows nr ni lo n EH) i v
    rw [i1, i2, ih.1, ih.2]
    by_cases hr : lo ≤ i ∧ i < lo + 3
    · by_cases hv : v = n
      · subst hv; simp [hr]
      · by_cases hlt : v < n
        · have : v < n + 1 := by omega
          simp [hr, hv, hlt, this]
        · have : ¬ v < n + 1 := by omega
          simp [hr, hv, hlt, this]
    · simp [hr]

end NormaliseProofs

/-- C9: `normaliseSurface` replaces, for every vertex `v < n_surface_vertices`, the entry of
each row `i < 3` by `sample * conj(Enorm) / |Enorm|^2` and of each row `3 ≤ i < 6` by
`sample * conj(Hnorm) / |Hnorm|^2`, where `sample` is the complex number formed from the real
and imaginary arrays before the call; for a non-zero normaliser this is `sample / norm`; no
other entry changes; and with `Enorm = Hnorm = 1` the arrays are returned unchanged. -/
theorem C9_normaliseSurface (surface_EHr surface_EHi : Nat → Nat → ℝ) (n : Nat)
    (Enorm Hnorm : ℂ) (out : (Nat → Nat → ℝ) × (Nat → Nat → ℝ))
    (hout : out = normaliseSurface surface_EHr surface_EHi n (Enorm.re, Enorm.im)
      (Hnorm.re, Hnorm.im)) :
    (∀ i v, i < 6 → v < n →
      (⟨out.1 i v, out.2 i v⟩ : ℂ) =
          ⟨surface_EHr i v, surface_EHi i v⟩ * (starRingEnd ℂ) (if i < 3 then Enorm else Hnorm)
            / (Complex.normSq (if i < 3 then Enorm else Hnorm) : ℂ) ∧
      ((if i < 3 then Enorm else Hnorm) ≠ 0 →
        (⟨out.1 i v, out.2 i v⟩ : ℂ) =
          ⟨surface_EHr i v, surface_EHi i v⟩ / (if i < 3 then Enorm else Hnorm))) ∧
    (∀ i v, ¬ (i < 6 ∧ v < n) → out.1 i v = surface_EHr i v ∧ out.2 i v = surface_EHi i v) ∧
    (Enorm = 1 → Hnorm = 1 → out = (surface_EHr, surface_EHi)) := by
  have hout' : out = normaliseRows Hnorm.re Hnorm.im 3 n
      (normaliseRows Enorm.re Enorm.im 0 n (surface_EHr, surface_EHi)) := hout
  have key : ∀ i v, (i < 6 ∧ v < n) →
      (⟨out.1 i v, out.2 i v⟩ : ℂ) =
          ⟨surface_EHr i v, surface_EHi i v⟩ * (starRingEnd ℂ) (if i < 3 then Enorm else Hnorm)
            / (Complex.normSq (if i < 3 then Enorm else Hnorm) : ℂ) := by
    intro i v hiv
    obtain ⟨h1, h2⟩ := normaliseRows_apply Hnorm.re Hnorm.im 3 n
      (normaliseRows Enorm.re Enorm.im 0 n (surface_EHr, surface_EHi)) i v
    obtain ⟨e1, e2⟩ := normaliseRows_apply Enorm.re Enorm.im 0 n (surface_EHr, surface_EHi) i v
    have ho1 := h1
    rw [← hout'] at ho1
    have ho2 := h2
    rw [← hout'] at ho2
    by_cases h3 : i < 3
    · have hH : ¬ ((3 ≤ i ∧ i < 3 + 3) ∧ v < n) := by omega
      have hE : (0 ≤ i ∧ i < 0 + 3) ∧ v < n := ⟨⟨by omega, by omega⟩, hiv.2⟩
      have a1 : out.1 i v = (Enorm.re * surface_EHr i v + Enorm.im * surface_EHi i v) /
          (Enorm.re * Enorm.re + Enorm.im * Enorm.im) := by
        rw [ho1, if_neg hH, e1, if_pos hE]
      have a2 : out.2 i v = (Enorm.re * surface_EHi i v - Enorm.im * surface_EHr i v) /
          (Enorm.re * Enorm.re + Enorm.im * Enorm.im) := by
        rw [ho2, if_neg hH, e2, if_pos hE]
      rw [a1, a2, if_pos h3]
      apply Complex.ext <;>
        simp only [Complex.div_ofReal_re, Complex.div_ofReal_im, Complex.mul_re, Complex.mul_im,
          Complex.conj_re, Complex.conj_im, Complex.normSq_apply] <;> ring
    · have hH : (3 ≤ i ∧ i < 3 + 3) ∧ v < n := ⟨⟨by omega, by omega⟩, hiv.2⟩
      have hE : ¬ ((0 ≤ i ∧ i < 0 + 3) ∧ v < n) := by omega
      have a1 : out.1 i v = (Hnorm.re * surface_EHr i v + Hnorm.im * surface_EHi i v) /
          (Hnorm.re * Hnorm.re + Hnorm.im * Hnorm.im) := by
        rw [ho1, if_pos hH, e1, e2, if_neg hE, if_neg hE]
      have a2 : out.2 i v = (Hnorm.re * surface_EHi i v - Hnorm.im * surface_EHr i v) /
          (Hnorm.re * Hnorm.re + Hnorm.im * Hnorm.im) := by
        rw [ho2, if_pos hH, e1, e2, if_neg hE, if_neg hE]
      rw [a1, a2, if_neg h3]
      apply Complex.ext <;>
        simp only [Complex.div_ofReal_re, Complex.div_ofReal_im, Complex.mul_re, Complex.mul_im,
          Complex.conj_re, Complex.conj_im, Complex.normSq_apply] <;> ring
  have frame : ∀ i v, ¬ (i < 6 ∧ v < n) →
      out.1 i v = surface_EHr i v ∧ out.2 i v = surface_EHi i v := by
    intro i v hiv
    obtain ⟨h1, h2⟩ := normaliseRows_apply Hnorm.re Hnorm.im 3 n
      (normaliseRows Enorm.re Enorm.im 0 n (surface_EHr, surface_EHi)) i v
    obtain ⟨e1, e2⟩ := normaliseRows_apply Enorm.re Enorm.im 0 n (surface_EHr, surface_EHi) i v
    have ho1 := h1
    rw [← hout'] at ho1
    have ho2 := h2
    rw [← hout'] at ho2
    have hH : ¬ ((3 ≤ i ∧ i < 3 + 3) ∧ v < n) := by omega
    have hE : ¬ ((0 ≤ i ∧ i < 0 + 3) ∧ v < n) := by omega
    rw [ho1, ho2, e1, e2]
    simp only [hH, hE, if_false, and_self]
  refine ⟨fun i v hi hv => ⟨key i v ⟨hi, hv⟩, fun _ => ?_⟩, frame, ?_⟩
  · rw [key i v ⟨hi, hv⟩, div_eq_mul_inv _ (if i < 3 then Enorm else Hnorm), Complex.inv_def,
      Complex.ofReal_inv]
    ring
  · intro hE hH
    subst hE; subst hH
    have hpt : ∀ i v, out.1 i v = surface_EHr i v ∧ out.2 i v = surface_EHi i v := by
      intro i v
      by_cases hiv : i < 6 ∧ v < n
      · have := key i v hiv
        simp only [ite_self, map_one, mul_one, Complex.normSq_one, Complex.ofReal_one,
          div_one] at this
        exact ⟨congrArg Complex.re this, congrArg Complex.im this⟩
      · exact frame i v hiv
    apply Prod.ext <;> funext i v
    · exact (hpt i v).1
    · exact (hpt i v).2

/-- C9 applied to the arrays `exEHrReal`, `exEHiReal` with `Enorm = 3 + 4i`, `Hnorm = 2i`:
the entry of row 1 at vertex 1 becomes the sample divided by `Enorm`, the entry of row 4 at
vertex 0 the sample divided by `Hnorm`. -/
theorem C9_normaliseSurface_witness :
    ((⟨(normaliseSurface exEHrReal exEHiReal 2 (exEnorm.re, exEnorm.im)
          (exHnorm.re, exHnorm.im)).1 1 1,
      (normaliseSurface exEHrReal exEHiReal 2 (exEnorm.re, exEnorm.im)
          (exHnorm.re, exHnorm.im)).2 1 1⟩ : ℂ) = ⟨exEHrReal 1 1, exEHiReal 1 1⟩ / exEnorm) ∧
    ((⟨(normaliseSurface exEHrReal exEHiReal 2 (exEnorm.re, exEnorm.im)
          (exHnorm.re, exHnorm.im)).1 4 0,
      (normaliseSurface exEHrReal exEHiReal 2 (exEnorm.re, exEnorm.im)
          (exHnorm.re, exHnorm.im)).2 4 0⟩ : ℂ) = ⟨exEHrReal 4 0, exEHiReal 4 0⟩ / exHnorm) :=
  ⟨((C9_normaliseSurface exEHrReal exEHiReal 2 exEnorm exHnorm _ rfl).1 1 1
      (by norm_num) (by norm_num)).2 (by simp [exEnorm, Complex.ext_iff]),
   ((C9_normaliseSurface exEHrReal exEHiReal 2 exEnorm exHnorm _ rfl).1 4 0
      (by norm_num) (by norm_num)).2 (by simp [exHnorm, Complex.ext_iff])⟩

theorem exp_fmod_two_pi (x : ℝ) :
    Complex.exp (((fmod x (2 * DCPI) : ℝ) : ℂ) * Complex.I) = Complex.exp ((x : ℂ) * Complex.I) := by
  unfold fmod DCPI
  generalize (if 0 ≤ x / (2 * Real.pi) then ⌊x / (2 * Real.pi)⌋ else ⌈x / (2 * Real.pi)⌉) = m
  have h : (((x - 2 * Real.pi * (m : ℝ) : ℝ) : ℂ)) * Complex.I
      = (x : ℂ) * Complex.I - (m : ℂ) * (2 * Real.pi * Complex.I) := by
    push_cast
    ring
  rw [h, Complex.exp_sub, Complex.exp_int_mul_two_pi_mul_I, div_one]

/-- C10: `extractPhasorENorm` adds `ft * exp(i*omega*(n+1)*dt) / N` to the running sum and
`extractPhasorHNorm` adds `ft * exp(i*omega*(n+0.5)*dt) / N`, for all real `ft`, `omega`,
`dt` and all integers `n`, `N` (in particular every `N > 0`): the reduction of the phase
modulo `2*pi` by `fmod` does not change the value added. -/
theorem C10_extractPhasorNorm (Enorm Hnorm : ℂ) (ft : ℝ) (n : Int) (omega dt : ℝ) (N : Int) :
    extractPhasorENorm Enorm ft n omega dt N =
      Enorm + (ft : ℂ) * Complex.exp (Complex.I * omega * ((n : ℂ) + 1) * dt) / (N : ℂ) ∧
    extractPhasorHNorm Hnorm ft n omega dt N =
      Hnorm + (ft : ℂ) * Complex.exp (Complex.I * omega * ((n : ℂ) + 0.5) * dt) / (N : ℂ) := by
  constructor
  · unfold extractPhasorENorm
    rw [exp_fmod_two_pi]
    push_cast
    ring_nf
  · unfold extractPhasorHNorm
    have h05 : ((0.5 : ℝ) : ℂ) = (0.5 : ℂ) := by norm_num
    rw [exp_fmod_two_pi]
    simp only [Complex.ofReal_mul, Complex.ofReal_add, Complex.ofReal_intCast, h05]
    ring_nf

/-! ## Source envelope, ramp and the setting of the time step -/

theorem exp_neg_I_fmod (x : ℝ) :
    Complex.exp (-Complex.I * ((fmod x (2 * DCPI) : ℝ) : ℂ))
      = Complex.exp (-Complex.I * (x : ℂ)) := by
  have h1 : -Complex.I * ((fmod x (2 * DCPI) : ℝ) : ℂ)
      = -(((fmod x (2 * DCPI) : ℝ) : ℂ) * Complex.I) := by
    ring
  have h2 : -Complex.I * (x : ℂ) = -((x : ℂ) * Complex.I) := by ring
  rw [h1, h2, Complex.exp_neg, Complex.exp_neg, exp_fmod_two_pi]

theorem time_E_eq (tind : Int) (dt : ℝ) : time_E tind dt = ((tind : ℝ) + 1) * dt := by
  unfold time_E
  push_cast
  ring

theorem time_H_eq (tind : Int) (dt : ℝ) : time_H tind dt = ((tind : ℝ) + 0.5) * dt := by
  unfold time_H time_E
  push_cast
  ring

theorem ft_steadystate_eq (omega t : ℝ) :
    ft_steadystate omega t = (spec_envelope_steadystate omega t).re := by
  unfold ft_steadystate spec_envelope_steadystate ramp_width DCPI
  rw [show (2 * Real.pi) = 2 * DCPI from rfl, exp_neg_I_fmod]
  have hp : (1 : ℝ) / (omega / (2 * DCPI)) = 2 * DCPI / omega := by
    rw [one_div, inv_div]
  rw [hp]
  congr 2
  push_cast
  ring_nf

theorem pulsed_re_eq (omega t0 hwhm s t : ℝ) :
    ((-1 * Complex.I) *
      Complex.exp (-Complex.I * ((fmod (omega * (t - t0)) (2 * DCPI) : ℝ) : ℂ))).re *
        Real.exp (-1 * DCPI * ((s - t0) / hwhm) ^ 2)
      = ((-Complex.I) * Complex.exp (-Complex.I * omega * (t - t0))).re *
        Real.exp (-Real.pi * ((s - t0) / hwhm) ^ 2) := by
  rw [exp_neg_I_fmod]
  unfold DCPI
  congr 2
  · congr 1
    · ring
    · congr 1
      push_cast
      ring
  · ring_nf

theorem H_ft_pulsed_eq (omega to_l hwhm dz LIGHT_V t : ℝ) :
    H_ft_pulsed omega to_l hwhm dz LIGHT_V t
      = ((-Complex.I) * Complex.exp (-Complex.I * omega * ((t : ℝ) - to_l))).re *
        Real.exp (-Real.pi * (((t + dz / LIGHT_V / 2) - to_l) / hwhm) ^ 2) := by
  unfold H_ft_pulsed
  have hs : (t - to_l + dz / LIGHT_V / 2) = ((t + dz / LIGHT_V / 2) - to_l) := by ring
  rw [hs, pulsed_re_eq]

theorem spec_envelope_pulsed_re (omega t0 hwhm t : ℝ) :
    (spec_envelope_pulsed omega t0 hwhm t).re
      = ((-Complex.I) * Complex.exp (-Complex.I * omega * ((t : ℝ) - t0))).re *
        Real.exp (-Real.pi * ((t - t0) / hwhm) ^ 2) := by
  unfold spec_envelope_pulsed
  rw [Complex.re_mul_ofReal]

/-- C11, as amended: in steady-state mode `E.ft` and `H.ft` are the real part of the
envelope `ramp(t) * exp(-i*omega*t)` at `(tind+1)*dt` and `(tind+0.5)*dt`; in pulsed mode
`E.ft` is the real part of `(-i) * exp(-i*omega*(t-t0)) * exp(-pi*((t-t0)/hwhm)^2)` at
`t = (tind+1)*dt`, while `H.ft` is `Re[(-i) * exp(-i*omega*(t-t0))]` at `t = (tind+0.5)*dt`
times the Gaussian `exp(-pi*((t + dz/LIGHT_V/2 - t0)/hwhm)^2)` taken half a cell transit
time later. -/
theorem C11_source_envelope (omega to_l hwhm dz LIGHT_V dt : ℝ) (tind : Int) :
    ft_steadystate omega (time_E tind dt)
      = (spec_envelope_steadystate omega (((tind : ℝ) + 1) * dt)).re ∧
    ft_steadystate omega (time_H tind dt)
      = (spec_envelope_steadystate omega (((tind : ℝ) + 0.5) * dt)).re ∧
    E_ft_pulsed omega to_l hwhm (time_E tind dt)
      = (spec_envelope_pulsed omega to_l hwhm (((tind : ℝ) + 1) * dt)).re ∧
    H_ft_pulsed omega to_l hwhm dz LIGHT_V (time_H tind dt)
      = ((-Complex.I) *
          Complex.exp (-Complex.I * omega * ((((tind : ℝ) + 0.5) * dt : ℝ) - to_l))).re *
        Real.exp
          (-Real.pi * (((((tind : ℝ) + 0.5) * dt + dz / LIGHT_V / 2) - to_l) / hwhm) ^ 2) := by
  refine ⟨?_, ?_, ?_, ?_⟩
  · rw [time_E_eq, ft_steadystate_eq]
  · rw [time_H_eq, ft_steadystate_eq]
  · rw [time_E_eq, spec_envelope_pulsed_re]
    unfold E_ft_pulsed
    rw [pulsed_re_eq]
  · rw [time_H_eq, H_ft_pulsed_eq]

/-- C11 fails as stated: in pulsed mode with `omega = pi/2`, `t0 = 2`, `hwhm = 1`, `dt = 2`,
`dz = 2 * LIGHT_V` and `tind = 0` the code stores `H.ft = 1`, whereas the real part of the
pulsed envelope at `(tind+0.5)*dt = 1` is `exp(-pi)`. -/
theorem C11_counterexample :
    H_ft_pulsed (Real.pi / 2) 2 1 599584916 299792458 (time_H 0 2) = 1 ∧
    (spec_envelope_pulsed (Real.pi / 2) 2 1 ((((0 : Int) : ℝ) + 0.5) * 2)).re
      = Real.exp (-Real.pi) ∧
    H_ft_pulsed (Real.pi / 2) 2 1 599584916 299792458 (time_H 0 2)
      ≠ (spec_envelope_pulsed (Real.pi / 2) 2 1 ((((0 : Int) : ℝ) + 0.5) * 2)).re := by
  have ht : time_H (0 : Int) (2 : ℝ) = 1 := by
    rw [time_H_eq]; norm_num
  have ht2 : ((((0 : Int) : ℝ) + 0.5) * 2) = 1 := by norm_num
  have hI : ((-Complex.I) *
      Complex.exp (-Complex.I * ((Real.pi / 2 : ℝ) : ℂ) * (((1 : ℝ) : ℂ) - ((2 : ℝ) : ℂ)))).re
      = 1 := by
    have h : -Complex.I * ((Real.pi / 2 : ℝ) : ℂ) * (((1 : ℝ) : ℂ) - ((2 : ℝ) : ℂ))
        = (Real.pi / 2 : ℂ) * Complex.I := by
      push_cast
      ring
    rw [h, Complex.exp_mul_I, Complex.cos_pi_div_two, Complex.sin_pi_div_two]
    simp
  have hcode : H_ft_pulsed (Real.pi / 2) 2 1 599584916 299792458 (time_H 0 2) = 1 := by
    rw [ht, H_ft_pulsed_eq, hI]
    norm_num
  have hspec : (spec_envelope_pulsed (Real.pi / 2) 2 1 ((((0 : Int) : ℝ) + 0.5) * 2)).re
      = Real.exp (-Real.pi) := by
    rw [ht2, spec_envelope_pulsed_re, hI]
    norm_num
  refine ⟨hcode, hspec, ?_⟩
  rw [hcode, hspec]
  have : Real.exp (-Real.pi) < 1 := by
    rw [Real.exp_lt_one_iff]
    linarith [Real.pi_pos]
  exact ne_of_gt this

section RampProofs

variable {R : Type} [LinearOrderedField R]

/-- C12: for `W * T > 0`, `linearRamp t T W = min 1 (t / (W * T))`; hence the ramp is 0 at
`t = 0`, 1 at `t = W * T` and beyond, and monotone non-decreasing in `t`. -/
theorem C12_linearRamp (t T W : R) (h : 0 < W * T) :
    linearRamp t T W = min 1 (t / (W * T)) ∧
    linearRamp 0 T W = 0 ∧
    linearRamp (W * T) T W = 1 ∧
    (∀ s : R, W * T < s → linearRamp s T W = 1) ∧
    (∀ s u : R, s ≤ u → linearRamp s T W ≤ linearRamp u T W) := by
  have hTW : T * W = W * T := mul_comm T W
  have key : ∀ s : R, linearRamp s T W = min 1 (s / (W * T)) := by
    intro s
    unfold linearRamp
    rw [hTW]
    split_ifs with hs
    · rw [min_eq_left]
      rw [le_div_iff₀ h]
      linarith
    · rw [min_eq_right]
      rw [div_le_iff₀ h]
      linarith
  refine ⟨key t, ?_, ?_, ?_, ?_⟩
  · rw [key]; simp
  · rw [key, div_self (ne_of_gt h)]; simp
  · intro s hs
    rw [key, min_eq_left]
    rw [le_div_iff₀ h]
    linarith
  · intro s u hsu
    rw [key, key]
    exact min_le_min le_rfl (div_le_div_of_nonneg_right hsu (le_of_lt h))

end RampProofs

/-- C12 at `t = 3`, period `T = 2`, ramp width `W = 4`. -/
theorem C12_linearRamp_witness :
    (0 : ℚ) < 4 * 2 ∧ linearRamp (3 : ℚ) 2 4 = min 1 (3 / (4 * 2)) :=
  ⟨by norm_num, (C12_linearRamp (3 : ℚ) 2 4 (by norm_num)).1⟩

/-- C14: in a steady-state run in complete mode, for `Nt >= 0` and `Nsteps >= 1`, `Nt` is
replaced by the largest multiple of `Nsteps` not exceeding it: the new value is a multiple
of `Nsteps`, at most `Nt`, less than `Nsteps` below `Nt`, 0 when `Nt < Nsteps`, and equal to
`Nt` when `Nt` is a multiple of `Nsteps` already. -/
theorem C14_round_Nt (Nt Nsteps : Int) (hNt : 0 ≤ Nt) (hN : 1 ≤ Nsteps) :
    Nsteps ∣ round_Nt true true Nt Nsteps ∧
    round_Nt true true Nt Nsteps ≤ Nt ∧
    Nt - round_Nt true true Nt Nsteps < Nsteps ∧
    (∀ m : Int, Nsteps ∣ m → m ≤ Nt → m ≤ round_Nt true true Nt Nsteps) ∧
    (Nt < Nsteps → round_Nt true true Nt Nsteps = 0) ∧
    (Nsteps ∣ Nt → round_Nt true true Nt Nsteps = Nt) := by
  have hpos : 0 < Nsteps := by omega
  have hne : Nsteps ≠ 0 := by omega
  have hr : round_Nt true true Nt Nsteps = Nt / Nsteps * Nsteps := by
    unfold round_Nt
    rw [Int.tdiv_eq_ediv hNt (by omega)]
    simp only [Bool.and_self, if_true]
    split_ifs with h
    · rfl
    · push_neg at h; exact h.symm
  rw [hr]
  have h1 : Nt / Nsteps * Nsteps ≤ Nt := Int.ediv_mul_le Nt hne
  have h2 : Nt < (Nt / Nsteps + 1) * Nsteps := Int.lt_ediv_add_one_mul_self Nt hpos
  refine ⟨Dvd.intro_left _ rfl, h1, ?_, ?_, ?_, ?_⟩
  · have : (Nt / Nsteps + 1) * Nsteps = Nt / Nsteps * Nsteps + Nsteps := by ring
    omega
  · rintro m ⟨c, rfl⟩ hm
    have hc : c ≤ Nt / Nsteps := by
      rw [Int.le_ediv_iff_mul_le hpos]
      rw [mul_comm]; exact hm
    calc Nsteps * c = c * Nsteps := mul_comm _ _
      _ ≤ Nt / Nsteps * Nsteps := Int.mul_le_mul_of_nonneg_right hc (le_of_lt hpos)
  · intro hlt
    rw [Int.ediv_eq_zero_of_lt hNt hlt]; simp
  · intro hd
    exact Int.ediv_mul_cancel hd

/-- C14 at `Nt = 7`, `Nsteps = 3`: the new value is 6. -/
theorem C14_round_Nt_witness :
    (0 : Int) ≤ 7 ∧ (1 : Int) ≤ 3 ∧ round_Nt true true 7 3 = 6 ∧ round_Nt true true 7 3 ≤ 7 :=
  ⟨by decide, by decide, by decide, (C14_round_Nt 7 3 (by decide) (by decide)).2.1⟩

/-! ## Interpolation schemes -/

section InterpolationProofs

variable {R : Type} [LinearOrderedField R]

theorem fourPointScheme_interpolate (a0 a1 a2 a3 : R) (left : Nat) (v : Nat → R) :
    (fourPointScheme a0 a1 a2 a3 left).interpolate v
      = a0 * v 0 + a1 * v 1 + a2 * v 2 + a3 * v 3 := by
  simp [InterpolationScheme.interpolate, fourPointScheme, List.range_succ]
  ring

/-- A four-sample scheme that reproduces `1`, `x`, `x^2` and `x^3` at the point `h` from
the samples at 0, 1, 2, 3 has the Lagrange weights of `h` as its coefficients. -/
theorem cubic_coefficients_forced (a0 a1 a2 a3 h : R) (left : Nat)
    (hex : ∀ c0 c1 c2 c3 : R,
      (fourPointScheme a0 a1 a2 a3 left).interpolate (fun n => cubicPoly c0 c1 c2 c3 (n : R))
        = cubicPoly c0 c1 c2 c3 h) :
    a0 = -(h - 1) * (h - 2) * (h - 3) / 6 ∧ a1 = h * (h - 2) * (h - 3) / 2 ∧
    a2 = -h * (h - 1) * (h - 3) / 2 ∧ a3 = h * (h - 1) * (h - 2) / 6 := by
  have e0 := hex 1 0 0 0
  have e1 := hex 0 1 0 0
  have e2 := hex 0 0 1 0
  have e3 := hex 0 0 0 1
  rw [fourPointScheme_interpolate] at e0 e1 e2 e3
  simp only [cubicPoly] at e0 e1 e2 e3
  norm_num at e0 e1 e2 e3
  refine ⟨?_, ?_, ?_, ?_⟩
  · linear_combination e0 - (e3 - 5 * e2 + 6 * e1) / 2 + (e3 - 4 * e2 + 3 * e1) / 2
      - (e3 - 3 * e2 + 2 * e1) / 6
  · linear_combination (e3 - 5 * e2 + 6 * e1) / 2
  · linear_combination -(e3 - 4 * e2 + 3 * e1) / 2
  · linear_combination (e3 - 3 * e2 + 2 * e1) / 6

/-- The three cubic schemes are four-sample schemes with the weights that
`cubic_coefficients_forced` gives for `h = 1/2`, `3/2`, `5/2`. -/
theorem cubic_schemes_eq :
    (CBFst : InterpolationScheme R) = fourPointScheme (5 / 16) (15 / 16) (-5 / 16) (1 / 16) 0 ∧
    (CBMid : InterpolationScheme R) = fourPointScheme (-1 / 16) (9 / 16) (9 / 16) (-1 / 16) 1 ∧
    (CBLst : InterpolationScheme R) = fourPointScheme (1 / 16) (-5 / 16) (15 / 16) (5 / 16) 2 :=
  ⟨rfl, rfl, rfl⟩

/-- C20: the cubic schemes are exact on cubics: for every polynomial `p` of degree at most 3
and the samples `p(0), p(1), p(2), p(3)`, `CBFst.interpolate` returns `p(0.5)`,
`CBMid.interpolate` returns `p(1.5)` and `CBLst.interpolate` returns `p(2.5)`. -/
theorem C20_cubic_interpolation_exact (c0 c1 c2 c3 : R) :
    (CBFst : InterpolationScheme R).interpolate (fun n => cubicPoly c0 c1 c2 c3 (n : R))
      = cubicPoly c0 c1 c2 c3 (1 / 2) ∧
    (CBMid : InterpolationScheme R).interpolate (fun n => cubicPoly c0 c1 c2 c3 (n : R))
      = cubicPoly c0 c1 c2 c3 (3 / 2) ∧
    (CBLst : InterpolationScheme R).interpolate (fun n => cubicPoly c0 c1 c2 c3 (n : R))
      = cubicPoly c0 c1 c2 c3 (5 / 2) := by
  refine ⟨?_, ?_, ?_⟩
  · simp [InterpolationScheme.interpolate, CBFst, cubicPoly, List.range_succ]
    ring
  · simp [InterpolationScheme.interpolate, CBMid, cubicPoly, List.range_succ]
    ring
  · simp [InterpolationScheme.interpolate, CBLst, cubicPoly, List.range_succ]
    ring

end InterpolationProofs

/-! ## Per-cell parameters without interpolation -/

section NoInterpProofs

variable {R : Type} [LinearOrderedField R]

theorem selectDisp_eq (p : SimParams R) (kl : Int) (m0 m1 : Nat)
    (hd : (p.is_disp || p.is_disp_ml) = true) :
    selectDisp p kl m0 m1 =
      if m0 ≠ 0 ∨ m1 ≠ 0 then
        (((spec_dispOwn p kl m0).1 + (spec_dispOwn p kl m1).1) / 2,
         ((spec_dispOwn p kl m0).2.1 + (spec_dispOwn p kl m1).2.1) / 2,
         ((spec_dispOwn p kl m0).2.2 + (spec_dispOwn p kl m1).2.2) / 2)
      else (p.ml.alpha kl, p.ml.beta kl, p.ml.gamma kl) := by
  unfold selectDisp spec_dispOwn
  rw [if_pos hd]
  by_cases h0 : m0 = 0 <;> by_cases h1 : m1 = 0 <;> simp [h0, h1]

/-- The parameters of the six kernels of the 3D/TE branch when the interpolation flag is
not set. -/
theorem cellCoeffs3D_without_interpolation (p : SimParams R) (ax : XYZVectors R → Int → R)
    (ind kl : Int) (m0 m1 : Nat) (hflag : p.interp_mat_props = false) :
    (⟨(cellCoeffs3D p ax ind kl m0 m1).Ca, (cellCoeffs3D p ax ind kl m0 m1).Cb,
        (cellCoeffs3D p ax ind kl m0 m1).Cc⟩ : Triple R) = spec_base p ax ind m0 ∧
    ((p.is_disp || p.is_disp_ml) = true →
      (cellCoeffs3D p ax ind kl m0 m1).kappa_l = ax p.ml.kappa ind ∧
      (cellCoeffs3D p ax ind kl m0 m1).sigma_l = ax p.ml.sigma ind ∧
      ((cellCoeffs3D p ax ind kl m0 m1).alpha_l, (cellCoeffs3D p ax ind kl m0 m1).beta_l,
          (cellCoeffs3D p ax ind kl m0 m1).gamma_l) =
        if m0 ≠ 0 ∨ m1 ≠ 0 then
          (((spec_dispOwn p kl m0).1 + (spec_dispOwn p kl m1).1) / 2,
           ((spec_dispOwn p kl m0).2.1 + (spec_dispOwn p kl m1).2.1) / 2,
           ((spec_dispOwn p kl m0).2.2 + (spec_dispOwn p kl m1).2.2) / 2)
        else spec_dispOwn p kl m0) ∧
    (cellCoeffs3D p ax ind kl m0 m1).rho =
      (if m0 ≠ 0 ∨ m1 ≠ 0 then 0 else if p.is_cond then ax p.rho_cond ind else 0) := by
  refine ⟨?_, ?_, ?_⟩
  · simp only [cellCoeffs3D, selectCoeffs, spec_base, hflag]
    by_cases h0 : m0 = 0 <;> by_cases h1 : m1 = 0 <;> simp [h0, h1]
  · intro hd
    refine ⟨?_, ?_, ?_⟩
    · simp only [cellCoeffs3D, hd, if_true]
    · simp only [cellCoeffs3D, hd, if_true]
    · simp only [cellCoeffs3D]
      rw [selectDisp_eq p _ _ _ hd]
      by_cases h0 : m0 = 0 <;> by_cases h1 : m1 = 0 <;> simp [h0, h1, spec_dispOwn]
  · simp only [cellCoeffs3D, selectCoeffs]
    by_cases h0 : m0 = 0 <;> by_cases h1 : m1 = 0 <;> simp [h0, h1]

/-- C19, as amended: with the interpolation flag not set, in every E kernel `Ca`, `Cb`, `Cc`
are those of the cell's own material index (the background tables for index 0) whatever the
neighbour is, and `kappa`, `sigma` are the multilayer entries at the cell.  In the TM-branch
`E_s.zx` kernel `alpha`, `beta`, `gamma` are the cell's own as well, and in both TM-branch
kernels `rho` is the cell's own.  But in the six kernels of the 3D/TE branch, in a
dispersive run, `alpha`, `beta`, `gamma` are the mean of the cell's own values and those of
the axis-next neighbour whenever one of the two indices is non-zero, and `rho` is 0
whenever one of the two indices is non-zero.  Nothing is said of `alpha`, `beta`, `gamma`
in the TM-branch `E_s.zy` kernel. -/
theorem C19_parameters_without_interpolation (p : SimParams R) (v : EKernel) (k j i : Int)
    (hflag : p.interp_mat_props = false) :
    (⟨(v.cellCoeffs p k j i).Ca, (v.cellCoeffs p k j i).Cb, (v.cellCoeffs p k j i).Cc⟩ :
        Triple R) = spec_base p v.axis (v.index p k j i) (p.materials k j i) ∧
    ((p.is_disp || p.is_disp_ml) = true →
      (v.cellCoeffs p k j i).kappa_l = v.axis p.ml.kappa (v.index p k j i) ∧
      (v.cellCoeffs p k j i).sigma_l = v.axis p.ml.sigma (v.index p k j i) ∧
      (v ≠ EKernel.zyTM →
        ((v.cellCoeffs p k j i).alpha_l, (v.cellCoeffs p k j i).beta_l,
            (v.cellCoeffs p k j i).gamma_l) =
          if v ≠ EKernel.zxTM ∧ (p.materials k j i ≠ 0 ∨ v.neighbour p k j i ≠ 0) then
            (((spec_dispOwn p (k_loc p k i) (p.materials k j i)).1
                + (spec_dispOwn p (k_loc p k i) (v.neighbour p k j i)).1) / 2,
             ((spec_dispOwn p (k_loc p k i) (p.materials k j i)).2.1
                + (spec_dispOwn p (k_loc p k i) (v.neighbour p k j i)).2.1) / 2,
             ((spec_dispOwn p (k_loc p k i) (p.materials k j i)).2.2
                + (spec_dispOwn p (k_loc p k i) (v.neighbour p k j i)).2.2) / 2)
          else spec_dispOwn p (k_loc p k i) (p.materials k j i))) ∧
    (v.cellCoeffs p k j i).rho =
      (if p.materials k j i ≠ 0 ∨
          (v ≠ EKernel.zxTM ∧ v ≠ EKernel.zyTM ∧ v.neighbour p k j i ≠ 0) then 0
       else if p.is_cond then
         (if v = EKernel.zxTM then p.rho_cond.x i
          else v.axis p.rho_cond (v.index p k j i))
       else 0) := by
  by_cases hx : v = EKernel.zxTM
  · subst hx
    refine ⟨?_, ?_, ?_⟩
    · simp only [EKernel.cellCoeffs, cellCoeffs_zxTM, spec_base, EKernel.axis, EKernel.index]
      by_cases h0 : p.materials k j i = 0 <;> simp [h0]
    · intro hd
      refine ⟨?_, ?_, ?_⟩
      · simp only [EKernel.cellCoeffs, cellCoeffs_zxTM, hd, if_true, EKernel.axis,
          EKernel.index]
      · simp only [EKernel.cellCoeffs, cellCoeffs_zxTM, hd, if_true, EKernel.axis,
          EKernel.index]
      · intro _
        simp only [EKernel.cellCoeffs, cellCoeffs_zxTM, hd, if_true, spec_dispOwn]
        by_cases h0 : p.materials k j i = 0 <;> simp [h0]
    · simp only [EKernel.cellCoeffs, cellCoeffs_zxTM]
      by_cases h0 : p.materials k j i = 0 <;> simp [h0]
  by_cases hy : v = EKernel.zyTM
  · subst hy
    refine ⟨?_, ?_, ?_⟩
    · simp only [EKernel.cellCoeffs, cellCoeffs_zyTM, spec_base, EKernel.axis, EKernel.index]
      by_cases h0 : p.materials k j i = 0 <;> simp [h0]
    · intro hd
      refine ⟨?_, ?_, ?_⟩
      · simp only [EKernel.cellCoeffs, cellCoeffs_zyTM, hd, if_true, EKernel.axis,
          EKernel.index]
      · simp only [EKernel.cellCoeffs, cellCoeffs_zyTM, hd, if_true, EKernel.axis,
          EKernel.index]
      · intro h
        exact absurd rfl h
    · simp only [EKernel.cellCoeffs, cellCoeffs_zyTM, EKernel.axis, EKernel.index]
      by_cases h0 : p.materials k j i = 0 <;> simp [h0]
  have hc : v.cellCoeffs p k j i = cellCoeffs3D p v.axis (v.index p k j i) (k_loc p k i)
      (p.materials k j i) (v.neighbour p k j i) := by
    cases v <;> simp_all [EKernel.cellCoeffs]
  obtain ⟨h1, h2, h3⟩ := cellCoeffs3D_without_interpolation p v.axis (v.index p k j i)
    (k_loc p k i) (p.materials k j i) (v.neighbour p k j i) hflag
  rw [hc]
  refine ⟨h1, ?_, ?_⟩
  · intro hd
    obtain ⟨ha, hb, hcc⟩ := h2 hd
    refine ⟨ha, hb, fun _ => ?_⟩
    rw [hcc]
    simp [hx]
  · rw [h3]
    simp [hx, hy]

end NoInterpProofs

/-- C19 at two cells of `exParamsNoInterp`, at which the cell `[0][1][1]` has material 1 and
the cells next to it are background.  In the `E_s.xy` kernel at `[0][1][1]` `rho` is 0; in
the TM-branch `E_s.zx` kernel at the background cell `[0][1][0]` the parameters
`alpha`, `beta`, `gamma` are the cell's own multilayer values `1, 2, 4`. -/
theorem C19_parameters_without_interpolation_witness :
    exParamsNoInterp.interp_mat_props = false ∧
    (EKernel.xy.cellCoeffs exParamsNoInterp 0 1 1).rho =
      (if exParamsNoInterp.materials 0 1 1 ≠ 0 ∨
          (EKernel.xy ≠ EKernel.zxTM ∧ EKernel.xy ≠ EKernel.zyTM ∧
            EKernel.xy.neighbour exParamsNoInterp 0 1 1 ≠ 0) then 0
       else if exParamsNoInterp.is_cond then
         (if EKernel.xy = EKernel.zxTM then exParamsNoInterp.rho_cond.x 1
          else EKernel.xy.axis exParamsNoInterp.rho_cond
            (EKernel.xy.index exParamsNoInterp 0 1 1))
       else 0) ∧
    (EKernel.xy.cellCoeffs exParamsNoInterp 0 1 1).rho = 0 ∧
    (EKernel.zxTM.cellCoeffs exParamsNoInterp 0 1 0).alpha_l = 1 ∧
    (EKernel.zxTM.cellCoeffs exParamsNoInterp 0 1 0).beta_l = 2 ∧
    (EKernel.zxTM.cellCoeffs exParamsNoInterp 0 1 0).gamma_l = 4 := by
  refine ⟨rfl,
    (C19_parameters_without_interpolation exParamsNoInterp EKernel.xy 0 1 1 rfl).2.2,
    ?_, ?_, ?_, ?_⟩ <;>
  norm_num [EKernel.cellCoeffs, cellCoeffs3D, selectCoeffs, cellCoeffs_zxTM, exParamsNoInterp,
    exParams, EKernel.neighbour, k_loc]

/-- C19 fails as stated: with the interpolation flag off, the background cell `[0][1][0]` of
`exParamsNoInterp`, whose neighbour `[0][1][1]` has material 1, gets
`alpha_l = 2`, `beta_l = 3`, `gamma_l = 5` in the `E_s.xy` kernel, the means of its own
multilayer values `1, 2, 4` and the values `3, 4, 6` of material 1. -/
theorem C19_counterexample :
    exParamsNoInterp.interp_mat_props = false ∧
    exParamsNoInterp.materials 0 1 0 = 0 ∧ exParamsNoInterp.materials 0 1 1 = 1 ∧
    spec_dispOwn exParamsNoInterp (k_loc exParamsNoInterp 0 0) 0 = (1, 2, 4) ∧
    (EKernel.xy.cellCoeffs exParamsNoInterp 0 1 0).alpha_l = 2 ∧
    (EKernel.xy.cellCoeffs exParamsNoInterp 0 1 0).beta_l = 3 ∧
    (EKernel.xy.cellCoeffs exParamsNoInterp 0 1 0).gamma_l = 5 ∧
    (EKernel.xy.cellCoeffs exParamsNoInterp 0 1 0).alpha_l
      ≠ (spec_dispOwn exParamsNoInterp (k_loc exParamsNoInterp 0 0) 0).1 := by
  refine ⟨rfl, by decide, by decide, ?_, ?_, ?_, ?_, ?_⟩
  · norm_num [spec_dispOwn, exParamsNoInterp, exParams]
  all_goals
    norm_num [EKernel.cellCoeffs, cellCoeffs3D, selectDisp, exParamsNoInterp, exParams,
      EKernel.neighbour, k_loc, spec_dispOwn]

/-! ## Loops -/

theorem forRange_of_le {σ : Type} (lo hi : Int) (body : Int → σ → σ) (s : σ) (h : hi ≤ lo) :
    forRange lo hi body s = s := by
  unfold forRange
  have : (hi - lo).toNat = 0 := by omega
  rw [this]
  rfl

theorem forRange_foldl_idx {σ : Type} (lo : Int) (body : Int → σ → σ) (P : Int → σ → Prop)
    (m : Nat) (s : σ) (h0 : P lo s)
    (hstep : ∀ n s, lo ≤ n → n < lo + (m : Int) → P n s → P (n + 1) (body n s)) :
    P (lo + (m : Int))
      ((List.range m).foldl (fun (s : σ) (n : Nat) => body (lo + (n : Int)) s) s) := by
  induction m with
  | zero => simpa using h0
  | succ m ih =>
    rw [List.range_succ, List.foldl_append]
    have ih' := ih (fun n s h1 h2 hp => hstep n s h1 (by push_cast; omega) hp)
    have := hstep (lo + (m : Int)) _ (by omega) (by push_cast; omega) ih'
    simpa [add_assoc] using this

/-- A property that depends on the loop counter: it holds after the loop if it holds before
and every iteration carries it from `n` to `n + 1`. -/
theorem forRange_idx {σ : Type} (lo hi : Int) (body : Int → σ → σ) (P : Int → σ → Prop)
    (s : σ) (hle : lo ≤ hi) (h0 : P lo s)
    (hstep : ∀ n s, lo ≤ n → n < hi → P n s → P (n + 1) (body n s)) :
    P hi (forRange lo hi body s) := by
  unfold forRange
  have hm : lo + (((hi - lo).toNat : Nat) : Int) = hi := by omega
  have := forRange_foldl_idx lo body P (hi - lo).toNat s h0
    (fun n s h1 h2 hp => hstep n s h1 (by omega) hp)
  rwa [hm] at this

/-- A loop invariant: it holds after the loop if it holds before and every iteration
preserves it. -/
theorem forRange_inv {σ : Type} (lo hi : Int) (body : Int → σ → σ) (P : σ → Prop)
    (s : σ) (h0 : P s) (hstep : ∀ n s, lo ≤ n → n < hi → P s → P (body n s)) :
    P (forRange lo hi body s) := by
  by_cases hle : lo ≤ hi
  · exact forRange_idx lo hi body (fun _ s => P s) s hle h0 hstep
  · rw [forRange_of_le lo hi body s (by omega)]
    exact h0

/-! ## The plane phasors -/

theorem accumulate_row (body : Int → PlanePhasors → PlanePhasors) (touched : PlaneArray → Prop)
    [DecidablePred touched] (d : PlaneArray → Int → ℝ) (j : Int)
    (hbody : ∀ i P a j' i', body i P a j' i' =
      if touched a ∧ j' = j ∧ i' = i then P a j' i' + d a i else P a j' i')
    (ilo ihi : Int) (P : PlanePhasors) (a : PlaneArray) (j' i' : Int) :
    forRange ilo ihi body P a j' i' =
      if touched a ∧ j' = j ∧ ilo ≤ i' ∧ i' < ihi then P a j' i' + d a i' else P a j' i' := by
  by_cases hle : ilo ≤ ihi
  · have h := forRange_idx ilo ihi body
      (fun n s => ∀ a j' i', s a j' i' =
        if touched a ∧ j' = j ∧ ilo ≤ i' ∧ i' < n then P a j' i' + d a i' else P a j' i')
      P hle
      (by
        intro a j' i'
        rw [if_neg]
        intro h
        omega)
      (by
        intro n s h1 h2 hs a j' i'
        rw [hbody, hs]
        by_cases ht : touched a
        · by_cases hj : j' = j
          · by_cases hi : i' = n
            · subst hi
              have h3 : ¬ (touched a ∧ j' = j ∧ ilo ≤ i' ∧ i' < i') := by
                intro h; omega
              have h4 : touched a ∧ j' = j ∧ ilo ≤ i' ∧ i' < i' + 1 :=
                ⟨ht, hj, h1, by omega⟩
              rw [if_pos ⟨ht, hj, rfl⟩, if_neg h3, if_pos h4]
            · have h3 : ¬ (touched a ∧ j' = j ∧ i' = n) := fun h => hi h.2.2
              rw [if_neg h3]
              by_cases h5 : ilo ≤ i' ∧ i' < n
              · rw [if_pos ⟨ht, hj, h5.1, h5.2⟩, if_pos ⟨ht, hj, h5.1, by omega⟩]
              · have h6 : ¬ (touched a ∧ j' = j ∧ ilo ≤ i' ∧ i' < n) :=
                  fun h => h5 ⟨h.2.2.1, h.2.2.2⟩
                have h7 : ¬ (touched a ∧ j' = j ∧ ilo ≤ i' ∧ i' < n + 1) := by
                  intro h
                  apply h5
                  refine ⟨h.2.2.1, ?_⟩
                  have := h.2.2.2
                  omega
                rw [if_neg h6, if_neg h7]
          · have h3 : ¬ (touched a ∧ j' = j ∧ i' = n) := fun h => hj h.2.1
            have h6 : ¬ (touched a ∧ j' = j ∧ ilo ≤ i' ∧ i' < n) := fun h => hj h.2.1
            have h7 : ¬ (touched a ∧ j' = j ∧ ilo ≤ i' ∧ i' < n + 1) := fun h => hj h.2.1
            rw [if_neg h3, if_neg h6, if_neg h7]
        · have h3 : ¬ (touched a ∧ j' = j ∧ i' = n) := fun h => ht h.1
          have h6 : ¬ (touched a ∧ j' = j ∧ ilo ≤ i' ∧ i' < n) := fun h => ht h.1
          have h7 : ¬ (touched a ∧ j' = j ∧ ilo ≤ i' ∧ i' < n + 1) := fun h => ht h.1
          rw [if_neg h3, if_neg h6, if_neg h7])
    exact h a j' i'
  · rw [forRange_of_le ilo ihi body P (by omega), if_neg]
    intro h
    omega

theorem accumulate_nest (body : Int → Int → PlanePhasors → PlanePhasors)
    (touched : PlaneArray → Prop) [DecidablePred touched] (d : PlaneArray → Int → Int → ℝ)
    (hbody : ∀ j i P a j' i', body j i P a j' i' =
      if touched a ∧ j' = j ∧ i' = i then P a j' i' + d a j i else P a j' i')
    (jlo jhi ilo ihi : Int) (P : PlanePhasors) (a : PlaneArray) (j' i' : Int) :
    forRange jlo jhi (fun j => forRange ilo ihi (body j)) P a j' i' =
      if touched a ∧ jlo ≤ j' ∧ j' < jhi ∧ ilo ≤ i' ∧ i' < ihi then P a j' i' + d a j' i'
      else P a j' i' := by
  by_cases hle : jlo ≤ jhi
  · have h := forRange_idx jlo jhi (fun j => forRange ilo ihi (body j))
      (fun n s => ∀ a j' i', s a j' i' =
        if touched a ∧ jlo ≤ j' ∧ j' < n ∧ ilo ≤ i' ∧ i' < ihi then P a j' i' + d a j' i'
        else P a j' i')
      P hle
      (by
        intro a j' i'
        rw [if_neg]
        intro h
        omega)
      (by
        intro n s h1 h2 hs a j' i'
        show forRange ilo ihi (body n) s a j' i' = _
        rw [accumulate_row (body n) touched (fun a i => d a n i) n (hbody n) ilo ihi s a j' i',
          hs]
        by_cases hc : touched a ∧ ilo ≤ i' ∧ i' < ihi
        · obtain ⟨ht, hi1, hi2⟩ := hc
          by_cases hj : j' = n
          · subst hj
            have h3 : ¬ (touched a ∧ jlo ≤ j' ∧ j' < j' ∧ ilo ≤ i' ∧ i' < ihi) := by
              intro h; omega
            rw [if_pos ⟨ht, rfl, hi1, hi2⟩, if_neg h3,
              if_pos ⟨ht, h1, by omega, hi1, hi2⟩]
          · have h3 : ¬ (touched a ∧ j' = n ∧ ilo ≤ i' ∧ i' < ihi) := fun h => hj h.2.1
            rw [if_neg h3]
            by_cases h5 : jlo ≤ j' ∧ j' < n
            · rw [if_pos ⟨ht, h5.1, h5.2, hi1, hi2⟩, if_pos ⟨ht, h5.1, by omega, hi1, hi2⟩]
            · have h6 : ¬ (touched a ∧ jlo ≤ j' ∧ j' < n ∧ ilo ≤ i' ∧ i' < ihi) :=
                fun h => h5 ⟨h.2.1, h.2.2.1⟩
              have h7 : ¬ (touched a ∧ jlo ≤ j' ∧ j' < n + 1 ∧ ilo ≤ i' ∧ i' < ihi) := by
                intro h
                apply h5
                refine ⟨h.2.1, ?_⟩
                have := h.2.2.1
                omega
              rw [if_neg h6, if_neg h7]
        · have h3 : ¬ (touched a ∧ j' = n ∧ ilo ≤ i' ∧ i' < ihi) :=
            fun h => hc ⟨h.1, h.2.2.1, h.2.2.2⟩
          have h6 : ¬ (touched a ∧ jlo ≤ j' ∧ j' < n ∧ ilo ≤ i' ∧ i' < ihi) :=
            fun h => hc ⟨h.1, h.2.2.2.1, h.2.2.2.2⟩
          have h7 : ¬ (touched a ∧ jlo ≤ j' ∧ j' < n + 1 ∧ ilo ≤ i' ∧ i' < ihi) :=
            fun h => hc ⟨h.1, h.2.2.2.1, h.2.2.2.2⟩
          rw [if_neg h3, if_neg h6, if_neg h7])
    exact h a j' i'
  · rw [forRange_of_le jlo jhi _ P (by omega), if_neg]
    intro h
    omega

theorem planeBodyEyHx_apply (E H : SplitField ℝ) (K1 n : Int) (omega dt : ℝ) (Nt : Int)
    (j i : Int) (P : PlanePhasors) (a : PlaneArray) (j' i' : Int) :
    planeBodyEyHx E H K1 n omega dt Nt j i P a j' i' =
      if inEyHx a = true ∧ j' = j ∧ i' = i then
        P a j' i' + planeTermEyHx E H K1 n omega dt Nt a j i
      else P a j' i' := by
  cases a <;> simp [planeBodyEyHx, PlanePhasors.add, inEyHx, planeTermEyHx]

theorem planeBodyExHy_apply (E H : SplitField ℝ) (K1 n : Int) (omega dt : ℝ) (Nt : Int)
    (j i : Int) (P : PlanePhasors) (a : PlaneArray) (j' i' : Int) :
    planeBodyExHy E H K1 n omega dt Nt j i P a j' i' =
      if inExHy a = true ∧ j' = j ∧ i' = i then
        P a j' i' + planeTermExHy E H K1 n omega dt Nt a j i
      else P a j' i' := by
  cases a <;> simp [planeBodyExHy, PlanePhasors.add, inExHy, planeTermExHy]

/-- What `extractPhasorsPlane` leaves in array `a` at `[j][i]`. -/
theorem extractPhasorsPlane_apply (P : PlanePhasors) (E H : SplitField ℝ)
    (I_tot J_tot K1 n : Int) (omega dt : ℝ) (Nt : Int) (a : PlaneArray) (j i : Int) :
    extractPhasorsPlane P E H I_tot J_tot K1 n omega dt Nt a j i =
      if inExHy a = true ∧ 0 ≤ j ∧ j < J_tot + 1 ∧ 0 ≤ i ∧ i < I_tot then
        P a j i + planeTermExHy E H K1 n omega dt Nt a j i
      else if inEyHx a = true ∧ 0 ≤ j ∧ j < J_tot ∧ 0 ≤ i ∧ i < I_tot + 1 then
        P a j i + planeTermEyHx E H K1 n omega dt Nt a j i
      else P a j i := by
  unfold extractPhasorsPlane
  rw [accumulate_nest (planeBodyExHy E H K1 n omega dt Nt) (fun a => inExHy a = true)
    (planeTermExHy E H K1 n omega dt Nt) (planeBodyExHy_apply E H K1 n omega dt Nt)]
  rw [accumulate_nest (planeBodyEyHx E H K1 n omega dt Nt) (fun a => inEyHx a = true)
    (planeTermEyHx E H K1 n omega dt Nt) (planeBodyEyHx_apply E H K1 n omega dt Nt)]
  cases a <;> simp [inExHy, inEyHx]

/-- C18, what the code does: for every `(j, i)` of the plane `extractPhasorsPlane` adds to the
Ex and Ey phasors the term of `E_xy + E_xz` and of `E_yx + E_yz` at `[K1][j][i]`, both halves
at the same cell, but to the Hx phasor the term of `H.xz[K1 - 1][j][i] + H.xy[K1][j][i]` and
to the Hy phasor the term of `H.yz[K1 - 1][j][i] + H.yx[K1][j][i]`: the two halves of the
magnetic components are read at different `k`. -/
theorem C18_extractPhasorsPlane (P : PlanePhasors) (E H : SplitField ℝ)
    (I_tot J_tot K1 n : Int) (omega dt : ℝ) (Nt : Int) (j i : Int) :
    (0 ≤ j ∧ j < J_tot + 1 ∧ 0 ≤ i ∧ i < I_tot →
      extractPhasorsPlane P E H I_tot J_tot K1 n omega dt Nt .lEx_R j i
        = P .lEx_R j i + (planeSubResult (physX E K1 j i) omega n dt Nt).re ∧
      extractPhasorsPlane P E H I_tot J_tot K1 n omega dt Nt .lEx_I j i
        = P .lEx_I j i + (planeSubResult (physX E K1 j i) omega n dt Nt).im ∧
      extractPhasorsPlane P E H I_tot J_tot K1 n omega dt Nt .lHy_R j i
        = P .lHy_R j i
          + (planeSubResult (H .yz (K1 - 1) j i + H .yx K1 j i) omega n dt Nt).re ∧
      extractPhasorsPlane P E H I_tot J_tot K1 n omega dt Nt .lHy_I j i
        = P .lHy_I j i
          + (planeSubResult (H .yz (K1 - 1) j i + H .yx K1 j i) omega n dt Nt).im) ∧
    (0 ≤ j ∧ j < J_tot ∧ 0 ≤ i ∧ i < I_tot + 1 →
      extractPhasorsPlane P E H I_tot J_tot K1 n omega dt Nt .lEy_R j i
        = P .lEy_R j i + (planeSubResult (physY E K1 j i) omega n dt Nt).re ∧
      extractPhasorsPlane P E H I_tot J_tot K1 n omega dt Nt .lEy_I j i
        = P .lEy_I j i + (planeSubResult (physY E K1 j i) omega n dt Nt).im ∧
      extractPhasorsPlane P E H I_tot J_tot K1 n omega dt Nt .lHx_R j i
        = P .lHx_R j i
          + (planeSubResult (H .xz (K1 - 1) j i + H .xy K1 j i) omega n dt Nt).re ∧
      extractPhasorsPlane P E H I_tot J_tot K1 n omega dt Nt .lHx_I j i
        = P .lHx_I j i
          + (planeSubResult (H .xz (K1 - 1) j i + H .xy K1 j i) omega n dt Nt).im) := by
  constructor
  · intro h
    refine ⟨?_, ?_, ?_, ?_⟩ <;>
      simp [extractPhasorsPlane_apply, inExHy, h, planeTermExHy, physX, add_comm]
  · intro h
    refine ⟨?_, ?_, ?_, ?_⟩ <;>
      simp [extractPhasorsPlane_apply, inExHy, inEyHx, h, planeTermEyHx, physY, add_comm]

/-- C18 at a failing input: with `H_s = k` in every component, `I_tot = J_tot = 1`, `K1 = 1`,
`n = 0`, `omega = 0`, `dt = 1`, `Nt = 1` and zero arrays, the Hx phasor at `[0][0]` becomes
`H.xz[0][0][0] + H.xy[1][0][0] = 1`, which is the physical `H_x` neither of the cell
`[1][0][0]` (2) nor of the cell `[0][0][0]` (0). -/
theorem C18_extractPhasorsPlane_witness :
    extractPhasorsPlane (fun _ _ _ => 0) exEplane exHplane 1 1 1 0 0 1 1 .lHx_R 0 0 = 1 ∧
    physX exHplane 1 0 0 = 2 ∧ physX exHplane 0 0 0 = 0 := by
  refine ⟨?_, ?_, ?_⟩
  · rw [((C18_extractPhasorsPlane (fun _ _ _ => 0) exEplane exHplane 1 1 1 0 0 1 1 0 0).2
      (by norm_num)).2.2.1]
    simp [planeSubResult, fmod, exHplane]
  · norm_num [physX, exHplane]
  · norm_num [physX, exHplane]

/-! ## One time step: what keeps a family of components zero -/

section StepProofs

variable {R : Type} [LinearOrderedField R]

theorem forRange_id {σ : Type} (lo hi : Int) (body : Int → σ → σ) (s : σ)
    (h : ∀ n s, lo ≤ n → n < hi → body n s = s) : forRange lo hi body s = s :=
  forRange_inv lo hi body (fun t => t = s) s rfl
    (fun n t h1 h2 ht => by rw [ht]; exact h n s h1 h2)

theorem loop3_inv {σ : Type} (klo khi jlo jhi ilo ihi : Int) (body : Int → Int → Int → σ → σ)
    (P : σ → Prop) (s : σ) (h0 : P s)
    (hstep : ∀ k j i s, klo ≤ k → k < khi → jlo ≤ j → j < jhi → ilo ≤ i → i < ihi →
      P s → P (body k j i s)) :
    P (loop3 klo khi jlo jhi ilo ihi body s) := by
  unfold loop3
  apply forRange_inv _ _ _ P s h0
  intro k s hk1 hk2 hs
  apply forRange_inv _ _ _ P s hs
  intro j s hj1 hj2 hs
  apply forRange_inv _ _ _ P s hs
  intro i s hi1 hi2 hs
  exact hstep k j i s hk1 hk2 hj1 hj2 hi1 hi2 hs

theorem ZeroOn.set {S : Comp → Prop} {F : SplitField R} (h : ZeroOn S F) (c : Comp)
    (k j i : Int) (v : R) (hv : S c → v = 0) : ZeroOn S (F.set c k j i v) := by
  intro c' hc' k' j' i'
  unfold SplitField.set
  split_ifs with h1
  · obtain ⟨rfl, -, -, -⟩ := h1
    exact hv hc'
  · exact h c' hc' k' j' i'

theorem Enp1_FD_zero (p : SimParams R) (q : CellCoeffs R) (delta dH : R) (c : Comp)
    (k j i : Int) (g : Grid R) (SE SH : Comp → Prop) (hg : FamZero SE SH g) (hc : SE c)
    (hdH : dH = 0) : Enp1_FD p q delta dH c k j i g = 0 := by
  unfold Enp1_FD
  simp only [hg.E_s c hc, hg.J_s c hc, hg.J_c c hc, hg.E_nm1 c hc, hg.J_nm1 c hc, hdH]
  split_ifs <;> simp

theorem updateCell_FD_famZero (p : SimParams R) (q : CellCoeffs R) (delta dH : R) (c : Comp)
    (k j i : Int) (g : Grid R) (SE SH : Comp → Prop) (hg : FamZero SE SH g)
    (hdH : SE c → dH = 0) : FamZero SE SH (updateCell_FD p q delta dH c k j i g) := by
  have hE : SE c → Enp1_FD p q delta dH c k j i g = 0 :=
    fun hc => Enp1_FD_zero p q delta dH c k j i g SE SH hg hc (hdH hc)
  unfold updateCell_FD updateAux
  cases hd : dispActive p q <;> cases hcn : condActive p q <;>
    simp only [if_true, if_false, Bool.false_eq_true]
  · exact ⟨hg.E_s.set c k j i _ hE, hg.J_s, hg.J_c, hg.E_nm1, hg.J_nm1, hg.H_s⟩
  · refine ⟨hg.E_s.set c k j i _ hE, hg.J_s, hg.J_c.set c k j i _ ?_, hg.E_nm1, hg.J_nm1,
      hg.H_s⟩
    intro hc
    rw [hE hc, hg.J_c c hc, hg.E_s c hc]
    simp
  · refine ⟨hg.E_s.set c k j i _ hE, hg.J_s.set c k j i _ ?_, hg.J_c,
      hg.E_nm1.set c k j i _ (fun hc => hg.E_s c hc k j i),
      hg.J_nm1.set c k j i _ (fun hc => hg.J_s c hc k j i), hg.H_s⟩
    intro hc
    rw [hE hc, hg.J_s c hc, hg.J_nm1 c hc, hg.E_nm1 c hc, hg.E_s c hc]
    simp
  · refine ⟨hg.E_s.set c k j i _ hE, hg.J_s.set c k j i _ ?_, hg.J_c.set c k j i _ ?_,
      hg.E_nm1.set c k j i _ (fun hc => hg.E_s c hc k j i),
      hg.J_nm1.set c k j i _ (fun hc => hg.J_s c hc k j i), hg.H_s⟩
    · intro hc
      rw [hE hc, hg.J_s c hc, hg.J_nm1 c hc, hg.E_nm1 c hc, hg.E_s c hc]
      simp
    · intro hc
      rw [hE hc, hg.J_c c hc, hg.E_s c hc]
      simp

theorem FDTD_H_famZero (p : SimParams R) (v : HKernel) (k j i : Int) (g : Grid R)
    (SE SH : Comp → Prop) (hg : FamZero SE SH g) (hdE : SH v.comp → v.dE g k j i = 0) :
    FamZero SE SH (FDTD_H p v k j i g) := by
  unfold FDTD_H
  refine ⟨hg.E_s, hg.J_s, hg.J_c, hg.E_nm1, hg.J_nm1, hg.H_s.set _ k j i _ ?_⟩
  intro hc
  simp only [hdE hc, hg.H_s _ hc]
  split_ifs <;> simp

theorem zeroH_famZero (c : Comp) (k j i : Int) (g : Grid R) (SE SH : Comp → Prop)
    (hg : FamZero SE SH g) : FamZero SE SH (zeroH c k j i g) :=
  ⟨hg.E_s, hg.J_s, hg.J_c, hg.E_nm1, hg.J_nm1, hg.H_s.set c k j i 0 (fun _ => rfl)⟩

theorem addSub_zero (plus : Bool) (x : R) : addSub plus x 0 = x := by
  cases plus <;> simp [addSub]

theorem injectE_famZero (p : SimParams R) (c : Comp) (k j i : Int) (b1 b2 b3 : Bool)
    (cb rho kg v : R) (g : Grid R) (SE SH : Comp → Prop) (hg : FamZero SE SH g)
    (hv : SE c → v = 0) : FamZero SE SH (injectE p c k j i b1 b2 b3 cb rho kg v g) := by
  have h1 : ∀ (b : Bool) (F : SplitField R) (m : R), ZeroOn SE F →
      ZeroOn SE (F.set c k j i (addSub b (F c k j i) (m * v))) := by
    intro b F m hF
    apply hF.set
    intro hc
    rw [hv hc, mul_zero, addSub_zero, hF c hc]
  unfold injectE
  cases p.is_cond <;> cases p.is_disp_ml <;>
    simp only [if_true, if_false, Bool.false_eq_true]
  · exact ⟨h1 _ _ _ hg.E_s, hg.J_s, hg.J_c, hg.E_nm1, hg.J_nm1, hg.H_s⟩
  · exact ⟨h1 _ _ _ hg.E_s, h1 _ _ _ hg.J_s, hg.J_c, hg.E_nm1, hg.J_nm1, hg.H_s⟩
  · exact ⟨h1 _ _ _ hg.E_s, hg.J_s, h1 _ _ _ hg.J_c, hg.E_nm1, hg.J_nm1, hg.H_s⟩
  · exact ⟨h1 _ _ _ hg.E_s, h1 _ _ _ hg.J_s, h1 _ _ _ hg.J_c, hg.E_nm1, hg.J_nm1, hg.H_s⟩

theorem injectH_famZero (c : Comp) (k j i : Int) (b : Bool) (db v : R) (g : Grid R)
    (SE SH : Comp → Prop) (hg : FamZero SE SH g) (hv : SH c → v = 0) :
    FamZero SE SH (injectH c k j i b db v g) := by
  refine ⟨hg.E_s, hg.J_s, hg.J_c, hg.E_nm1, hg.J_nm1, hg.H_s.set c k j i _ ?_⟩
  intro hc
  rw [hv hc, mul_zero, addSub_zero, hg.H_s c hc]

end StepProofs

section InjectionProofs

variable {R : Type} [LinearOrderedField R]

theorem reMul_zero (S : SourceTensor R) (s : Int) (h : S.slotZero s) (w_re w_im : R)
    (a b : Int) : S.reMul w_re w_im a b s = 0 := by
  unfold SourceTensor.reMul
  rw [(h a b).1, (h a b).2]
  simp

theorem injE_I_famZero (p : SimParams R) (sp : SourceParams R) (e : Envelope R) (k j : Int)
    (st : Grid R × Int) (SE SH : Comp → Prop) (hq : QuietSources SE SH sp)
    (hm : sp.source_mode = .steadystate) (hg : FamZero SE SH st.1) :
    FamZero SE SH (injE_I p sp e k j st).1 := by
  have z2 := fun hc h => reMul_zero sp.Isource 2 ((hq.I_zx hm hc).1 h)
  have z6 := fun hc h => reMul_zero sp.Isource 6 ((hq.I_zx hm hc).2 h)
  have z3 := fun hc h => reMul_zero sp.Isource 3 ((hq.I_yx hm hc).1 h)
  have z7 := fun hc h => reMul_zero sp.Isource 7 ((hq.I_yx hm hc).2 h)
  unfold injE_I
  dsimp only
  split_ifs <;> (try dsimp only) <;> (repeat' apply injectE_famZero) <;>
    first
    | exact hg
    | (intro hc; first
        | exact z2 hc ‹sp.I0.apply = true› _ _ _ _
        | exact z3 hc ‹sp.I0.apply = true› _ _ _ _
        | exact z6 hc ‹sp.I1.apply = true› _ _ _ _
        | exact z7 hc ‹sp.I1.apply = true› _ _ _ _)

theorem injE_J_famZero (p : SimParams R) (sp : SourceParams R) (e : Envelope R) (k i : Int)
    (st : Grid R × Int) (SE SH : Comp → Prop) (hq : QuietSources SE SH sp)
    (hm : sp.source_mode = .steadystate) (hg : FamZero SE SH st.1) :
    FamZero SE SH (injE_J p sp e k i st).1 := by
  have z2 := fun hc h => reMul_zero sp.Jsource 2 ((hq.J_zy hm hc).1 h)
  have z6 := fun hc h => reMul_zero sp.Jsource 6 ((hq.J_zy hm hc).2 h)
  have z3 := fun hc h => reMul_zero sp.Jsource 3 ((hq.J_xy hm hc).1 h)
  have z7 := fun hc h => reMul_zero sp.Jsource 7 ((hq.J_xy hm hc).2 h)
  unfold injE_J
  dsimp only
  split_ifs <;> (try dsimp only) <;> (repeat' apply injectE_famZero) <;>
    first
    | exact hg
    | (intro hc; first
        | exact z2 hc ‹sp.J0.apply = true› _ _ _ _
        | exact z3 hc ‹sp.J0.apply = true› _ _ _ _
        | exact z6 hc ‹sp.J1.apply = true› _ _ _ _
        | exact z7 hc ‹sp.J1.apply = true› _ _ _ _)

theorem injE_K_famZero (p : SimParams R) (sp : SourceParams R) (e : Envelope R)
    (kstale j i : Int) (g : Grid R) (SE SH : Comp → Prop) (hq : QuietSources SE SH sp)
    (hm : sp.source_mode = .steadystate) (hg : FamZero SE SH g) :
    FamZero SE SH (injE_K p sp e kstale j i g) := by
  have z2 := fun hc h => reMul_zero sp.Ksource 2 ((hq.K_yz hm hc).1 h)
  have z6 := fun hc h => reMul_zero sp.Ksource 6 ((hq.K_yz hm hc).2 h)
  have z3 := fun hc h => reMul_zero sp.Ksource 3 ((hq.K_xz hm hc).1 h)
  have z7 := fun hc h => reMul_zero sp.Ksource 7 ((hq.K_xz hm hc).2 h)
  unfold injE_K
  dsimp only
  split_ifs <;> (repeat' apply injectE_famZero) <;>
    first
    | exact hg
    | (intro hc; first
        | exact z2 hc ‹sp.K0.apply = true› _ _ _ _
        | exact z3 hc ‹sp.K0.apply = true› _ _ _ _
        | exact z6 hc ‹sp.K1.apply = true› _ _ _ _
        | exact z7 hc ‹sp.K1.apply = true› _ _ _ _)

theorem injH_I_famZero (p : SimParams R) (sp : SourceParams R) (e : Envelope R) (k j : Int)
    (st : Grid R × Int) (SE SH : Comp → Prop) (hq : QuietSources SE SH sp)
    (hm : sp.source_mode = .steadystate) (hg : FamZero SE SH st.1) :
    FamZero SE SH (injH_I p sp e k j st).1 := by
  have z0 := fun hc h => reMul_zero sp.Isource 0 ((hq.I_Hzx hm hc).1 h)
  have z4 := fun hc h => reMul_zero sp.Isource 4 ((hq.I_Hzx hm hc).2 h)
  have z1 := fun hc h => reMul_zero sp.Isource 1 ((hq.I_Hyx hm hc).1 h)
  have z5 := fun hc h => reMul_zero sp.Isource 5 ((hq.I_Hyx hm hc).2 h)
  unfold injH_I
  dsimp only
  split_ifs <;> (try dsimp only) <;> (repeat' apply injectH_famZero) <;>
    first
    | exact hg
    | (intro hc; first
        | exact z0 hc ‹sp.I0.apply = true› _ _ _ _
        | exact z1 hc ‹sp.I0.apply = true› _ _ _ _
        | exact z4 hc ‹sp.I1.apply = true› _ _ _ _
        | exact z5 hc ‹sp.I1.apply = true› _ _ _ _)

theorem injH_J_famZero (p : SimParams R) (sp : SourceParams R) (e : Envelope R) (k i : Int)
    (st : Grid R × Int) (SE SH : Comp → Prop) (hq : QuietSources SE SH sp)
    (hm : sp.source_mode = .steadystate) (hg : FamZero SE SH st.1) :
    FamZero SE SH (injH_J p sp e k i st).1 := by
  have z0 := fun hc h => reMul_zero sp.Jsource 0 ((hq.J_Hzy hm hc).1 h)
  have z4 := fun hc h => reMul_zero sp.Jsource 4 ((hq.J_Hzy hm hc).2 h)
  have z1 := fun hc h => reMul_zero sp.Jsource 1 ((hq.J_Hxy hm hc).1 h)
  have z5 := fun hc h => reMul_zero sp.Jsource 5 ((hq.J_Hxy hm hc).2 h)
  unfold injH_J
  dsimp only
  split_ifs <;> (try dsimp only) <;> (repeat' apply injectH_famZero) <;>
    first
    | exact hg
    | (intro hc; first
        | exact z0 hc ‹sp.J0.apply = true› _ _ _ _
        | exact z1 hc ‹sp.J0.apply = true› _ _ _ _
        | exact z4 hc ‹sp.J1.apply = true› _ _ _ _
        | exact z5 hc ‹sp.J1.apply = true› _ _ _ _)

theorem injH_K_famZero (p : SimParams R) (sp : SourceParams R) (e : Envelope R) (j i : Int)
    (g : Grid R) (SE SH : Comp → Prop) (hq : QuietSources SE SH sp)
    (hm : sp.source_mode = .steadystate) (hg : FamZero SE SH g) :
    FamZero SE SH (injH_K p sp e j i g) := by
  have z0 := fun hc h => reMul_zero sp.Ksource 0 ((hq.K_Hyz hm hc).1 h)
  have z4 := fun hc h => reMul_zero sp.Ksource 4 ((hq.K_Hyz hm hc).2 h)
  have z1 := fun hc h => reMul_zero sp.Ksource 1 ((hq.K_Hxz hm hc).1 h)
  have z5 := fun hc h => reMul_zero sp.Ksource 5 ((hq.K_Hxz hm hc).2 h)
  unfold injH_K
  dsimp only
  split_ifs <;> (repeat' apply injectH_famZero) <;>
    first
    | exact hg
    | (intro hc; first
        | exact z0 hc ‹sp.K0.apply = true› _ _ _ _
        | exact z1 hc ‹sp.K0.apply = true› _ _ _ _
        | exact z4 hc ‹sp.K1.apply = true› _ _ _ _
        | exact z5 hc ‹sp.K1.apply = true› _ _ _ _)

theorem inject_E_famZero (p : SimParams R) (sp : SourceParams R) (e : Envelope R)
    (st : Grid R × Int) (SE SH : Comp → Prop) (hq : QuietSources SE SH sp)
    (hg : FamZero SE SH st.1) : FamZero SE SH (inject_E p sp e st).1 := by
  unfold inject_E
  cases hm : sp.source_mode
  · dsimp only
    unfold inject_E_steady
    dsimp only
    apply forRange_inv _ _ _ (fun g : Grid R => FamZero SE SH g)
    · apply forRange_inv _ _ _ (fun s : Grid R × Int => FamZero SE SH s.1)
      · apply forRange_inv _ _ _ (fun s : Grid R × Int => FamZero SE SH s.1) _ hg
        intro k s _ _ hs
        apply forRange_inv _ _ _ (fun s : Grid R × Int => FamZero SE SH s.1) _ hs
        intro j s _ _ hs
        exact injE_I_famZero p sp e k j s SE SH hq hm hs
      · intro k s _ _ hs
        apply forRange_inv _ _ _ (fun s : Grid R × Int => FamZero SE SH s.1) _ hs
        intro i s _ _ hs
        exact injE_J_famZero p sp e k i s SE SH hq hm hs
    · intro j g _ _ hs
      apply forRange_inv _ _ _ (fun g : Grid R => FamZero SE SH g) _ hs
      intro i g _ _ hs
      exact injE_K_famZero p sp e _ j i g SE SH hq hm hs
  · dsimp only
    unfold inject_E_pulsed
    dsimp only
    have hyz : ∀ a j i g, FamZero SE SH g → FamZero SE SH (injE_pulsed_yz p sp e a j i g) := by
      intro a j i g hs
      apply injectE_famZero _ _ _ _ _ _ _ _ _ _ _ _ _ _ _ hs
      intro hc
      rw [reMul_zero sp.Ksource 2 (hq.P_yz hm hc), zero_mul]
    have hxz : ∀ j i g, FamZero SE SH g → FamZero SE SH (injE_pulsed_xz p sp e j i g) := by
      intro j i g hs
      apply injectE_famZero _ _ _ _ _ _ _ _ _ _ _ _ _ _ _ hs
      intro hc
      rw [reMul_zero sp.Ksource 3 (hq.P_xz hm hc), zero_mul]
    apply forRange_inv _ _ _ (fun g : Grid R => FamZero SE SH g)
    · split_ifs
      · apply forRange_inv _ _ _ (fun g : Grid R => FamZero SE SH g) _ hg
        intro i g _ _ hs
        exact hyz _ _ _ _ hs
      · apply forRange_inv _ _ _ (fun g : Grid R => FamZero SE SH g) _ hg
        intro j g _ _ hs
        apply forRange_inv _ _ _ (fun g : Grid R => FamZero SE SH g) _ hs
        intro i g _ _ hs
        exact hyz _ _ _ _ hs
    · intro j g _ _ hs
      apply forRange_inv _ _ _ (fun g : Grid R => FamZero SE SH g) _ hs
      intro i g _ _ hs
      exact hxz _ _ _ hs

theorem inject_H_famZero (p : SimParams R) (sp : SourceParams R) (e : Envelope R) (tind : Int)
    (st : Grid R × Int) (SE SH : Comp → Prop) (hq : QuietSources SE SH sp)
    (hg : FamZero SE SH st.1) : FamZero SE SH (inject_H p sp e tind st).1 := by
  unfold inject_H
  cases hm : sp.source_mode
  · dsimp only
    unfold inject_H_steady
    dsimp only
    apply forRange_inv _ _ _ (fun g : Grid R => FamZero SE SH g)
    · apply forRange_inv _ _ _ (fun s : Grid R × Int => FamZero SE SH s.1)
      · apply forRange_inv _ _ _ (fun s : Grid R × Int => FamZero SE SH s.1) _ hg
        intro k s _ _ hs
        apply forRange_inv _ _ _ (fun s : Grid R × Int => FamZero SE SH s.1) _ hs
        intro j s _ _ hs
        exact injH_I_famZero p sp e k j s SE SH hq hm hs
      · intro k s _ _ hs
        apply forRange_inv _ _ _ (fun s : Grid R × Int => FamZero SE SH s.1) _ hs
        intro i s _ _ hs
        exact injH_J_famZero p sp e k i s SE SH hq hm hs
    · intro j g _ _ hs
      apply forRange_inv _ _ _ (fun g : Grid R => FamZero SE SH g) _ hs
      intro i g _ _ hs
      exact injH_K_famZero p sp e j i g SE SH hq hm hs
  · dsimp only
    unfold inject_H_pulsed
    have hxz : ∀ a j i g, FamZero SE SH g →
        FamZero SE SH (injH_pulsed_xz p sp e tind a j i g) := by
      intro a j i g hs
      unfold injH_pulsed_xz
      dsimp only
      have h1 : FamZero SE SH (injectH .xz (sp.K0.index - 1) j i false
          (p.D.b.z (sp.K0.index - 1))
          (sp.Ksource.reMul e.pulsed_re e.pulsed_im a (i - sp.I0.index) 1 * e.gauss) g) := by
        apply injectH_famZero _ _ _ _ _ _ _ _ _ _ hs
        intro hc
        rw [reMul_zero sp.Ksource 1 (hq.P_Hxz hm hc).1, zero_mul]
      split_ifs with hy
      · apply injectH_famZero _ _ _ _ _ _ _ _ _ _ h1
        intro hc
        exact (hq.P_Hxz hm hc).2 hy _ _ _
      · exact h1
    have hyz : ∀ a j i g, FamZero SE SH g →
        FamZero SE SH (injH_pulsed_yz p sp e tind a j i g) := by
      intro a j i g hs
      unfold injH_pulsed_yz
      dsimp only
      have h1 : FamZero SE SH (injectH .yz (sp.K0.index - 1) j i true
          (p.D.b.z (sp.K0.index - 1))
          (sp.Ksource.reMul e.pulsed_re e.pulsed_im a (i - sp.I0.index) 0 * e.gauss) g) := by
        apply injectH_famZero _ _ _ _ _ _ _ _ _ _ hs
        intro hc
        rw [reMul_zero sp.Ksource 0 (hq.P_Hyz hm hc).1, zero_mul]
      split_ifs with hx
      · apply injectH_famZero _ _ _ _ _ _ _ _ _ _ h1
        intro hc
        exact (hq.P_Hyz hm hc).2 hx _ _ _
      · exact h1
    split_ifs
    · dsimp only
      apply forRange_inv _ _ _ (fun g : Grid R => FamZero SE SH g)
      · apply forRange_inv _ _ _ (fun g : Grid R => FamZero SE SH g) _ hg
        intro i g _ _ hs
        exact hxz _ _ _ _ hs
      · intro i g _ _ hs
        exact hyz _ _ _ _ hs
    · dsimp only
      apply forRange_inv _ _ _ (fun g : Grid R => FamZero SE SH g)
      · apply forRange_inv _ _ _ (fun g : Grid R => FamZero SE SH g) _ hg
        intro j g _ _ hs
        apply forRange_inv _ _ _ (fun g : Grid R => FamZero SE SH g) _ hs
        intro i g _ _ hs
        exact hxz _ _ _ _ hs
      · intro j g _ _ hs
        apply forRange_inv _ _ _ (fun g : Grid R => FamZero SE SH g) _ hs
        intro i g _ _ hs
        exact hyz _ _ _ _ hs

/-- The E update pass keeps a family of components zero if every E kernel does so at each
cell its loop visits; the loops of `E_s.xy` and `E_s.zy` visit only cells with
`1 ≤ j < J_tot`. -/
theorem E_update_FD_famZero (p : SimParams R) (sp : SourceParams R) (g : Grid R)
    (SE SH : Comp → Prop)
    (hE : ∀ (v : EKernel) (k j i : Int) (g : Grid R),
      (v = .xy ∨ v = .zy ∨ v = .zyTM → 1 ≤ j ∧ j < p.J_tot) →
      FamZero SE SH g → FamZero SE SH (FDTD_E p v k j i g))
    (hg : FamZero SE SH g) : FamZero SE SH (E_update_FD p sp g) := by
  have hfree : ∀ (v : EKernel), v ≠ .xy → v ≠ .zy → v ≠ .zyTM →
      ∀ (klo khi jlo jhi ilo ihi : Int) (g : Grid R), FamZero SE SH g →
      FamZero SE SH (loop3 klo khi jlo jhi ilo ihi (FDTD_E p v) g) := by
    intro v h1 h2 h3 klo khi jlo jhi ilo ihi g hg
    apply loop3_inv _ _ _ _ _ _ _ (fun g : Grid R => FamZero SE SH g) _ hg
    intro k j i s _ _ _ _ _ _ hs
    exact hE v k j i s (fun h => by rcases h with h | h | h <;> contradiction) hs
  have hj : ∀ (v : EKernel) (klo khi ilo ihi : Int) (g : Grid R), FamZero SE SH g →
      FamZero SE SH (loop3 klo khi 1 p.J_tot ilo ihi (FDTD_E p v) g) := by
    intro v klo khi ilo ihi g hg
    apply loop3_inv _ _ _ _ _ _ _ (fun g : Grid R => FamZero SE SH g) _ hg
    intro k j i s _ _ hj1 hj2 _ _ hs
    exact hE v k j i s (fun _ => ⟨hj1, hj2⟩) hs
  unfold E_update_FD
  dsimp only
  cases sp.threeOrTE <;> simp only [if_true, if_false, Bool.false_eq_true]
  · exact hj _ _ _ _ _ _ (hfree _ (by decide) (by decide) (by decide) _ _ _ _ _ _ _ hg)
  · apply hj
    apply hfree _ (by decide) (by decide) (by decide)
    apply hfree _ (by decide) (by decide) (by decide)
    apply hfree _ (by decide) (by decide) (by decide)
    apply hfree _ (by decide) (by decide) (by decide)
    exact hj _ _ _ _ _ _ hg

/-- The H update pass keeps a family of components zero if every H kernel does so at each
cell its loop visits; the loops of `H_s.xy` and `H_s.zy` visit only cells with
`0 ≤ j < J_tot`. -/
theorem H_update_FD_famZero (p : SimParams R) (sp : SourceParams R) (g : Grid R)
    (SE SH : Comp → Prop)
    (hH : ∀ (v : HKernel) (k j i : Int) (g : Grid R),
      (v = .xy ∨ v = .zy ∨ v = .xyTM → 0 ≤ j ∧ j < p.J_tot) →
      FamZero SE SH g → FamZero SE SH (FDTD_H p v k j i g))
    (hg : FamZero SE SH g) : FamZero SE SH (H_update_FD p sp g) := by
  have hfree : ∀ (v : HKernel), v ≠ .xy → v ≠ .zy → v ≠ .xyTM →
      ∀ (klo khi jlo jhi ilo ihi : Int) (g : Grid R), FamZero SE SH g →
      FamZero SE SH (loop3 klo khi jlo jhi ilo ihi (FDTD_H p v) g) := by
    intro v h1 h2 h3 klo khi jlo jhi ilo ihi g hg
    apply loop3_inv _ _ _ _ _ _ _ (fun g : Grid R => FamZero SE SH g) _ hg
    intro k j i s _ _ _ _ _ _ hs
    exact hH v k j i s (fun h => by rcases h with h | h | h <;> contradiction) hs
  have hj : ∀ (v : HKernel) (klo khi ilo ihi : Int) (g : Grid R), FamZero SE SH g →
      FamZero SE SH (loop3 klo khi 0 p.J_tot ilo ihi (FDTD_H p v) g) := by
    intro v klo khi ilo ihi g hg
    apply loop3_inv _ _ _ _ _ _ _ (fun g : Grid R => FamZero SE SH g) _ hg
    intro k j i s _ _ hj1 hj2 _ _ hs
    exact hH v k j i s (fun _ => ⟨hj1, hj2⟩) hs
  have hz : ∀ (c : Comp) (klo khi jlo jhi ilo ihi : Int) (g : Grid R), FamZero SE SH g →
      FamZero SE SH (loop3 klo khi jlo jhi ilo ihi (zeroH c) g) := by
    intro c klo khi jlo jhi ilo ihi g hg
    apply loop3_inv _ _ _ _ _ _ _ (fun g : Grid R => FamZero SE SH g) _ hg
    intro k j i s _ _ _ _ _ _ hs
    exact zeroH_famZero c k j i s SE SH hs
  unfold H_update_FD
  dsimp only
  cases sp.threeOrTE <;> simp only [if_true, if_false, Bool.false_eq_true]
  · apply hz
    apply hfree _ (by decide) (by decide) (by decide)
    apply hj
    exact hz _ _ _ _ _ _ _ _ hg
  · apply hfree _ (by decide) (by decide) (by decide)
    apply hj
    apply hfree _ (by decide) (by decide) (by decide)
    apply hfree _ (by decide) (by decide) (by decide)
    apply hj
    exact hfree _ (by decide) (by decide) (by decide) _ _ _ _ _ _ _ hg

theorem timeStep_FD_famZero (p : SimParams R) (sp : SourceParams R) (tind : Int)
    (eH eE : Envelope R) (g : Grid R) (SE SH : Comp → Prop)
    (hE : ∀ (v : EKernel) (k j i : Int) (g : Grid R),
      (v = .xy ∨ v = .zy ∨ v = .zyTM → 1 ≤ j ∧ j < p.J_tot) →
      FamZero SE SH g → FamZero SE SH (FDTD_E p v k j i g))
    (hH : ∀ (v : HKernel) (k j i : Int) (g : Grid R),
      (v = .xy ∨ v = .zy ∨ v = .xyTM → 0 ≤ j ∧ j < p.J_tot) →
      FamZero SE SH g → FamZero SE SH (FDTD_H p v k j i g))
    (hq : QuietSources SE SH sp) (hg : FamZero SE SH g) :
    FamZero SE SH (timeStep_FD p sp tind eH eE g) := by
  unfold timeStep_FD
  dsimp only
  apply inject_H_famZero p sp eE tind _ SE SH hq
  apply H_update_FD_famZero p sp _ SE SH hH
  apply inject_E_famZero p sp eH _ SE SH hq
  exact E_update_FD_famZero p sp g SE SH hE hg

theorem runSteps_FD_famZero (p : SimParams R) (sp : SourceParams R)
    (env : Int → Envelope R × Envelope R) (SE SH : Comp → Prop)
    (hE : ∀ (v : EKernel) (k j i : Int) (g : Grid R),
      (v = .xy ∨ v = .zy ∨ v = .zyTM → 1 ≤ j ∧ j < p.J_tot) →
      FamZero SE SH g → FamZero SE SH (FDTD_E p v k j i g))
    (hH : ∀ (v : HKernel) (k j i : Int) (g : Grid R),
      (v = .xy ∨ v = .zy ∨ v = .xyTM → 0 ≤ j ∧ j < p.J_tot) →
      FamZero SE SH g → FamZero SE SH (FDTD_H p v k j i g))
    (hq : QuietSources SE SH sp) (n : Nat) :
    ∀ (tind : Int) (g : Grid R), FamZero SE SH g →
      FamZero SE SH (runSteps_FD p sp env n tind g) := by
  induction n with
  | zero => intro tind g hg; exact hg
  | succ n ih =>
    intro tind g hg
    unfold runSteps_FD
    exact ih _ _ (timeStep_FD_famZero p sp tind _ _ g SE SH hE hH hq hg)

end InjectionProofs

section FlagProofs

variable {R : Type} [LinearOrderedField R]

/-- C15, as amended: in steady-state mode, if all six apply flags are false, the E-side pass
and the H-side pass of the injector leave every E and H split field, every auxiliary current
(and the variable `array_ind`) unchanged, whatever the source tensors contain. -/
theorem C15_injection_needs_apply_flag (p : SimParams R) (sp : SourceParams R)
    (eH eE : Envelope R) (tind : Int) (st : Grid R × Int)
    (hm : sp.source_mode = .steadystate)
    (hI0 : sp.I0.apply = false) (hI1 : sp.I1.apply = false)
    (hJ0 : sp.J0.apply = false) (hJ1 : sp.J1.apply = false)
    (hK0 : sp.K0.apply = false) (hK1 : sp.K1.apply = false) :
    inject_E p sp eH st = st ∧ inject_H p sp eE tind st = st := by
  constructor
  · unfold inject_E
    rw [hm]
    unfold inject_E_steady
    dsimp only
    rw [forRange_id _ _ _ st (fun k s _ _ => forRange_id _ _ _ s (fun j s _ _ => by
      simp [injE_I, hI0, hI1]))]
    rw [forRange_id _ _ _ st (fun k s _ _ => forRange_id _ _ _ s (fun i s _ _ => by
      simp [injE_J, hJ0, hJ1]))]
    rw [forRange_id _ _ _ st.1 (fun j s _ _ => forRange_id _ _ _ s (fun i s _ _ => by
      simp [injE_K, hK0, hK1]))]
  · unfold inject_H
    rw [hm]
    unfold inject_H_steady
    dsimp only
    rw [forRange_id _ _ _ st (fun k s _ _ => forRange_id _ _ _ s (fun j s _ _ => by
      simp [injH_I, hI0, hI1]))]
    rw [forRange_id _ _ _ st (fun k s _ _ => forRange_id _ _ _ s (fun i s _ _ => by
      simp [injH_J, hJ0, hJ1]))]
    rw [forRange_id _ _ _ st.1 (fun j s _ _ => forRange_id _ _ _ s (fun i s _ _ => by
      simp [injH_K, hK0, hK1]))]

end FlagProofs

/-- C15 at the steady-state source `exSourceSteady`, whose six apply flags are off although
slot 2 of `Ksource` is 1. -/
theorem C15_injection_needs_apply_flag_witness :
    exSourceSteady.source_mode = .steadystate ∧
    inject_E exParams2D exSourceSteady exEnvelope (zeroGrid, 0) = (zeroGrid, 0) ∧
    inject_H exParams2D exSourceSteady exEnvelope 0 (zeroGrid, 0) = (zeroGrid, 0) :=
  ⟨rfl, C15_injection_needs_apply_flag exParams2D exSourceSteady exEnvelope exEnvelope 0
    (zeroGrid, 0) rfl rfl rfl rfl rfl rfl rfl⟩

/-- C15 fails as stated: in pulsed mode with all six apply flags false (`exSourcePulsed`)
the E-side pass changes the zero grid: `E_s.yz[K0][0][0]` becomes minus the envelope value
`pulsed_re * gauss`, which is `-1` for the envelope `exEnvelope`. -/
theorem C15_counterexample :
    exSourcePulsed.I0.apply = false ∧ exSourcePulsed.I1.apply = false ∧
    exSourcePulsed.J0.apply = false ∧ exSourcePulsed.J1.apply = false ∧
    exSourcePulsed.K0.apply = false ∧ exSourcePulsed.K1.apply = false ∧
    (∀ e : Envelope ℚ, (inject_E exParams2D exSourcePulsed e (zeroGrid, 0)).1.E_s .yz 1 0 0
      = -(e.pulsed_re * e.gauss)) ∧
    (inject_E exParams2D exSourcePulsed exEnvelope (zeroGrid, 0)).1.E_s .yz 1 0 0 = -1 ∧
    (zeroGrid : Grid ℚ).E_s .yz 1 0 0 = 0 := by
  have h : ∀ e : Envelope ℚ,
      (inject_E exParams2D exSourcePulsed e (zeroGrid, 0)).1.E_s .yz 1 0 0
        = -(e.pulsed_re * e.gauss) := by
    intro e
    simp [inject_E, inject_E_pulsed, exSourcePulsed, exParams2D, exParams, forRange,
      List.range_succ, injE_pulsed_yz, injE_pulsed_xz, injectE, SplitField.set, addSub,
      SourceTensor.reMul, exTensor, zeroGrid, constXYZ]
  refine ⟨rfl, rfl, rfl, rfl, rfl, rfl, h, ?_, rfl⟩
  rw [h]
  norm_num [exEnvelope]

section FamilyProofs

variable {R : Type} [LinearOrderedField R]

theorem FDTD_E_famZero (p : SimParams R) (v : EKernel) (k j i : Int) (g : Grid R)
    (SE SH : Comp → Prop) (hg : FamZero SE SH g) (hdH : SE v.comp → v.dH g k j i = 0) :
    FamZero SE SH (FDTD_E p v k j i g) :=
  updateCell_FD_famZero p _ _ _ v.comp k j i g SE SH hg hdH

theorem isZero_iff_famZero (g : Grid R) :
    g.IsZero ↔ FamZero (fun _ => True) (fun _ => True) g := by
  constructor
  · intro h
    exact ⟨fun c _ k j i => (h c k j i).1, fun c _ k j i => (h c k j i).2.2.1,
      fun c _ k j i => (h c k j i).2.2.2.1, fun c _ k j i => (h c k j i).2.2.2.2.1,
      fun c _ k j i => (h c k j i).2.2.2.2.2, fun c _ k j i => (h c k j i).2.1⟩
  · intro h c k j i
    exact ⟨h.E_s c trivial k j i, h.H_s c trivial k j i, h.J_s c trivial k j i,
      h.J_c c trivial k j i, h.E_nm1 c trivial k j i, h.J_nm1 c trivial k j i⟩

theorem all_kernels_E (p : SimParams R) (v : EKernel) (k j i : Int) (g : Grid R)
    (hg : FamZero (fun _ => True) (fun _ => True) g) :
    FamZero (fun _ => True) (fun _ => True) (FDTD_E p v k j i g) := by
  apply FDTD_E_famZero p v k j i g _ _ hg
  intro _
  cases v <;> simp [EKernel.dH, hg.H_s _ trivial]

theorem all_kernels_H (p : SimParams R) (v : HKernel) (k j i : Int) (g : Grid R)
    (hg : FamZero (fun _ => True) (fun _ => True) g) :
    FamZero (fun _ => True) (fun _ => True) (FDTD_H p v k j i g) := by
  apply FDTD_H_famZero p v k j i g _ _ hg
  intro _
  cases v <;> simp [HKernel.dE, hg.E_s _ trivial]

theorem quiet_of_zero (sp : SourceParams R) (SE SH : Comp → Prop)
    (hI : ∀ s, sp.Isource.slotZero s) (hJ : ∀ s, sp.Jsource.slotZero s)
    (hK : ∀ s, sp.Ksource.slotZero s)
    (hx : sp.exi_present = true → ∀ t j i, sp.Ei_x t j i = 0)
    (hy : sp.eyi_present = true → ∀ t j i, sp.Ei_y t j i = 0) : QuietSources SE SH sp :=
  { I_zx := fun _ _ => ⟨fun _ => hI 2, fun _ => hI 6⟩
    I_yx := fun _ _ => ⟨fun _ => hI 3, fun _ => hI 7⟩
    J_zy := fun _ _ => ⟨fun _ => hJ 2, fun _ => hJ 6⟩
    J_xy := fun _ _ => ⟨fun _ => hJ 3, fun _ => hJ 7⟩
    K_yz := fun _ _ => ⟨fun _ => hK 2, fun _ => hK 6⟩
    K_xz := fun _ _ => ⟨fun _ => hK 3, fun _ => hK 7⟩
    I_Hzx := fun _ _ => ⟨fun _ => hI 0, fun _ => hI 4⟩
    I_Hyx := fun _ _ => ⟨fun _ => hI 1, fun _ => hI 5⟩
    J_Hzy := fun _ _ => ⟨fun _ => hJ 0, fun _ => hJ 4⟩
    J_Hxy := fun _ _ => ⟨fun _ => hJ 1, fun _ => hJ 5⟩
    K_Hyz := fun _ _ => ⟨fun _ => hK 0, fun _ => hK 4⟩
    K_Hxz := fun _ _ => ⟨fun _ => hK 1, fun _ => hK 5⟩
    P_yz := fun _ _ => hK 2
    P_xz := fun _ _ => hK 3
    P_Hxz := fun _ _ => ⟨hK 1, hy⟩
    P_Hyz := fun _ _ => ⟨hK 0, hx⟩ }

theorem TM_kernels_E (p : SimParams R) (hJ : p.J_tot = 0) (v : EKernel) (k j i : Int)
    (g : Grid R) (hb : v = .xy ∨ v = .zy ∨ v = .zyTM → 1 ≤ j ∧ j < p.J_tot)
    (hg : FamZero isTM_E isTM_H g) : FamZero isTM_E isTM_H (FDTD_E p v k j i g) := by
  have hyx := hg.H_s .yx (Or.inl rfl)
  have hyz := hg.H_s .yz (Or.inr rfl)
  by_cases hv : v = .xy ∨ v = .zy ∨ v = .zyTM
  · exfalso
    have := hb hv
    omega
  · apply FDTD_E_famZero p _ k j i g _ _ hg
    intro hc
    cases v <;> (try simp at hv) <;>
      first
      | (simp [EKernel.dH, hyx, hyz]; done)
      | simp [isTM_E, EKernel.comp] at hc

theorem TM_kernels_H (p : SimParams R) (hJ : p.J_tot = 0) (v : HKernel) (k j i : Int)
    (g : Grid R) (hb : v = .xy ∨ v = .zy ∨ v = .xyTM → 0 ≤ j ∧ j < p.J_tot)
    (hg : FamZero isTM_E isTM_H g) : FamZero isTM_E isTM_H (FDTD_H p v k j i g) := by
  have hxy := hg.E_s .xy (Or.inl rfl)
  have hxz := hg.E_s .xz (Or.inr (Or.inl rfl))
  have hzx := hg.E_s .zx (Or.inr (Or.inr (Or.inl rfl)))
  have hzy := hg.E_s .zy (Or.inr (Or.inr (Or.inr rfl)))
  by_cases hv : v = .xy ∨ v = .zy ∨ v = .xyTM
  · exfalso
    have := hb hv
    omega
  · apply FDTD_H_famZero p _ k j i g _ _ hg
    intro hc
    cases v <;> (try simp at hv) <;>
      first
      | (simp [HKernel.dE, hxy, hxz, hzx, hzy]; done)
      | simp [isTM_H, HKernel.comp] at hc

theorem TE_kernels_E (p : SimParams R) (hJ : p.J_tot = 0) (v : EKernel) (k j i : Int)
    (g : Grid R) (hb : v = .xy ∨ v = .zy ∨ v = .zyTM → 1 ≤ j ∧ j < p.J_tot)
    (hg : FamZero isTE_E isTE_H g) : FamZero isTE_E isTE_H (FDTD_E p v k j i g) := by
  have hxy := hg.H_s .xy (Or.inl rfl)
  have hxz := hg.H_s .xz (Or.inr (Or.inl rfl))
  have hzx := hg.H_s .zx (Or.inr (Or.inr (Or.inl rfl)))
  have hzy := hg.H_s .zy (Or.inr (Or.inr (Or.inr rfl)))
  by_cases hv : v = .xy ∨ v = .zy ∨ v = .zyTM
  · exfalso
    have := hb hv
    omega
  · apply FDTD_E_famZero p _ k j i g _ _ hg
    intro hc
    cases v <;> (try simp at hv) <;>
      first
      | (simp [EKernel.dH, hxy, hxz, hzx, hzy]; done)
      | simp [isTE_E, EKernel.comp] at hc

theorem TE_kernels_H (p : SimParams R) (hJ : p.J_tot = 0) (v : HKernel) (k j i : Int)
    (g : Grid R) (hb : v = .xy ∨ v = .zy ∨ v = .xyTM → 0 ≤ j ∧ j < p.J_tot)
    (hg : FamZero isTE_E isTE_H g) : FamZero isTE_E isTE_H (FDTD_H p v k j i g) := by
  have hyx := hg.E_s .yx (Or.inl rfl)
  have hyz := hg.E_s .yz (Or.inr rfl)
  by_cases hv : v = .xy ∨ v = .zy ∨ v = .xyTM
  · exfalso
    have := hb hv
    omega
  · apply FDTD_H_famZero p _ k j i g _ _ hg
    intro hc
    cases v <;> (try simp at hv) <;>
      first
      | (simp [HKernel.dE, hyx, hyz]; done)
      | simp [isTE_H, HKernel.comp] at hc

end FamilyProofs

theorem zeroGrid_isZero {R : Type} [LinearOrderedField R] : (zeroGrid : Grid R).IsZero :=
  fun _ _ _ _ => ⟨rfl, rfl, rfl, rfl, rfl, rfl⟩

theorem planeSubResult_zero (omega : ℝ) (n : Int) (dt : ℝ) (Nt : Int) :
    planeSubResult 0 omega n dt Nt = 0 := by
  simp [planeSubResult]

theorem extractPhasorsPlane_zero (E H : SplitField ℝ) (hE : ∀ c k j i, E c k j i = 0)
    (hH : ∀ c k j i, H c k j i = 0) (I_tot J_tot K1 n : Int) (omega dt : ℝ) (Nt : Int)
    (a : PlaneArray) (j i : Int) :
    extractPhasorsPlane (fun _ _ _ => 0) E H I_tot J_tot K1 n omega dt Nt a j i = 0 := by
  rw [extractPhasorsPlane_apply]
  cases a <;>
    simp [planeTermExHy, planeTermEyHx, inExHy, inEyHx, hE, hH, planeSubResult_zero]

/-- C17: the all-zero state is a fixed point of a time step when nothing is injected.  Under
the finite-difference solver, if every E and H split field, every auxiliary current and
every previous-step copy is zero and every source-tensor entry and the incident field are
zero, then after one loop iteration (E update, E-side injection, H update, H-side
injection), and after any number of iterations, every array is still zero, and the plane
phasors accumulated from the fields are zero; for all coefficient tables, material maps,
interface boxes, both source modes and all envelope values. -/
theorem C17_zero_state_fixed_point (p : SimParams ℝ) (sp : SourceParams ℝ)
    (env : Int → Envelope ℝ × Envelope ℝ) (g : Grid ℝ)
    (hI : ∀ s, sp.Isource.slotZero s) (hJ : ∀ s, sp.Jsource.slotZero s)
    (hK : ∀ s, sp.Ksource.slotZero s)
    (hx : ∀ t j i, sp.Ei_x t j i = 0) (hy : ∀ t j i, sp.Ei_y t j i = 0) (hg : g.IsZero) :
    (∀ (tind : Int) (eH eE : Envelope ℝ), (timeStep_FD p sp tind eH eE g).IsZero) ∧
    (∀ (n : Nat) (tind : Int), (runSteps_FD p sp env n tind g).IsZero) ∧
    (∀ (n : Nat) (tind I_tot J_tot K1 m : Int) (omega dt : ℝ) (Nt : Int) (a : PlaneArray)
        (j i : Int),
      extractPhasorsPlane (fun _ _ _ => 0) (runSteps_FD p sp env n tind g).E_s
        (runSteps_FD p sp env n tind g).H_s I_tot J_tot K1 m omega dt Nt a j i = 0) := by
  have hq : QuietSources (fun _ => True) (fun _ => True) sp :=
    quiet_of_zero sp _ _ hI hJ hK (fun _ => hx) (fun _ => hy)
  have hg' := (isZero_iff_famZero g).mp hg
  have hrun : ∀ (n : Nat) (tind : Int), (runSteps_FD p sp env n tind g).IsZero := by
    intro n tind
    rw [isZero_iff_famZero]
    exact runSteps_FD_famZero p sp env _ _ (fun v k j i g _ h => all_kernels_E p v k j i g h)
      (fun v k j i g _ h => all_kernels_H p v k j i g h) hq n tind g hg'
  refine ⟨?_, hrun, ?_⟩
  · intro tind eH eE
    rw [isZero_iff_famZero]
    exact timeStep_FD_famZero p sp tind eH eE g _ _
      (fun v k j i g _ h => all_kernels_E p v k j i g h)
      (fun v k j i g _ h => all_kernels_H p v k j i g h) hq hg'
  · intro n tind I_tot J_tot K1 m omega dt Nt a j i
    exact extractPhasorsPlane_zero _ _ (fun c k j i => (hrun n tind c k j i).1)
      (fun c k j i => (hrun n tind c k j i).2.1) _ _ _ _ _ _ _ a j i

/-- C17 at the zero grid with the real coefficients `exParamsReal`, the zero source
`exSourceZero` with every face applied: after two iterations the grid is zero. -/
theorem C17_zero_state_fixed_point_witness :
    (zeroGrid : Grid ℝ).IsZero ∧
    (runSteps_FD exParamsReal exSourceZero exEnvReal 2 0 zeroGrid).IsZero :=
  ⟨zeroGrid_isZero,
    (C17_zero_state_fixed_point exParamsReal exSourceZero exEnvReal zeroGrid
      (fun _ _ _ => ⟨rfl, rfl⟩) (fun _ _ _ => ⟨rfl, rfl⟩) (fun _ _ _ => ⟨rfl, rfl⟩)
      (fun _ _ _ => rfl) (fun _ _ _ => rfl) zeroGrid_isZero).2.1 2 0⟩

theorem exTensor_slotZero (s s' : Int) (v : ℚ) (h : s' ≠ s) : (exTensor s v).slotZero s' :=
  fun _ _ => ⟨by simp [exTensor, h], rfl⟩

theorem exTensor_zero_slotZero (s s' : Int) : (exTensor s 0).slotZero s' :=
  fun _ _ => ⟨by simp [exTensor], rfl⟩

theorem loop3_empty_j {σ : Type} (klo khi jlo jhi ilo ihi : Int)
    (body : Int → Int → Int → σ → σ) (s : σ) (h : jhi ≤ jlo) :
    loop3 klo khi jlo jhi ilo ihi body s = s := by
  unfold loop3
  exact forRange_id _ _ _ s (fun k s _ _ => forRange_of_le _ _ _ s h)

/-- In a two-dimensional run in which both loop bounds `J_tot_bound`, `J_tot_p1_bound` are 0
the update passes of the 3D/TE branch visit no cell. -/
theorem updates_idle {R : Type} [LinearOrderedField R] (p : SimParams R) (sp : SourceParams R)
    (g : Grid R) (hJ : p.J_tot = 0) (hb : J_tot_bound p sp = 0) (hp : J_tot_p1_bound p sp = 0)
    (hd : sp.threeOrTE = true) : E_update_FD p sp g = g ∧ H_update_FD p sp g = g := by
  constructor
  · unfold E_update_FD
    simp only [hd, if_true, hJ, hb, hp]
    repeat rw [loop3_empty_j _ _ _ _ _ _ _ _ (by norm_num)]
  · unfold H_update_FD
    simp only [hd, if_true, hJ, hb, hp]
    repeat rw [loop3_empty_j _ _ _ _ _ _ _ _ (by norm_num)]

theorem exSourceJ1_bounds :
    J_tot_bound exParams2D exSourceJ1 = 0 ∧ J_tot_p1_bound exParams2D exSourceJ1 = 0 := by
  constructor <;>
    simp [J_tot_bound, J_tot_p1_bound, ksource_nz, exParams2D, exParams, exSourceJ1, exTensor,
      forRange, List.range_succ]

/-- C16 fails as stated: in the two-dimensional configuration `exParams2D` (`J_tot = 0`)
with zero initial fields, no incident field and the steady-state source `exSourceJ1`, in
which every TM-type slot is zero and only the TE slot `Hx` of face J1 is non-zero, one time
step leaves `E_s.zy[0][0][0]` equal to minus the real part of the envelope of that step,
`-1` for the envelope `exEnvelope`, so `E_z` is not zero. -/
theorem C16_counterexample :
    exParams2D.J_tot = 0 ∧ exSourceJ1.TMslotsZero ∧
    exSourceJ1.exi_present = false ∧ exSourceJ1.eyi_present = false ∧
    (∀ env : Int → Envelope ℚ × Envelope ℚ,
      (runSteps_FD exParams2D exSourceJ1 env 1 0 zeroGrid).E_s .zy 0 0 0
        = -(env 0).1.steady_re) ∧
    (runSteps_FD exParams2D exSourceJ1 exEnvSeq 1 0 zeroGrid).E_s .zy 0 0 0 = -1 ∧
    physZ (runSteps_FD exParams2D exSourceJ1 exEnvSeq 1 0 zeroGrid).E_s 0 0 0 = -1 := by
  have hrun : ∀ env : Int → Envelope ℚ × Envelope ℚ,
      runSteps_FD exParams2D exSourceJ1 env 1 0 zeroGrid
      = (inject_H exParams2D exSourceJ1 (env 0).2 0
          (inject_E exParams2D exSourceJ1 (env 0).1 (zeroGrid, 0))).1 := by
    intro env
    simp only [runSteps_FD, timeStep_FD]
    rw [(updates_idle exParams2D exSourceJ1 _ rfl exSourceJ1_bounds.1 exSourceJ1_bounds.2
      rfl).1, (updates_idle exParams2D exSourceJ1 _ rfl exSourceJ1_bounds.1
      exSourceJ1_bounds.2 rfl).2]
  have hzy : ∀ env : Int → Envelope ℚ × Envelope ℚ,
      (runSteps_FD exParams2D exSourceJ1 env 1 0 zeroGrid).E_s .zy 0 0 0
        = -(env 0).1.steady_re := by
    intro env
    rw [hrun]
    simp [inject_E, inject_H,
      inject_E_steady, inject_H_steady, injE_I, injE_J, injE_K, injH_I, injH_J, injH_K,
      forRange, List.range_succ, exParams2D, exParams, exSourceJ1,
      SourceParams.belowK1,
      afterLoop, injectE, injectH, SplitField.set, addSub, SourceTensor.reMul, exTensor,
      zeroGrid, constXYZ]
  have hzx : (runSteps_FD exParams2D exSourceJ1 exEnvSeq 1 0 zeroGrid).E_s .zx 0 0 0 = 0 := by
    rw [hrun]
    simp [inject_E, inject_H,
      inject_E_steady, inject_H_steady, injE_I, injE_J, injE_K, injH_I, injH_J, injH_K,
      forRange, List.range_succ, exParams2D, exParams, exSourceJ1,
      SourceParams.belowK1,
      afterLoop, injectE, injectH, SplitField.set, addSub, SourceTensor.reMul, exTensor,
      zeroGrid, constXYZ]
  refine ⟨rfl, ?_, rfl, rfl, hzy, ?_, ?_⟩
  · refine ⟨⟨?_, ?_, ?_, ?_⟩, ⟨?_, ?_, ?_, ?_⟩, ⟨?_, ?_, ?_, ?_⟩⟩ <;>
      first
      | exact exTensor_zero_slotZero _ _
      | exact exTensor_slotZero _ _ _ (by decide)
  · rw [hzy]
    norm_num [exEnvSeq, exEnvelope]
  · rw [physZ, hzx, hzy]
    norm_num [exEnvSeq, exEnvelope]

section ReductionProofs

variable {R : Type} [LinearOrderedField R]

theorem quiet_TM (sp : SourceParams R) (hJ0 : sp.J0.apply = false) (hJ1 : sp.J1.apply = false)
    (hs : sp.TMslotsZero) (hx : sp.exi_present = true → ∀ t j i, sp.Ei_x t j i = 0) :
    QuietSources isTM_E isTM_H sp := by
  obtain ⟨⟨i1, i2, i5, i6⟩, -, ⟨k0, k3, k4, k7⟩⟩ := hs
  have nJ0 : ¬ sp.J0.apply = true := by simp [hJ0]
  have nJ1 : ¬ sp.J1.apply = true := by simp [hJ1]
  exact
    { I_zx := fun _ _ => ⟨fun _ => i2, fun _ => i6⟩
      I_yx := fun _ h => by simp [isTM_E] at h
      J_zy := fun _ _ => ⟨fun h => absurd h nJ0, fun h => absurd h nJ1⟩
      J_xy := fun _ _ => ⟨fun h => absurd h nJ0, fun h => absurd h nJ1⟩
      K_yz := fun _ h => by simp [isTM_E] at h
      K_xz := fun _ _ => ⟨fun _ => k3, fun _ => k7⟩
      I_Hzx := fun _ h => by simp [isTM_H] at h
      I_Hyx := fun _ _ => ⟨fun _ => i1, fun _ => i5⟩
      J_Hzy := fun _ h => by simp [isTM_H] at h
      J_Hxy := fun _ h => by simp [isTM_H] at h
      K_Hyz := fun _ _ => ⟨fun _ => k0, fun _ => k4⟩
      K_Hxz := fun _ h => by simp [isTM_H] at h
      P_yz := fun _ h => by simp [isTM_E] at h
      P_xz := fun _ _ => k3
      P_Hxz := fun _ h => by simp [isTM_H] at h
      P_Hyz := fun _ _ => ⟨k0, hx⟩ }

theorem quiet_TE (sp : SourceParams R) (hJ0 : sp.J0.apply = false) (hJ1 : sp.J1.apply = false)
    (hs : sp.TEslotsZero) (hy : sp.eyi_present = true → ∀ t j i, sp.Ei_y t j i = 0) :
    QuietSources isTE_E isTE_H sp := by
  obtain ⟨⟨i0, i3, i4, i7⟩, -, ⟨k1, k2, k5, k6⟩⟩ := hs
  have nJ0 : ¬ sp.J0.apply = true := by simp [hJ0]
  have nJ1 : ¬ sp.J1.apply = true := by simp [hJ1]
  exact
    { I_zx := fun _ h => by simp [isTE_E] at h
      I_yx := fun _ _ => ⟨fun _ => i3, fun _ => i7⟩
      J_zy := fun _ h => by simp [isTE_E] at h
      J_xy := fun _ h => by simp [isTE_E] at h
      K_yz := fun _ _ => ⟨fun _ => k2, fun _ => k6⟩
      K_xz := fun _ h => by simp [isTE_E] at h
      I_Hzx := fun _ _ => ⟨fun _ => i0, fun _ => i4⟩
      I_Hyx := fun _ h => by simp [isTE_H] at h
      J_Hzy := fun _ _ => ⟨fun h => absurd h nJ0, fun h => absurd h nJ1⟩
      J_Hxy := fun _ _ => ⟨fun h => absurd h nJ0, fun h => absurd h nJ1⟩
      K_Hyz := fun _ h => by simp [isTE_H] at h
      K_Hxz := fun _ _ => ⟨fun _ => k1, fun _ => k5⟩
      P_yz := fun _ _ => k2
      P_xz := fun _ h => by simp [isTE_E] at h
      P_Hxz := fun _ _ => ⟨k1, hy⟩
      P_Hyz := fun _ h => by simp [isTE_H] at h }

theorem famZero_of_isZero (g : Grid R) (SE SH : Comp → Prop) (h : g.IsZero) :
    FamZero SE SH g :=
  ⟨fun c _ k j i => (h c k j i).1, fun c _ k j i => (h c k j i).2.2.1,
    fun c _ k j i => (h c k j i).2.2.2.1, fun c _ k j i => (h c k j i).2.2.2.2.1,
    fun c _ k j i => (h c k j i).2.2.2.2.2, fun c _ k j i => (h c k j i).2.1⟩

/-- C16, as amended: the 2-D reduction.  With `J_tot = 0`, the finite-difference solver,
all arrays initially zero and the faces J0 and J1 not applied: if every TM-type source slot
is zero and no incident field `Ei.x` is present, then after any number of time steps the
split fields `E_xy`, `E_xz`, `E_zx`, `E_zy`, `H_yx`, `H_yz` are zero at every cell, so
`E_x`, `E_z`, `H_y` are zero; and if every TE-type source slot is zero and no incident field
`Ei.y` is present, then `E_yx`, `E_yz`, `H_xy`, `H_xz`, `H_zx`, `H_zy` stay zero, so `E_y`,
`H_x`, `H_z` are zero. -/
theorem C16_two_dimensional_reduction (p : SimParams R) (sp : SourceParams R)
    (env : Int → Envelope R × Envelope R) (g : Grid R) (n : Nat) (tind : Int)
    (hJ : p.J_tot = 0) (hJ0 : sp.J0.apply = false) (hJ1 : sp.J1.apply = false)
    (hg : g.IsZero) :
    (sp.TMslotsZero → sp.exi_present = false → ∀ k j i : Int,
      (runSteps_FD p sp env n tind g).E_s .xy k j i = 0 ∧
      (runSteps_FD p sp env n tind g).E_s .xz k j i = 0 ∧
      (runSteps_FD p sp env n tind g).E_s .zx k j i = 0 ∧
      (runSteps_FD p sp env n tind g).E_s .zy k j i = 0 ∧
      (runSteps_FD p sp env n tind g).H_s .yx k j i = 0 ∧
      (runSteps_FD p sp env n tind g).H_s .yz k j i = 0 ∧
      physX (runSteps_FD p sp env n tind g).E_s k j i = 0 ∧
      physZ (runSteps_FD p sp env n tind g).E_s k j i = 0 ∧
      physY (runSteps_FD p sp env n tind g).H_s k j i = 0) ∧
    (sp.TEslotsZero → sp.eyi_present = false → ∀ k j i : Int,
      (runSteps_FD p sp env n tind g).E_s .yx k j i = 0 ∧
      (runSteps_FD p sp env n tind g).E_s .yz k j i = 0 ∧
      (runSteps_FD p sp env n tind g).H_s .xy k j i = 0 ∧
      (runSteps_FD p sp env n tind g).H_s .xz k j i = 0 ∧
      (runSteps_FD p sp env n tind g).H_s .zx k j i = 0 ∧
      (runSteps_FD p sp env n tind g).H_s .zy k j i = 0 ∧
      physY (runSteps_FD p sp env n tind g).E_s k j i = 0 ∧
      physX (runSteps_FD p sp env n tind g).H_s k j i = 0 ∧
      physZ (runSteps_FD p sp env n tind g).H_s k j i = 0) := by
  constructor
  · intro hs hx k j i
    have hq := quiet_TM sp hJ0 hJ1 hs (fun h => by simp [hx] at h)
    have h := runSteps_FD_famZero p sp env isTM_E isTM_H (TM_kernels_E p hJ)
      (TM_kernels_H p hJ) hq n tind g (famZero_of_isZero g _ _ hg)
    have exy := h.E_s .xy (Or.inl rfl) k j i
    have exz := h.E_s .xz (Or.inr (Or.inl rfl)) k j i
    have ezx := h.E_s .zx (Or.inr (Or.inr (Or.inl rfl))) k j i
    have ezy := h.E_s .zy (Or.inr (Or.inr (Or.inr rfl))) k j i
    have hyx := h.H_s .yx (Or.inl rfl) k j i
    have hyz := h.H_s .yz (Or.inr rfl) k j i
    refine ⟨exy, exz, ezx, ezy, hyx, hyz, ?_, ?_, ?_⟩
    · rw [physX, exy, exz, add_zero]
    · rw [physZ, ezx, ezy, add_zero]
    · rw [physY, hyx, hyz, add_zero]
  · intro hs hy k j i
    have hq := quiet_TE sp hJ0 hJ1 hs (fun h => by simp [hy] at h)
    have h := runSteps_FD_famZero p sp env isTE_E isTE_H (TE_kernels_E p hJ)
      (TE_kernels_H p hJ) hq n tind g (famZero_of_isZero g _ _ hg)
    have eyx := h.E_s .yx (Or.inl rfl) k j i
    have eyz := h.E_s .yz (Or.inr rfl) k j i
    have hxy := h.H_s .xy (Or.inl rfl) k j i
    have hxz := h.H_s .xz (Or.inr (Or.inl rfl)) k j i
    have hzx := h.H_s .zx (Or.inr (Or.inr (Or.inl rfl))) k j i
    have hzy := h.H_s .zy (Or.inr (Or.inr (Or.inr rfl))) k j i
    refine ⟨eyx, eyz, hxy, hxz, hzx, hzy, ?_, ?_, ?_⟩
    · rw [physY, eyx, eyz, add_zero]
    · rw [physX, hxy, hxz, add_zero]
    · rw [physZ, hzx, hzy, add_zero]

end ReductionProofs

/-- C16 at the two-dimensional configuration `exParams2D` with the pulsed source
`exSourcePulsed`, whose only non-zero entry is the TE slot `Hx` of `Ksource`: after two time
steps from the zero grid the TM components at the cell `[1][0][0]` of the source plane are
zero. -/
theorem C16_two_dimensional_reduction_witness :
    exParams2D.J_tot = 0 ∧ exSourcePulsed.TMslotsZero ∧
    physX (runSteps_FD exParams2D exSourcePulsed exEnvSeq 2 0 zeroGrid).E_s 1 0 0 = 0 ∧
    physZ (runSteps_FD exParams2D exSourcePulsed exEnvSeq 2 0 zeroGrid).E_s 1 0 0 = 0 ∧
    physY (runSteps_FD exParams2D exSourcePulsed exEnvSeq 2 0 zeroGrid).H_s 1 0 0 = 0 :=
  have hs : exSourcePulsed.TMslotsZero :=
    ⟨⟨exTensor_zero_slotZero _ _, exTensor_zero_slotZero _ _, exTensor_zero_slotZero _ _,
        exTensor_zero_slotZero _ _⟩,
      ⟨exTensor_zero_slotZero _ _, exTensor_zero_slotZero _ _, exTensor_zero_slotZero _ _,
        exTensor_zero_slotZero _ _⟩,
      ⟨exTensor_slotZero _ _ _ (by decide), exTensor_slotZero _ _ _ (by decide),
        exTensor_slotZero _ _ _ (by decide), exTensor_slotZero _ _ _ (by decide)⟩⟩
  ⟨rfl, hs,
    ((C16_two_dimensional_reduction exParams2D exSourcePulsed exEnvSeq zeroGrid 2 0 rfl rfl
      rfl zeroGrid_isZero).1 hs rfl 1 0 0).2.2.2.2.2.2⟩

/-! ## The argument parser -/

theorem push_foldl (args : List String) (ns : ArgumentNamespace) :
    args.foldl ArgumentNamespace.push ns =
      { arguments := ns.arguments,
        non_flag_arguments := ns.non_flag_arguments ++ spec_non_flag args,
        num_non_flag := ns.num_non_flag + (spec_non_flag args).length } := by
  induction args generalizing ns with
  | nil => simp [spec_non_flag]
  | cons a as ih =>
    rw [List.foldl_cons, ih]
    unfold ArgumentNamespace.push is_a_flag_argument spec_non_flag
    cases hd : a.data with
    | nil => simp [hd, List.filter_cons]; omega
    | cons c cs =>
      by_cases hc : c = '-'
      · simp [hd, hc, List.filter_cons]
      · simp [hd, hc, List.filter_cons]; omega

/-- The constructor collects the non-flag arguments in order and counts them. -/
theorem of_arg_ptrs_eq (prog : String) (args : List String) :
    ArgumentNamespace.of_arg_ptrs (prog :: args) =
      { arguments := args, non_flag_arguments := spec_non_flag args,
        num_non_flag := (spec_non_flag args).length } := by
  unfold ArgumentNamespace.of_arg_ptrs
  rw [List.drop_one, List.tail_cons, push_foldl]
  simp

theorem have_flag_iff (prog : String) (args : List String) (flag : String) :
    (ArgumentNamespace.of_arg_ptrs (prog :: args)).have_flag flag = true ↔ flag ∈ args := by
  rw [of_arg_ptrs_eq]
  simp [ArgumentNamespace.have_flag]

/-- The accessors as functions of the list of non-flag arguments. -/
theorem accessors_eq (prog : String) (args : List String) :
    (ArgumentNamespace.of_arg_ptrs (prog :: args)).has_grid_filename
        = decide ((spec_non_flag args).length = 3) ∧
    (ArgumentNamespace.of_arg_ptrs (prog :: args)).have_correct_number_of_filenames
        = decide ((spec_non_flag args).length = 2 ∨ (spec_non_flag args).length = 3) ∧
    (ArgumentNamespace.of_arg_ptrs (prog :: args)).input_filename =
      (match spec_non_flag args with
       | a :: _ => .ok a
       | [] => .error "Failed to determine the input file from arguments") ∧
    (ArgumentNamespace.of_arg_ptrs (prog :: args)).grid_filename =
      (match spec_non_flag args with
       | [_, b, _] => .ok b
       | _ => .error "Failed to determine the grid file from arguments") ∧
    (ArgumentNamespace.of_arg_ptrs (prog :: args)).output_filename =
      (match spec_non_flag args with
       | [_, b] => .ok b
       | [_, _, c] => .ok c
       | _ => .error "Failed to determine the output file from arguments") := by
  rw [of_arg_ptrs_eq]
  generalize spec_non_flag args = R
  unfold ArgumentNamespace.has_grid_filename
    ArgumentNamespace.have_correct_number_of_filenames ArgumentNamespace.input_filename
    ArgumentNamespace.grid_filename ArgumentNamespace.output_filename
    ArgumentNamespace.has_grid_filename ArgumentNamespace.non_flag_at
  match R with
  | [] => simp
  | [a] => simp
  | [a, b] => simp
  | [a, b, c] => simp
  | a :: b :: c :: d :: l =>
    have h3 : ((l.length : Int) + 1 + 1 + 1 + 1 = 3) = False := by
      simp only [eq_iff_iff, iff_false]; omega
    have h2 : ((l.length : Int) + 1 + 1 + 1 + 1 = 2) = False := by
      simp only [eq_iff_iff, iff_false]; omega
    have h0 : (0 < (l.length : Int) + 1 + 1 + 1 + 1) := by omega
    simp [h3, h2, h0]

/-- C22: with `R` the arguments after the program name that do not begin with `-`, in
order: if `R = [a, b]` then `input_filename` is `a`, `output_filename` is `b` and
`has_grid_filename` is false; if `R = [a, b, c]` then `input_filename` is `a`,
`grid_filename` is `b`, `output_filename` is `c` and `has_grid_filename` is true; two
argument vectors with the same `R` give the same results, wherever their flags stand;
`output_filename` throws when `R` has neither 2 nor 3 elements, `grid_filename` when it has
not 3, `input_filename` when `R` is empty. -/
theorem C22_filenames_from_non_flag_arguments (prog : String) (args : List String) :
    (∀ a b : String, spec_non_flag args = [a, b] →
      (ArgumentNamespace.of_arg_ptrs (prog :: args)).input_filename = .ok a ∧
      (ArgumentNamespace.of_arg_ptrs (prog :: args)).output_filename = .ok b ∧
      (ArgumentNamespace.of_arg_ptrs (prog :: args)).has_grid_filename = false) ∧
    (∀ a b c : String, spec_non_flag args = [a, b, c] →
      (ArgumentNamespace.of_arg_ptrs (prog :: args)).input_filename = .ok a ∧
      (ArgumentNamespace.of_arg_ptrs (prog :: args)).grid_filename = .ok b ∧
      (ArgumentNamespace.of_arg_ptrs (prog :: args)).output_filename = .ok c ∧
      (ArgumentNamespace.of_arg_ptrs (prog :: args)).has_grid_filename = true) ∧
    (∀ (prog2 : String) (args2 : List String), spec_non_flag args2 = spec_non_flag args →
      (ArgumentNamespace.of_arg_ptrs (prog2 :: args2)).input_filename =
        (ArgumentNamespace.of_arg_ptrs (prog :: args)).input_filename ∧
      (ArgumentNamespace.of_arg_ptrs (prog2 :: args2)).grid_filename =
        (ArgumentNamespace.of_arg_ptrs (prog :: args)).grid_filename ∧
      (ArgumentNamespace.of_arg_ptrs (prog2 :: args2)).output_filename =
        (ArgumentNamespace.of_arg_ptrs (prog :: args)).output_filename ∧
      (ArgumentNamespace.of_arg_ptrs (prog2 :: args2)).has_grid_filename =
        (ArgumentNamespace.of_arg_ptrs (prog :: args)).has_grid_filename) ∧
    ((spec_non_flag args).length ≠ 2 → (spec_non_flag args).length ≠ 3 →
      (ArgumentNamespace.of_arg_ptrs (prog :: args)).output_filename =
        .error "Failed to determine the output file from arguments") ∧
    ((spec_non_flag args).length ≠ 3 →
      (ArgumentNamespace.of_arg_ptrs (prog :: args)).grid_filename =
        .error "Failed to determine the grid file from arguments") ∧
    (spec_non_flag args = [] →
      (ArgumentNamespace.of_arg_ptrs (prog :: args)).input_filename =
        .error "Failed to determine the input file from arguments") := by
  obtain ⟨hg, -, hi, hgr, ho⟩ := accessors_eq prog args
  refine ⟨?_, ?_, ?_, ?_, ?_, ?_⟩
  · intro a b h
    rw [hi, ho, hg, h]
    simp
  · intro a b c h
    rw [hi, hgr, ho, hg, h]
    simp
  · intro prog2 args2 h
    obtain ⟨hg2, -, hi2, hgr2, ho2⟩ := accessors_eq prog2 args2
    rw [hi, hgr, ho, hg, hi2, hgr2, ho2, hg2, h]
    exact ⟨rfl, rfl, rfl, rfl⟩
  · intro h2 h3
    rw [ho]
    match hR : spec_non_flag args with
    | [] => rfl
    | [a] => rfl
    | [a, b] => rw [hR] at h2; simp at h2
    | [a, b, c] => rw [hR] at h3; simp at h3
    | a :: b :: c :: d :: l => rfl
  · intro h3
    rw [hgr]
    match hR : spec_non_flag args with
    | [] => rfl
    | [a] => rfl
    | [a, b] => rfl
    | [a, b, c] => rw [hR] at h3; simp at h3
    | a :: b :: c :: d :: l => rfl
  · intro h
    rw [hi, h]

/-- The accessors on three concrete argument vectors: the flags `-m`, `-fd` are skipped
wherever they stand. -/
theorem argv_examples :
    (ArgumentNamespace.of_arg_ptrs exArgv2).input_filename = .ok "in.mat" ∧
    (ArgumentNamespace.of_arg_ptrs exArgv2).output_filename = .ok "out.mat" ∧
    (ArgumentNamespace.of_arg_ptrs exArgv2).has_grid_filename = false ∧
    (ArgumentNamespace.of_arg_ptrs exArgv3).grid_filename = .ok "grid.mat" ∧
    (ArgumentNamespace.of_arg_ptrs exArgv3).output_filename = .ok "out.mat" ∧
    (ArgumentNamespace.of_arg_ptrs exArgv1).output_filename =
      .error "Failed to determine the output file from arguments" ∧
    parse_args exArgv2 = .returned (ArgumentNamespace.of_arg_ptrs exArgv2) ∧
    parse_args exArgv1 = .exited (-1) true ∧
    parse_args ["tdms", "-h", "in.mat"] = .exited 0 true :=
  ⟨rfl, rfl, rfl, rfl, rfl, rfl, by decide, by decide, by decide⟩

/-- C23: `parse_args` ends the process with a negative exit code exactly when `-h` is not
among the arguments and the number of non-flag arguments is neither 2 nor 3, and the code is
then -1; when `-h` is among the arguments it prints the help and exits with code 0; in every
other case it returns the argument namespace (no exit, no exception). -/
theorem C23_parse_args_exit (prog : String) (args : List String) :
    ((∃ (c : Int) (h : Bool), parse_args (prog :: args) = .exited c h ∧ c < 0) ↔
      ("-h" ∉ args ∧ (spec_non_flag args).length ≠ 2 ∧ (spec_non_flag args).length ≠ 3)) ∧
    (("-h" ∉ args ∧ (spec_non_flag args).length ≠ 2 ∧ (spec_non_flag args).length ≠ 3) →
      parse_args (prog :: args) = .exited (-1) true) ∧
    ("-h" ∈ args → parse_args (prog :: args) = .exited 0 true) ∧
    ("-h" ∉ args → ((spec_non_flag args).length = 2 ∨ (spec_non_flag args).length = 3) →
      parse_args (prog :: args) = .returned (ArgumentNamespace.of_arg_ptrs (prog :: args))) := by
  obtain ⟨hg, hc, hi, hgr, ho⟩ := accessors_eq prog args
  have hflag := have_flag_iff prog args "-h"
  have hyes : "-h" ∈ args → parse_args (prog :: args) = .exited 0 true := by
    intro h
    unfold parse_args
    simp only [hflag.mpr h, if_true]
  have hbad : ("-h" ∉ args ∧ (spec_non_flag args).length ≠ 2 ∧
      (spec_non_flag args).length ≠ 3) → parse_args (prog :: args) = .exited (-1) true := by
    rintro ⟨h, h2, h3⟩
    have hf : (ArgumentNamespace.of_arg_ptrs (prog :: args)).have_flag "-h" = false := by
      rw [Bool.eq_false_iff]; exact fun hh => h (hflag.mp hh)
    unfold parse_args
    simp only [hf, hc]
    simp [h2, h3]
  have hgood : "-h" ∉ args →
      ((spec_non_flag args).length = 2 ∨ (spec_non_flag args).length = 3) →
      parse_args (prog :: args) = .returned (ArgumentNamespace.of_arg_ptrs (prog :: args)) := by
    intro h h23
    have hf : (ArgumentNamespace.of_arg_ptrs (prog :: args)).have_flag "-h" = false := by
      rw [Bool.eq_false_iff]; exact fun hh => h (hflag.mp hh)
    unfold parse_args ArgumentNamespace.print_filenames
    simp only [hf, hc, hg, hi, hgr, ho]
    match hR : spec_non_flag args with
    | [] => rw [hR] at h23; simp at h23
    | [a] => rw [hR] at h23; simp at h23
    | [a, b] => simp
    | [a, b, c] => simp
    | a :: b :: c :: d :: l => rw [hR] at h23; simp at h23
  refine ⟨⟨?_, ?_⟩, hbad, hyes, hgood⟩
  · rintro ⟨c, h, hp, hneg⟩
    by_cases hh : "-h" ∈ args
    · rw [hyes hh] at hp
      injection hp with h1 h2
      omega
    · refine ⟨hh, ?_, ?_⟩
      · intro h2
        rw [hgood hh (Or.inl h2)] at hp
        cases hp
      · intro h3
        rw [hgood hh (Or.inr h3)] at hp
        cases hp
  · intro h
    exact ⟨-1, true, hbad h, by decide⟩

/-! ## The tables of variable names -/

/-- C24: with `-m` the output file omits exactly the vertex and facet arrays.  The pairs of
name and output index saved with `-m` (23 of them) are the pairs saved without `-m` (25 of
them) after the two pairs `("vertices", 22)` and `("facets", 24)` are removed, in the same
order; this holds for the tables of main.cpp and for those of input_output_names.h, and the
two sets of tables are equal. -/
theorem C24_minimal_output_omits_vertices_and_facets :
    main.saved true =
      (main.saved false).filter (fun p => decide (p ≠ ("vertices", 22) ∧ p ≠ ("facets", 24))) ∧
    (main.saved true).length = 23 ∧ (main.saved false).length = 25 ∧
    (main.saved false).get? 18 = some ("vertices", 22) ∧
    (main.saved false).get? 20 = some ("facets", 24) ∧
    main.saved true = (((main.saved false).eraseIdx 20).eraseIdx 18) ∧
    tdms_matrix_names.saved true =
      (tdms_matrix_names.saved false).filter
        (fun p => decide (p ≠ ("vertices", 22) ∧ p ≠ ("facets", 24))) ∧
    tdms_matrix_names.outputmatrices_all = main.outputmatrices_all ∧
    tdms_matrix_names.outputmatrices = main.outputmatrices ∧
    tdms_matrix_names.matricestosave_all = main.matricestosave_all ∧
    tdms_matrix_names.matricestosave = main.matricestosave := by
  refine ⟨?_, ?_, ?_, ?_, ?_, ?_, ?_, ?_, ?_, ?_, ?_⟩ <;> decide

/-! ## The reading of the inputs -/

/-- Up to `tdfield` the counter and the positions of the reads do not depend on what the
inputs contain: the counter ends at 46, and the reads are those of a run in which every
optional input is read, some of them left out. -/
theorem inputs_before_tdfdir_fixed (sh : InputShape) :
    (inputs_before_tdfdir sh).input_counter = 46 ∧
    (inputs_before_tdfdir sh).reads.Sublist (inputs_before_tdfdir exShapeChar).reads := by
  rcases sh with ⟨a, b, c, d, e, f, g⟩
  have hg : inputs_before_tdfdir ⟨a, b, c, d, e, f, g⟩ =
      inputs_before_tdfdir ⟨a, b, c, d, e, f, true⟩ := rfl
  rw [hg]
  cases a <;> cases b <;> cases c <;> cases d <;> cases e <;> cases f <;>
    exact ⟨by rfl, by decide⟩

/-- C27, what the code does: before `tdfdir` is handled the input counter is 46 whatever the
inputs contain, and every input read up to there is read from one fixed position; after
`tdfdir` has been handled the counter is 47 if `tdfdir` is a character array and still 46 if
it is not, so that `fieldsample` is then read from position 46 (the `tdfdir` entry) and
`campssample` from position 47 (the `fieldsample` entry). -/
theorem C27_input_counter (sh : InputShape) :
    (inputs_before_tdfdir sh).input_counter = 46 ∧
    (inputs_before_tdfdir sh).reads.Sublist (inputs_before_tdfdir exShapeChar).reads ∧
    (input_tdfdir sh (inputs_before_tdfdir sh)).input_counter =
      (if sh.tdfdir_is_char then 47 else 46) ∧
    ("fieldsample", if sh.tdfdir_is_char then 47 else 46) ∈ (read_inputs sh).reads ∧
    ("campssample", if sh.tdfdir_is_char then 48 else 47) ∈ (read_inputs sh).reads ∧
    (read_inputs sh).input_counter = (if sh.tdfdir_is_char then 49 else 48) := by
  obtain ⟨h46, hsub⟩ := inputs_before_tdfdir_fixed sh
  refine ⟨h46, hsub, ?_, ?_, ?_, ?_⟩ <;>
    cases hg : sh.tdfdir_is_char <;>
    simp [read_inputs, input_tdfdir, InputReader.read_next, InputReader.read,
      InputReader.advance, hg, h46]

/-- C27 at a failing input: every optional input is given and `tdfdir` is not a character
array.  The counter is still 46 after `tdfdir` has been handled, `fieldsample` is read from
position 46, `campssample` from position 47, and the counter ends at 48. -/
theorem C27_input_counter_witness :
    exShapeNoDir.tdfdir_is_char = false ∧
    (input_tdfdir exShapeNoDir (inputs_before_tdfdir exShapeNoDir)).input_counter = 46 ∧
    ("fieldsample", 46) ∈ (read_inputs exShapeNoDir).reads ∧
    ("campssample", 47) ∈ (read_inputs exShapeNoDir).reads ∧
    (read_inputs exShapeNoDir).input_counter = 48 :=
  ⟨rfl, (C27_input_counter exShapeNoDir).2.2.1, (C27_input_counter exShapeNoDir).2.2.2.1,
    (C27_input_counter exShapeNoDir).2.2.2.2.1, (C27_input_counter exShapeNoDir).2.2.2.2.2⟩

/-- The positions from which the inputs are read when every optional input is given and
`tdfdir` is a character array, and the last two reads when it is not. -/
theorem read_inputs_examples :
    (read_inputs exShapeChar).reads.map Prod.snd = (List.range 49).map Int.ofNat ∧
    (read_inputs exShapeChar).reads.getLast? = some ("campssample", 48) ∧
    (read_inputs exShapeNoDir).reads.reverse.take 2 =
      [("campssample", 47), ("fieldsample", 46)] := by
  decide

/-- The first input that `execute_simulation` reads is `fdtdgrid`, from position 0. -/
theorem read_inputs_head (sh : InputShape) :
    (read_inputs sh).reads.head? = some ("fdtdgrid", 0) := by
  rcases sh with ⟨a, b, c, d, e, f, g⟩
  cases a <;> cases b <;> cases c <;> cases d <;> cases e <;> cases f <;> cases g <;> rfl

/-- C28, what the code does: the list of names that `main` requests from a single input
file is `matrixnames_infile` followed by `fdtdgrid`.  So `fdtdgrid` stands at position 48
and `Cmaterial` at position 0, every name of `matrixnames_infile` one position before the
one it has in `tdms_matrix_names::matrixnames_input_with_grid`, which is `fdtdgrid` followed
by `matrixnames_infile`, and before the one `execute_simulation` reads it from. -/
theorem C28_single_file_name_order :
    main.matrixnames_input_and_grid = main.matrixnames_infile ++ ["fdtdgrid"] ∧
    main.matrixnames_input_and_grid.length = NMATRICES ∧
    main.matrixnames_input_and_grid.get? 0 = some "Cmaterial" ∧
    main.matrixnames_input_and_grid.get? 48 = some "fdtdgrid" ∧
    main.matrixnames_input_and_grid ≠ tdms_matrix_names.matrixnames_input_with_grid ∧
    tdms_matrix_names.matrixnames_input_with_grid =
      main.matrixnames_gridfile ++ main.matrixnames_infile ∧
    tdms_matrix_names.matrixnames_infile = main.matrixnames_infile ∧
    (∀ n < 48, main.matrixnames_input_and_grid.get? n =
      tdms_matrix_names.matrixnames_input_with_grid.get? (n + 1)) ∧
    (∀ sh : InputShape, (read_inputs sh).reads.head? = some ("fdtdgrid", 0)) := by
  refine ⟨by decide, by decide, by decide, by decide, by decide, by decide, by decide, ?_,
    read_inputs_head⟩
  decide

/-! ## The export of time-domain snapshots -/

theorem count_tdf_succ (skip : Int) (n : Nat) :
    count_tdf skip ((n : Int) + 1) =
      count_tdf skip n + (if (n : Int) % skip = 0 then 1 else 0) := by
  unfold count_tdf forRange
  have h1 : ((n : Int) + 1 - 0).toNat = n + 1 := by omega
  have h0 : ((n : Int) - 0).toNat = n := by omega
  rw [h1, h0, List.range_succ, List.foldl_append]
  simp only [List.foldl_cons, List.foldl_nil, zero_add]
  split_ifs <;> simp

theorem count_tdf_one (n : Nat) : count_tdf 1 n = n := by
  induction n with
  | zero => rfl
  | succ n ih =>
    push_cast
    rw [count_tdf_succ, ih]
    simp

theorem count_tdf_six (n : Nat) : count_tdf 6 n = ((n : Int) + 5) / 6 := by
  induction n with
  | zero => rfl
  | succ n ih =>
    push_cast
    rw [count_tdf_succ, ih]
    split_ifs with h <;> omega

/-- C25, what the code does: for `I_tot >= 0` and `K_tot >= 0` the exporter that the driver
allocates passes the capacity check of `export_field` under the pseudo-spectral solver
(stride 1); under the finite-difference solver (stride 6) it passes only if `I_tot <= 1` and
`K_tot <= 1`, and `export_field` throws as soon as `I_tot >= 2` or `K_tot >= 2`. -/
theorem C25_export_field_capacity (I_tot K_tot : Int) (hI : 0 ≤ I_tot) (hK : 0 ≤ K_tot) :
    export_snapshot .PseudoSpectral I_tot K_tot = .ok () ∧
    (export_snapshot .FiniteDifference I_tot K_tot = .ok () ↔ I_tot ≤ 1 ∧ K_tot ≤ 1) ∧
    (2 ≤ I_tot ∨ 2 ≤ K_tot →
      export_snapshot .FiniteDifference I_tot K_tot =
        .error "Not enough memory to write this field!") := by
  obtain ⟨i, rfl⟩ := Int.eq_ofNat_of_zero_le hI
  obtain ⟨k, rfl⟩ := Int.eq_ofNat_of_zero_le hK
  have hfd : (count_tdf 6 i < (i : Int) ∨ count_tdf 6 k < (k : Int)) ↔
      (2 ≤ (i : Int) ∨ 2 ≤ (k : Int)) := by
    rw [count_tdf_six, count_tdf_six]
    omega
  refine ⟨?_, ?_, ?_⟩
  · simp [export_snapshot, ex_td_field_exporter, TDFieldExporter2D.allocate,
      TDFieldExporter2D.export_field, skip_tdf, count_tdf_one]
  · simp only [export_snapshot, ex_td_field_exporter, TDFieldExporter2D.allocate,
      TDFieldExporter2D.export_field, skip_tdf, if_true, Bool.or_eq_true, decide_eq_true_eq]
    rw [if_congr hfd rfl rfl]
    split_ifs with h
    · simp; omega
    · simp; omega
  · intro h
    simp only [export_snapshot, ex_td_field_exporter, TDFieldExporter2D.allocate,
      TDFieldExporter2D.export_field, skip_tdf, if_true, Bool.or_eq_true, decide_eq_true_eq]
    rw [if_pos (hfd.mpr h)]

/-- C25 at the failing input `I_tot = K_tot = 2` under the finite-difference solver: the
driver allocates a 1 by 1 exporter and `export_field` throws. -/
theorem C25_export_field_capacity_witness :
    (0 : Int) ≤ 2 ∧
    ex_td_field_exporter .FiniteDifference 2 2 = { nI := 1, nK := 1 } ∧
    export_snapshot .FiniteDifference 2 2 = .error "Not enough memory to write this field!" :=
  ⟨by decide, by decide,
    (C25_export_field_capacity 2 2 (by decide) (by decide)).2.2 (Or.inl (by decide))⟩

/-! ## Interpolation of the E field to the centre of a Yee cell -/

/-- A loop of `n >= 1` assignments to one slot: the slot holds the last sample, every other
slot what it held before, and the `n` writes all went to that slot. -/
theorem fill_interp_data_eq {R : Type} (n : Nat) (slot : Int) (sample : Int → R)
    (d : InterpData R) :
    fill_interp_data ((n : Int) + 1) slot sample d =
      { data := Function.update d.data slot (sample n),
        writes := d.writes ++ List.replicate (n + 1) slot } := by
  induction n with
  | zero =>
    simp [fill_interp_data, forRange, InterpData.write, List.range_succ]
  | succ n ih =>
    have h : fill_interp_data ((n : Int) + 1 + 1) slot sample d =
        (fill_interp_data ((n : Int) + 1) slot sample d).write slot
          (sample ((n : Int) + 1)) := by
      unfold fill_interp_data forRange
      have h1 : ((n : Int) + 1 + 1 - 0).toNat = n + 1 + 1 := by omega
      have h0 : ((n : Int) + 1 - 0).toNat = n + 1 := by omega
      rw [h1, h0, List.range_succ (n + 1), List.foldl_append]
      simp
    push_cast
    rw [h, ih]
    simp [InterpData.write, List.replicate_succ' (n + 1)]

section InterpolateEProofs

variable {R : Type} [Add R]

/-- C26, what the code does: each of the three functions assigns, in every iteration of its
loop, to the slot `interp_data[i]` (`i` the x index of the cell, in all three functions).
At the call of `interpolate` the slot `i` holds the last sample of the stencil and every
other slot is what the uninitialised array held; the eight (band-limited) or four (cubic)
writes all go to index `i`, which lies outside the array as soon as `i >= 8`. -/
theorem C26_interpolateTimeDomainE (E1 E2 : Int → Int → Int → R) (i j k scheme : Int)
    (is_BL : Bool) (interpolate : (Int → R) → R) (init : Int → R) :
    (interpolateTimeDomainEx E1 E2 i j k scheme is_BL interpolate init).1.writes =
      List.replicate (if is_BL then 8 else 4) i ∧
    (interpolateTimeDomainEx E1 E2 i j k scheme is_BL interpolate init).1.data =
      Function.update init i
        (if is_BL then spec_stencil (E1 k j) (E2 k j) (i - (scheme + 1)) 7
         else spec_stencil (E1 k j) (E2 k j) (i - (scheme - 6)) 3) ∧
    (interpolateTimeDomainEx E1 E2 i j k scheme is_BL interpolate init).2 =
      interpolate (interpolateTimeDomainEx E1 E2 i j k scheme is_BL interpolate init).1.data ∧
    (∀ ind : Int, ind ≠ i →
      (interpolateTimeDomainEx E1 E2 i j k scheme is_BL interpolate init).1.data ind
        = init ind) ∧
    (interpolateTimeDomainEy E1 E2 i j k scheme is_BL interpolate init).1.writes =
      List.replicate (if is_BL then 8 else 4) i ∧
    (interpolateTimeDomainEy E1 E2 i j k scheme is_BL interpolate init).1.data =
      Function.update init i
        (if is_BL then
          spec_stencil (fun n => E1 k n i) (fun n => E2 k n i) (j - (scheme + 1)) 7
         else spec_stencil (fun n => E1 k n i) (fun n => E2 k n i) (j - (scheme - 6)) 3) ∧
    (interpolateTimeDomainEz E1 E2 i j k scheme is_BL interpolate init).1.writes =
      List.replicate (if is_BL then 8 else 4) i ∧
    (interpolateTimeDomainEz E1 E2 i j k scheme is_BL interpolate init).1.data =
      Function.update init i
        (if is_BL then
          spec_stencil (fun n => E1 n j i) (fun n => E2 n j i) (k - (scheme + 1)) 7
         else spec_stencil (fun n => E1 n j i) (fun n => E2 n j i) (k - (scheme - 6)) 3) := by
  have h8 := fun (sample : Int → R) (d : InterpData R) => fill_interp_data_eq 7 i sample d
  have h4 := fun (sample : Int → R) (d : InterpData R) => fill_interp_data_eq 3 i sample d
  norm_num at h8 h4
  have hx : (interpolateTimeDomainEx E1 E2 i j k scheme is_BL interpolate init).1.data =
      Function.update init i
        (if is_BL then spec_stencil (E1 k j) (E2 k j) (i - (scheme + 1)) 7
         else spec_stencil (E1 k j) (E2 k j) (i - (scheme - 6)) 3) := by
    cases is_BL <;> simp [interpolateTimeDomainEx, h8, h4, spec_stencil]
  refine ⟨?_, hx, rfl, ?_, ?_, ?_, ?_, ?_⟩
  · cases is_BL <;> simp [interpolateTimeDomainEx, h8, h4]
  · intro ind hne
    rw [hx, Function.update_noteq hne]
  · cases is_BL <;> simp [interpolateTimeDomainEy, h8, h4]
  · cases is_BL <;> simp [interpolateTimeDomainEy, h8, h4, spec_stencil]
  · cases is_BL <;> simp [interpolateTimeDomainEz, h8, h4]
  · cases is_BL <;> simp [interpolateTimeDomainEz, h8, h4, spec_stencil]

end InterpolateEProofs

/-- C26 at a failing input: cell `i = 8`, band-limited scheme 3, a field with `Exy = i`,
`Exz = 0`, and a zero array at first.  All eight writes go to index 8, outside the array;
slot 0 holds 0, not the sample 4 of cell `i - 4`, and the value handed to `*Ex` is the
interpolation of an array that none of the samples has reached. -/
theorem C26_interpolateTimeDomainE_witness :
    (interpolateTimeDomainEx exLineX (fun _ _ _ => 0) 8 0 0 3 true exInterpolate
      (fun _ => 0)).1.writes = [8, 8, 8, 8, 8, 8, 8, 8] ∧
    (interpolateTimeDomainEx exLineX (fun _ _ _ => 0) 8 0 0 3 true exInterpolate
      (fun _ => 0)).1.data 0 = 0 ∧
    spec_stencil (exLineX 0 0) (fun _ => 0) (8 - (3 + 1)) 0 = 4 ∧
    (interpolateTimeDomainEx exLineX (fun _ _ _ => 0) 8 0 0 3 true exInterpolate
      (fun _ => 0)).2 = 0 := by
  have h := C26_interpolateTimeDomainE exLineX (fun _ _ _ => (0 : ℚ)) 8 0 0 3 true
    exInterpolate (fun _ => 0)
  refine ⟨h.1, ?_, ?_, ?_⟩
  · rw [h.2.2.2.1 0 (by decide)]
  · norm_num [spec_stencil, exLineX]
  · rw [h.2.2.1, h.2.1]
    simp [exInterpolate, Function.update]

/-! ## The index `k_loc` under a grating structure -/

/-- C29, what the code does: `k_loc` differs from `k` only for `Dzl < k < Dzl + K`, where
`K = K_tot - Dxl - Dxu` is computed from the thicknesses of the x PML, and then
`Dzl + 1 <= k_loc <= Dzl + K - 1`.  If the x PML is at least as thick as the z PML
(`Dzl + Dzu <= Dxl + Dxu`, in particular if they are equal) this gives the property as
stated: for `k` strictly inside the non-PML z range `k_loc` stays in
`[Dzl + 1, K_tot - Dzu - 1]`, and for every other `k` it is `k`. -/
theorem C29_k_loc_range {R : Type} (p : SimParams R) (Dzu k i : Int) :
    (p.Dzl < k ∧ k < p.Dzl + (p.K_tot - p.Dxl - p.Dxu) →
      p.Dzl + 1 ≤ k_loc p k i ∧ k_loc p k i ≤ p.Dzl + (p.K_tot - p.Dxl - p.Dxu) - 1) ∧
    (¬ (p.Dzl < k ∧ k < p.Dzl + (p.K_tot - p.Dxl - p.Dxu)) → k_loc p k i = k) ∧
    (p.Dzl + Dzu ≤ p.Dxl + p.Dxu →
      (p.Dzl < k ∧ k < p.K_tot - Dzu →
        p.Dzl + 1 ≤ k_loc p k i ∧ k_loc p k i ≤ p.K_tot - Dzu - 1) ∧
      (¬ (p.Dzl < k ∧ k < p.K_tot - Dzu) → k_loc p k i = k)) := by
  unfold k_loc SimParams.K
  refine ⟨?_, ?_, ?_⟩
  · intro h
    split_ifs <;> omega
  · intro h
    split_ifs <;> omega
  · intro h
    constructor
    · intro hk
      split_ifs <;> omega
    · intro hk
      split_ifs <;> omega

/-- C29 at a failing input: no x PML, a z PML of two cells at both ends (`Dzl = Dzu = 2`),
`K_tot = 10`, structure offset `-2` at `i = 0` and `2` at `i = 1`.  At `i = 0` the cell
`k = 7` lies strictly inside the non-PML range `2 < k < 8` and gets `k_loc = 9`, beyond
`K_tot - Dzu - 1 = 7`, in the upper z PML.  At `i = 1` the cell `k = 9` of the upper PML gets
`k_loc = 7`, not `k`.  The first value respects the bound `Dzl + K - 1 = 11` that the code
enforces. -/
theorem C29_k_loc_range_witness :
    (exParamsGrating.Dzl < 7 ∧ 7 < exParamsGrating.K_tot - 2) ∧
    k_loc exParamsGrating 7 0 = 9 ∧
    ¬ (k_loc exParamsGrating 7 0 ≤ exParamsGrating.K_tot - 2 - 1) ∧
    ¬ (exParamsGrating.Dzl < 9 ∧ 9 < exParamsGrating.K_tot - 2) ∧
    k_loc exParamsGrating 9 1 = 7 ∧
    k_loc exParamsGrating 7 0 ≤ 11 :=
  ⟨by decide, by decide, by decide, by decide, by decide,
    ((C29_k_loc_range exParamsGrating 2 7 0).1 (by decide)).2⟩

/-! ## The auxiliary currents in the steady-state E-side injection -/

section CurrentFaceProofs

variable {R : Type} [LinearOrderedField R]

/-- C30, what the code does: in the steady-state E-side injection with a dispersive
multilayer and a conductive background, on each face (taken alone) and for both components
that the face corrects, the change of `J_c` at the corrected cell is `-rho` times the change
`dE` of the E split field, on all six faces.  The change of `J_s` is
`+kappa * gamma / (2 * dt) * dE` on the faces J1, K0 and K1 but
`-kappa * gamma / (2 * dt) * dE` on the faces I0, I1 and J0.  Here `kappa` and `rho` are read
at the value of `array_ind` that the face leaves behind (on K0 and K1 at the face index) and
`gamma` at the loop index `k` (on K0 and K1 at the value `kstale` that `k` was left with). -/
theorem C30_injection_current_relation (p : SimParams R) (sp : SourceParams R)
    (e : Envelope R) (g : Grid R) (array_ind kstale k j i : Int)
    (hd : p.is_disp_ml = true) (hc : p.is_cond = true) :
    (sp.I0.apply = true → sp.I1.apply = false → ∀ c, c = Comp.zx ∨ c = Comp.yx →
      CurrentFollows Grid.J_s g (injE_I p sp e k j (g, array_ind)).1 c k j sp.I0.index
        (-(p.ml.kappa.x (injE_I p sp e k j (g, array_ind)).2 * p.ml.gamma k / (2 * p.dt))) ∧
      CurrentFollows Grid.J_c g (injE_I p sp e k j (g, array_ind)).1 c k j sp.I0.index
        (-(p.rho_cond.x (injE_I p sp e k j (g, array_ind)).2))) ∧
    (sp.I0.apply = false → sp.I1.apply = true → ∀ c, c = Comp.zx ∨ c = Comp.yx →
      CurrentFollows Grid.J_s g (injE_I p sp e k j (g, array_ind)).1 c k j sp.I1.index
        (-(p.ml.kappa.x (injE_I p sp e k j (g, array_ind)).2 * p.ml.gamma k / (2 * p.dt))) ∧
      CurrentFollows Grid.J_c g (injE_I p sp e k j (g, array_ind)).1 c k j sp.I1.index
        (-(p.rho_cond.x (injE_I p sp e k j (g, array_ind)).2))) ∧
    (sp.J0.apply = true → sp.J1.apply = false → ∀ c, c = Comp.zy ∨ c = Comp.xy →
      CurrentFollows Grid.J_s g (injE_J p sp e k i (g, array_ind)).1 c k sp.J0.index i
        (-(p.ml.kappa.y (injE_J p sp e k i (g, array_ind)).2 * p.ml.gamma k / (2 * p.dt))) ∧
      CurrentFollows Grid.J_c g (injE_J p sp e k i (g, array_ind)).1 c k sp.J0.index i
        (-(p.rho_cond.y (injE_J p sp e k i (g, array_ind)).2))) ∧
    (sp.J0.apply = false → sp.J1.apply = true → ∀ c, c = Comp.zy ∨ c = Comp.xy →
      CurrentFollows Grid.J_s g (injE_J p sp e k i (g, array_ind)).1 c k sp.J1.index i
        (p.ml.kappa.y (injE_J p sp e k i (g, array_ind)).2 * p.ml.gamma k / (2 * p.dt)) ∧
      CurrentFollows Grid.J_c g (injE_J p sp e k i (g, array_ind)).1 c k sp.J1.index i
        (-(p.rho_cond.y (injE_J p sp e k i (g, array_ind)).2))) ∧
    (sp.K0.apply = true → sp.K1.apply = false → ∀ c, c = Comp.yz ∨ c = Comp.xz →
      CurrentFollows Grid.J_s g (injE_K p sp e kstale j i g) c sp.K0.index j i
        (p.ml.kappa.z sp.K0.index * p.ml.gamma kstale / (2 * p.dt)) ∧
      CurrentFollows Grid.J_c g (injE_K p sp e kstale j i g) c sp.K0.index j i
        (-(p.rho_cond.z sp.K0.index))) ∧
    (sp.K0.apply = false → sp.K1.apply = true → ∀ c, c = Comp.yz ∨ c = Comp.xz →
      CurrentFollows Grid.J_s g (injE_K p sp e kstale j i g) c sp.K1.index j i
        (p.ml.kappa.z sp.K1.index * p.ml.gamma kstale / (2 * p.dt)) ∧
      CurrentFollows Grid.J_c g (injE_K p sp e kstale j i g) c sp.K1.index j i
        (-(p.rho_cond.z sp.K1.index))) := by
  refine ⟨?_, ?_, ?_, ?_, ?_, ?_⟩
  · intro h0 h1 c hcs
    simp only [injE_I, h0, h1, if_true, Bool.false_eq_true, if_false]
    generalize (if (!p.is_multilayer) = true then sp.I0.index
      else (p.I_tot + 1) * k + sp.I0.index) = a
    generalize p.ml.kappa.x a * p.ml.gamma k / (2 * p.dt) = kg
    generalize p.rho_cond.x a = rho
    generalize p.C.b.x a = cb
    generalize sp.Isource.reMul e.steady_re e.steady_im (k - sp.K0.index) (j - sp.J0.index) 2 = v2
    generalize sp.Isource.reMul e.steady_re e.steady_im (k - sp.K0.index) (j - sp.J0.index) 3 = v3
    generalize sp.I0.index = n
    rcases hcs with rfl | rfl <;> constructor <;> split_ifs <;>
      simp [CurrentFollows, injectE, hd, hc, SplitField.set, addSub] <;> ring
  · intro h0 h1 c hcs
    simp only [injE_I, h0, h1, if_true, Bool.false_eq_true, if_false]
    generalize (if (!p.is_multilayer) = true then sp.I1.index
      else (p.I_tot + 1) * k + sp.I1.index) = a
    generalize p.ml.kappa.x a * p.ml.gamma k / (2 * p.dt) = kg
    generalize p.rho_cond.x a = rho
    generalize p.C.b.x a = cb
    generalize sp.Isource.reMul e.steady_re e.steady_im (k - sp.K0.index) (j - sp.J0.index) 6 = v2
    generalize sp.Isource.reMul e.steady_re e.steady_im (k - sp.K0.index) (j - sp.J0.index) 7 = v3
    generalize sp.I1.index = n
    rcases hcs with rfl | rfl <;> constructor <;> split_ifs <;>
      simp [CurrentFollows, injectE, hd, hc, SplitField.set, addSub] <;> ring
  · intro h0 h1 c hcs
    simp only [injE_J, h0, h1, if_true, Bool.false_eq_true, if_false]
    generalize (if (!p.is_multilayer) = true then sp.J0.index
      else (p.J_tot + 1) * k + sp.J0.index) = a
    generalize sp.Jsource.reMul e.steady_re e.steady_im (k - sp.K0.index) (i - sp.I0.index) 2 = v2
    generalize sp.Jsource.reMul e.steady_re e.steady_im (k - sp.K0.index) (i - sp.I0.index) 3 = v3
    generalize sp.J0.index = n
    rcases hcs with rfl | rfl <;> constructor <;> split_ifs <;>
      simp [CurrentFollows, injectE, hd, hc, SplitField.set, addSub] <;> ring
  · intro h0 h1 c hcs
    simp only [injE_J, h0, h1, if_true, Bool.false_eq_true, if_false]
    generalize (if (!p.is_multilayer) = true then sp.J1.index
      else (p.J_tot + 1) * k + sp.J1.index) = a
    generalize p.ml.kappa.y a * p.ml.gamma k / (2 * p.dt) = kg
    generalize p.rho_cond.y a = rho
    generalize p.C.b.y a = cb
    generalize sp.Jsource.reMul e.steady_re e.steady_im (k - sp.K0.index) (i - sp.I0.index) 6 = v2
    generalize sp.Jsource.reMul e.steady_re e.steady_im (k - sp.K0.index) (i - sp.I0.index) 7 = v3
    generalize sp.J1.index = n
    rcases hcs with rfl | rfl <;> constructor <;> split_ifs <;>
      simp [CurrentFollows, injectE, hd, hc, SplitField.set, addSub] <;> ring
  · intro h0 h1 c hcs
    simp only [injE_K, h0, h1, if_true, Bool.false_eq_true, if_false]
    generalize p.ml.kappa.z sp.K0.index * p.ml.gamma kstale / (2 * p.dt) = kg
    generalize p.rho_cond.z sp.K0.index = rho
    generalize p.C.b.z sp.K0.index = cb
    generalize sp.Ksource.reMul e.steady_re e.steady_im (j - sp.J0.index) (i - sp.I0.index) 2 = v2
    generalize sp.Ksource.reMul e.steady_re e.steady_im (j - sp.J0.index) (i - sp.I0.index) 3 = v3
    generalize sp.K0.index = n
    rcases hcs with rfl | rfl <;> constructor <;> split_ifs <;>
      simp [CurrentFollows, injectE, hd, hc, SplitField.set, addSub] <;> ring
  · intro h0 h1 c hcs
    simp only [injE_K, h0, h1, if_true, Bool.false_eq_true, if_false]
    generalize p.ml.kappa.z sp.K1.index * p.ml.gamma kstale / (2 * p.dt) = kg
    generalize p.rho_cond.z sp.K1.index = rho
    generalize p.C.b.z sp.K1.index = cb
    generalize sp.Ksource.reMul e.steady_re e.steady_im (j - sp.J0.index) (i - sp.I0.index) 6 = v2
    generalize sp.Ksource.reMul e.steady_re e.steady_im (j - sp.J0.index) (i - sp.I0.index) 7 = v3
    generalize sp.K1.index = n
    rcases hcs with rfl | rfl <;> constructor <;> split_ifs <;>
      simp [CurrentFollows, injectE, hd, hc, SplitField.set, addSub] <;> ring

end CurrentFaceProofs

/-- C30 at a failing input: the background `exParams` (dispersive multilayer, conductive,
`C.b = 2`, `rho = 2`, `kappa * gamma / (2 * dt) = 2`), face I0 applied alone with source value
1, zero fields.  At the cell `[1][1][1]` of component `zx` the E split field changes by
`dE = -2`, `J_c` by `4 = -rho * dE` and `J_s` by `4 = -kappa * gamma / (2 * dt) * dE`, not by
`+kappa * gamma / (2 * dt) * dE = -4`. -/
theorem C30_injection_current_relation_witness :
    exParams.is_disp_ml = true ∧ exParams.is_cond = true ∧
    exSourceI0.I0.apply = true ∧ exSourceI0.I1.apply = false ∧
    (injE_I exParams exSourceI0 exEnvelope 1 1 (zeroGrid, 0)).1.E_s .zx 1 1 1 = -2 ∧
    (injE_I exParams exSourceI0 exEnvelope 1 1 (zeroGrid, 0)).1.J_c .zx 1 1 1 = 4 ∧
    (injE_I exParams exSourceI0 exEnvelope 1 1 (zeroGrid, 0)).1.J_s .zx 1 1 1 = 4 ∧
    exParams.ml.kappa.x (injE_I exParams exSourceI0 exEnvelope 1 1 (zeroGrid, 0)).2 *
      exParams.ml.gamma 1 / (2 * exParams.dt) = 2 ∧
    CurrentFollows Grid.J_s zeroGrid
      (injE_I exParams exSourceI0 exEnvelope 1 1 (zeroGrid, 0)).1 .zx 1 1 exSourceI0.I0.index
      (-(exParams.ml.kappa.x (injE_I exParams exSourceI0 exEnvelope 1 1 (zeroGrid, 0)).2 *
        exParams.ml.gamma 1 / (2 * exParams.dt))) := by
  refine ⟨rfl, rfl, rfl, rfl, ?_, ?_, ?_, ?_,
    ((C30_injection_current_relation exParams exSourceI0 exEnvelope zeroGrid 0 0 1 1 1
      rfl rfl).1 rfl rfl .zx (Or.inl rfl)).1⟩ <;>
    norm_num [injE_I, exSourceI0, exParams, exEnvelope, zeroGrid, injectE, SplitField.set,
      addSub, SourceTensor.reMul, exTensor, constXYZ, SourceParams.belowK1] <;>
    (intro h; cases h)

end TDMS
